import Mathlib

/-!
vulkan-minimal-sample: queue-family selection, bring-up, teardown, frame loop.

A shallow embedding of `src/vkApp.cpp`, `src/timer.h` and `src/win32App.cpp`.
The program never inspects a Vulkan handle, so the model keeps only what the
control flow of the program depends on: the status codes returned by the
driver, the queue-family capability masks, the sizes of the per-image
vectors, and the telemetry counters.  Every call that reaches the driver or
the window system is recorded as an event, in program order.
-/

namespace VkSample

/-! ## Vulkan constants (values of `vulkan_core.h`) -/

/-- The `VkResult` status codes are signed 32-bit enumerators. -/
abbrev VkResult := Int

def VK_SUCCESS : VkResult := 0
def VK_NOT_READY : VkResult := 1
def VK_TIMEOUT : VkResult := 2
def VK_SUBOPTIMAL_KHR : VkResult := 1000001003
def VK_ERROR_OUT_OF_HOST_MEMORY : VkResult := -1
def VK_ERROR_DEVICE_LOST : VkResult := -4
def VK_ERROR_EXTENSION_NOT_PRESENT : VkResult := -7
def VK_ERROR_OUT_OF_DATE_KHR : VkResult := -1000001004

/-- The `VkQueueFlagBits` enumerators; a `VkQueueFlags` mask is their
bitwise or. -/
def VK_QUEUE_GRAPHICS_BIT : Nat := 1
def VK_QUEUE_COMPUTE_BIT : Nat := 2
def VK_QUEUE_TRANSFER_BIT : Nat := 4
def VK_QUEUE_SPARSE_BINDING_BIT : Nat := 8

/-- The fields of `VkQueueFamilyProperties` the program reads. -/
structure VkQueueFamilyProperties where
  queueFlags : Nat
  queueCount : Nat
  deriving DecidableEq, Repr

/-! ## `VkApp::chooseFamilyIndex` (vkApp.cpp, lines 574-611) -/

/-- The loop shape shared by the three scans of `chooseFamilyIndex`:
`for (auto const& property: queueFamilyProperties)` with a running
`queueFamilyIndex`, returning the index at the first property the body
accepts.  `none` means the loop ran to its end without returning.  The
vector is resized to a `uint32_t` count in `createPhysicalDevice`, so the
`uint32_t` index cannot wrap. -/
def scanFamilies (accept : VkQueueFamilyProperties → Bool) :
    List VkQueueFamilyProperties → Nat → Option Nat
  | [], _ => none
  | property :: rest, queueFamilyIndex =>
    if accept property then some queueFamilyIndex
    else scanFamilies accept rest (queueFamilyIndex + 1)

/-- Body of the loop at lines 579-588: `property.queueFlags & queueType`
is non-zero and `hasGraphics` is zero. -/
def acceptCompute (queueType : Nat) (property : VkQueueFamilyProperties) : Bool :=
  (property.queueFlags &&& queueType != 0) &&
    (property.queueFlags &&& VK_QUEUE_GRAPHICS_BIT == 0)

/-- Body of the loop at lines 592-601: `property.queueFlags & queueType`
is non-zero and `hasGraphicsOrCompute` is zero. -/
def acceptTransfer (queueType : Nat) (property : VkQueueFamilyProperties) : Bool :=
  (property.queueFlags &&& queueType != 0) &&
    (property.queueFlags &&& (VK_QUEUE_GRAPHICS_BIT ||| VK_QUEUE_COMPUTE_BIT) == 0)

/-- Body of the loop at lines 604-609: `property.queueFlags & queueType`
is non-zero. -/
def acceptAny (queueType : Nat) (property : VkQueueFamilyProperties) : Bool :=
  property.queueFlags &&& queueType != 0

/-- Embedding of `VkApp::chooseFamilyIndex`; the member vector
`queueFamilyProperties` is passed explicitly. -/
def chooseFamilyIndex (queueFamilyProperties : List VkQueueFamilyProperties)
    (queueType : Nat) : Nat :=
  let dedicated : Option Nat :=
    if queueType = VK_QUEUE_COMPUTE_BIT then
      scanFamilies (acceptCompute queueType) queueFamilyProperties 0
    else if queueType = VK_QUEUE_TRANSFER_BIT ∨ queueType = VK_QUEUE_SPARSE_BINDING_BIT then
      scanFamilies (acceptTransfer queueType) queueFamilyProperties 0
    else none
  match dedicated with
  | some queueFamilyIndex => queueFamilyIndex
  | none =>
    match scanFamilies (acceptAny queueType) queueFamilyProperties 0 with
    | some queueFamilyIndex => queueFamilyIndex
    | none => 0

/-! ## Queue-creation requests of `VkApp::createLogicalDevice` (lines 258-283) -/

/-- The fields of `VkDeviceQueueCreateInfo` set by the program (the
priority array is the constant `{1.f}`). -/
structure VkDeviceQueueCreateInfo where
  flags : Nat
  queueFamilyIndex : Nat
  queueCount : Nat
  deriving DecidableEq, Repr

/-- The vector `queueCreateInfos` handed to `vkCreateDevice`. -/
def queueCreateInfos (queueFamilyProperties : List VkQueueFamilyProperties) :
    List VkDeviceQueueCreateInfo :=
  let graphicsQueueInfo : VkDeviceQueueCreateInfo :=
    { flags := 0
      queueFamilyIndex := chooseFamilyIndex queueFamilyProperties VK_QUEUE_GRAPHICS_BIT
      queueCount := 1 }
  let computeQueueInfo : VkDeviceQueueCreateInfo :=
    { graphicsQueueInfo with
      queueFamilyIndex := chooseFamilyIndex queueFamilyProperties VK_QUEUE_COMPUTE_BIT }
  let transferQueueInfo : VkDeviceQueueCreateInfo :=
    { graphicsQueueInfo with
      queueFamilyIndex := chooseFamilyIndex queueFamilyProperties VK_QUEUE_TRANSFER_BIT }
  let infos₀ := [graphicsQueueInfo]
  let infos₁ :=
    if computeQueueInfo.queueFamilyIndex ≠ graphicsQueueInfo.queueFamilyIndex then
      infos₀ ++ [computeQueueInfo]
    else infos₀
  if transferQueueInfo.queueFamilyIndex ≠ graphicsQueueInfo.queueFamilyIndex ∧
      transferQueueInfo.queueFamilyIndex ≠ computeQueueInfo.queueFamilyIndex then
    infos₁ ++ [transferQueueInfo]
  else infos₁

/-! ## Vocabulary of the specification for family selection -/

/-- A family "has" a capability bit when the bit is set in its mask. -/
def hasBit (property : VkQueueFamilyProperties) (bit : Nat) : Prop :=
  property.queueFlags &&& bit ≠ 0

instance (property : VkQueueFamilyProperties) (bit : Nat) : Decidable (hasBit property bit) := by
  unfold hasBit; infer_instance

/-- The index `i` names the first element of `l`, in list order, that
satisfies `P`. -/
def IsFirstIndex {α : Type} (P : α → Prop) (l : List α) (i : Nat) : Prop :=
  (∃ x, l[i]? = some x ∧ P x) ∧ ∀ j, j < i → ∀ y, l[j]? = some y → ¬ P y

/-- A family is dedicated to a role, in the words of the specification:
for compute it has the compute bit and not the graphics bit; for transfer
and sparse binding it has the requested bit and neither the graphics nor
the compute bit; no family is dedicated to graphics. -/
def dedicatedFor (queueType : Nat) (property : VkQueueFamilyProperties) : Prop :=
  if queueType = VK_QUEUE_COMPUTE_BIT then
    hasBit property VK_QUEUE_COMPUTE_BIT ∧ ¬ hasBit property VK_QUEUE_GRAPHICS_BIT
  else if queueType = VK_QUEUE_TRANSFER_BIT ∨ queueType = VK_QUEUE_SPARSE_BINDING_BIT then
    hasBit property queueType ∧ ¬ hasBit property VK_QUEUE_GRAPHICS_BIT ∧
      ¬ hasBit property VK_QUEUE_COMPUTE_BIT
  else False

/-! ## Objects, events and program steps -/

/-- The Vulkan objects owned by `VkApp`, named after the members that hold
their handles.  `cmdBuffers count` is the array of graphics command buffers,
which one `vkAllocateCommandBuffers` call allocates and one
`vkFreeCommandBuffers` call frees. -/
inductive VkObject where
  | vkInstance
  | debugReportCallback
  | device
  | surface
  | swapchain
  | imageView (i : Nat)
  | renderPass
  | framebuffer (i : Nat)
  | graphicsCmdPool
  | computeCmdPool
  | transferCmdPool
  | cmdBuffers (count : Nat)
  | computeCmdBuffer
  | transferCmdBuffer
  | presentSemaphore
  | renderFinishedSemaphore
  | cmdSubmitFence (i : Nat)
  | transferFence
  deriving DecidableEq, Repr

/-- The calls the program makes to the driver and to the window system.
Calls that return a `VkResult` carry the status the driver returned. -/
inductive Event where
  | create (object : VkObject) (result : VkResult)
  | destroy (object : VkObject)
  | acquireNextImage (result : VkResult)
  | outputDebugString (message : String)
  | resetFences (imageIndex : Nat)
  | resetCommandBuffer (imageIndex : Nat)
  | beginCommandBuffer (imageIndex : Nat) (result : VkResult)
  | cmdBeginRenderPass (imageIndex : Nat)
  | cmdEndRenderPass (imageIndex : Nat)
  | endCommandBuffer (imageIndex : Nat)
  | queueSubmit (imageIndex : Nat) (result : VkResult)
  | queuePresent (imageIndex : Nat) (result : VkResult)
  | waitForFences (imageIndex : Nat) (result : VkResult)
  | setWindowText (caption : String)
  deriving DecidableEq, Repr

/-! ## `float` arithmetic (IEEE 754 binary32)

A `float` is represented by the rational number it denotes.  Every
operation of the program on `float`s computes the exact result and rounds
it to the nearest binary32 value, ties to even (the default rounding mode,
each operation evaluated in `float` precision).  The program produces no
infinity or NaN: its `float`s come from a 64-bit microsecond count and stay
far below 2^128, so overflow is not represented. -/

/-- Nearest integer, ties to the even one. -/
def roundHalfEven (x : ℚ) : ℤ :=
  if x - ⌊x⌋ < 1 / 2 then ⌊x⌋
  else if 1 / 2 < x - ⌊x⌋ then ⌊x⌋ + 1
  else if ⌊x⌋ % 2 = 0 then ⌊x⌋ else ⌊x⌋ + 1

/-- Number of binary digits of `n`, for `n ≤ fuel`. -/
def bitLength : Nat → Nat → Nat
  | 0, _ => 0
  | fuel + 1, n => if n = 0 then 0 else bitLength fuel (n / 2) + 1

/-- The binary exponent `e` of a non-zero `x`: `2^e ≤ |x| < 2^(e+1)`.  The
difference `k` of the digit counts of numerator and denominator places
`|x|` between `2^(k-1)` and `2^(k+1)`. -/
def binade (x : ℚ) : ℤ :=
  let k : ℤ := (bitLength x.num.natAbs x.num.natAbs : ℤ) - (bitLength x.den x.den : ℤ)
  if (2 : ℚ) ^ k ≤ |x| then k else k - 1

/-- The `float` nearest to `x`: a significand of 24 bits, so a spacing of
`2^(e-23)` in the binade of exponent `e`, and the spacing `2^(-149)` of the
subnormal numbers below `2^(-126)`. -/
def float32 (x : ℚ) : ℚ :=
  let ulp : ℚ := 2 ^ (max (binade x) (-126) - 23)
  (roundHalfEven (x / ulp) : ℚ) * ulp

/-- Embedding of `Timer` (timer.h).  Time points of `HiResClock` are counted
in nanoseconds. -/
structure Timer where
  prev : Int
  running : Bool
  deriving DecidableEq, Repr

/-- `Timer::run`, with the clock reading `now`. -/
def Timer.run (_timer : Timer) (now : Int) : Timer :=
  { prev := now, running := true }

/-- `Timer::millisecondsElapsed`, with the clock reading `now`:
`duration_cast<microseconds>` truncates the nanosecond difference; the
microsecond count is converted to `float` and multiplied by the `float`
constant `0.001f`, the product being rounded to `float` again. -/
def Timer.millisecondsElapsed (timer : Timer) (now : Int) : ℚ × Timer :=
  let ms : Int := Int.tdiv (now - timer.prev) 1000
  (float32 (float32 (ms : ℚ) * float32 (1 / 1000)), { timer with prev := now })

/-- The members of `VkApp` the control flow depends on.  A vector of
handles is represented by its size. -/
structure VkApp where
  debugReport : Bool
  queueFamilyProperties : List VkQueueFamilyProperties
  swapchainImages : Nat
  swapchainImageViews : Nat
  framebuffers : Nat
  cmdBuffers : Nat
  cmdSubmitFences : Nat
  timer : Timer
  time : ℚ
  frameCount : Nat
  fps : Nat

/-- State of a `VkApp` after its member initialisers (vkApp.h, lines
35-64), before the constructor body runs. -/
def VkApp.initial (debugReport : Bool) : VkApp :=
  { debugReport := debugReport
    queueFamilyProperties := []
    swapchainImages := 0
    swapchainImageViews := 0
    framebuffers := 0
    cmdBuffers := 0
    cmdSubmitFences := 0
    timer := { prev := 0, running := false }
    time := 0
    frameCount := 0
    fps := 0 }

/-- Result of running a piece of the program: the state reached, the calls
made in program order, and the message of the `std::runtime_error` if one
was thrown. -/
structure Step where
  app : VkApp
  events : List Event
  thrown : Option String

/-- A piece of the program, run from a state. -/
abbrev Proc := VkApp → Step

/-- One call to the driver or the window system. -/
def call (event : Event) : Proc := fun app =>
  { app := app, events := [event], thrown := none }

/-- The macro `CHECK_SUCCEEDED(result, message)` (vkApp.cpp, lines 11-13). -/
def CHECK_SUCCEEDED (result : VkResult) (message : String) : Proc := fun app =>
  { app := app, events := [],
    thrown := if VK_SUCCESS ≠ result then some message else none }

/-- An assignment to members. -/
def assign (f : VkApp → VkApp) : Proc := fun app =>
  { app := f app, events := [], thrown := none }

/-- Statements in sequence: a throw ends the sequence. -/
def seq : List Proc → Proc
  | [], app => { app := app, events := [], thrown := none }
  | p :: rest, app =>
    let s := p app
    match s.thrown with
    | some message => { app := s.app, events := s.events, thrown := some message }
    | none =>
      let r := seq rest s.app
      { app := r.app, events := s.events ++ r.events, thrown := r.thrown }

/-- A range-for loop over a vector of `count` elements, `body i` being the
body at the element of index `i`. -/
def forEach (count : Nat) (body : Nat → Proc) : Proc :=
  seq ((List.range count).map body)

/-! ## Bring-up: the constructor `VkApp::VkApp` (vkApp.cpp, lines 15-29) -/

/-- What the platform returns to the calls of the constructor. -/
structure Driver where
  debugReport : Bool
  createInstance : VkResult
  createDebugReportCallback : VkResult
  enumeratePhysicalDevices : VkResult
  queueFamilyProperties : List VkQueueFamilyProperties
  createDevice : VkResult
  createWin32Surface : VkResult
  createSwapchain : VkResult
  swapchainImageCount : Nat
  createImageView : Nat → VkResult
  createRenderPass : VkResult
  createFramebuffer : Nat → VkResult
  createGraphicsCmdPool : VkResult
  createComputeCmdPool : VkResult
  createTransferCmdPool : VkResult
  allocateCmdBuffers : VkResult
  allocateComputeCmdBuffer : VkResult
  allocateTransferCmdBuffer : VkResult
  createPresentSemaphore : VkResult
  createRenderFinishedSemaphore : VkResult
  createCmdSubmitFence : Nat → VkResult
  createTransferFence : VkResult
  startTime : Int

/-- `VkApp::createInstance` (lines 152-210).  `debugReport` stands for a
`_DEBUG` build in which the debug-report entry points resolve. -/
def createInstance (d : Driver) : Proc :=
  seq ([call (.create .vkInstance d.createInstance),
        CHECK_SUCCEEDED d.createInstance "failed to create Vulkan instance"] ++
    if d.debugReport then
      [call (.create .debugReportCallback d.createDebugReportCallback),
       CHECK_SUCCEEDED d.createDebugReportCallback "failed to create debug report callback"]
    else [])

/-- `VkApp::createPhysicalDevice` (lines 212-229): no object is created. -/
def createPhysicalDevice (d : Driver) : Proc :=
  seq [CHECK_SUCCEEDED d.enumeratePhysicalDevices "failed to enumerate physical devices",
       assign (fun app => { app with queueFamilyProperties := d.queueFamilyProperties })]

/-- `VkApp::createLogicalDevice` (lines 231-297); the queue-creation
requests passed to `vkCreateDevice` are `queueCreateInfos`.  The `_DEBUG`
listing of absent extensions (lines 238-254) only writes to the debug
output and is left out. -/
def createLogicalDevice (d : Driver) : Proc :=
  seq [call (.create .device d.createDevice),
       fun app =>
        { app := app, events := [],
          thrown := if VK_ERROR_EXTENSION_NOT_PRESENT = d.createDevice then
            some "required extension not present" else none },
       CHECK_SUCCEEDED d.createDevice "failed to create device"]

/-- `VkApp::createWin32Surface` (lines 299-309). -/
def createWin32Surface (d : Driver) : Proc :=
  seq [call (.create .surface d.createWin32Surface),
       CHECK_SUCCEEDED d.createWin32Surface "failed to create Win32 surface"]

/-- Body of the loop of `createSwapchain` (lines 356-363) at the image of
index `i`. -/
def createImageViewAt (d : Driver) (i : Nat) : Proc :=
  seq [call (.create (.imageView i) (d.createImageView i)),
       CHECK_SUCCEEDED (d.createImageView i) "failed to create image view",
       assign (fun app => { app with swapchainImageViews := app.swapchainImageViews + 1 })]

/-- `VkApp::createSwapchain` (lines 311-364). -/
def createSwapchain (d : Driver) : Proc :=
  seq [call (.create .swapchain d.createSwapchain),
       CHECK_SUCCEEDED d.createSwapchain "failed to create swapchain",
       assign (fun app => { app with swapchainImages := d.swapchainImageCount }),
       fun app => forEach app.swapchainImages (createImageViewAt d) app]

/-- `VkApp::createRenderPass` (lines 366-422). -/
def createRenderPass (d : Driver) : Proc :=
  seq [call (.create .renderPass d.createRenderPass),
       CHECK_SUCCEEDED d.createRenderPass "failed to create render pass"]

/-- Body of the loop of `createFramebuffer` (lines 439-444) at the
framebuffer of index `i`. -/
def createFramebufferAt (d : Driver) (i : Nat) : Proc :=
  seq [call (.create (.framebuffer i) (d.createFramebuffer i)),
       CHECK_SUCCEEDED (d.createFramebuffer i) "failed to create framebuffer"]

/-- `VkApp::createFramebuffer` (lines 424-445). -/
def createFramebuffer (d : Driver) : Proc :=
  seq [assign (fun app => { app with framebuffers := app.swapchainImageViews }),
       fun app => forEach app.framebuffers (createFramebufferAt d) app]

/-- `VkApp::createCommandPools` (lines 447-462).  The local `result` is
overwritten by the second `vkCreateCommandPool` before the first check, so
both checks that precede the third creation test the status of the compute
pool. -/
def createCommandPools (d : Driver) : Proc :=
  seq [call (.create .graphicsCmdPool d.createGraphicsCmdPool),
       call (.create .computeCmdPool d.createComputeCmdPool),
       CHECK_SUCCEEDED d.createComputeCmdPool "failed to create graphics command pool",
       CHECK_SUCCEEDED d.createComputeCmdPool "failed to create compute command pool",
       call (.create .transferCmdPool d.createTransferCmdPool),
       CHECK_SUCCEEDED d.createTransferCmdPool "failed to create transfer command pool"]

/-- `VkApp::createCommandBuffers` (lines 464-483). -/
def createCommandBuffers (d : Driver) : Proc :=
  seq [assign (fun app => { app with cmdBuffers := app.swapchainImages }),
       fun app => call (.create (.cmdBuffers app.cmdBuffers) d.allocateCmdBuffers) app,
       CHECK_SUCCEEDED d.allocateCmdBuffers "failed to create graphics command buffers",
       call (.create .computeCmdBuffer d.allocateComputeCmdBuffer),
       CHECK_SUCCEEDED d.allocateComputeCmdBuffer "failed to create compute command buffer",
       call (.create .transferCmdBuffer d.allocateTransferCmdBuffer),
       CHECK_SUCCEEDED d.allocateTransferCmdBuffer "failed to create transfer command buffer"]

/-- Body of the loop of `createSyncPrimitices` (lines 502-503) at the fence
of index `i`: the status is stored in `result` and not tested. -/
def createCmdSubmitFenceAt (d : Driver) (i : Nat) : Proc :=
  call (.create (.cmdSubmitFence i) (d.createCmdSubmitFence i))

/-- `VkApp::createSyncPrimitices` (lines 485-508), with `WAIT_PRESENT_FENCE`
defined (line 9).  The local `result` is overwritten by each creation; it is
tested after the second semaphore and after the transfer fence only. -/
def createSyncPrimitices (d : Driver) : Proc :=
  seq [call (.create .presentSemaphore d.createPresentSemaphore),
       call (.create .renderFinishedSemaphore d.createRenderFinishedSemaphore),
       CHECK_SUCCEEDED d.createRenderFinishedSemaphore "failed to create semephore",
       assign (fun app => { app with cmdSubmitFences := app.cmdBuffers }),
       fun app => forEach app.cmdSubmitFences (createCmdSubmitFenceAt d) app,
       call (.create .transferFence d.createTransferFence),
       CHECK_SUCCEEDED d.createTransferFence "failed to create fence"]

/-- The constructor `VkApp::VkApp`, run on the member-initialised object.
When `thrown` is `some _` the object is never constructed. -/
def construct (d : Driver) : Step :=
  seq [createInstance d,
       createPhysicalDevice d,
       createLogicalDevice d,
       createWin32Surface d,
       createSwapchain d,
       createRenderPass d,
       createFramebuffer d,
       createCommandPools d,
       createCommandBuffers d,
       createSyncPrimitices d,
       assign (fun app => { app with timer := app.timer.run d.startTime })]
    (VkApp.initial d.debugReport)

/-! ## Teardown: the destructor `VkApp::~VkApp` (vkApp.cpp, lines 31-59) -/

/-- The release calls of the destructor, in program order. -/
def destruct (app : VkApp) : List Event :=
  [.destroy .transferFence] ++
  (List.range app.cmdSubmitFences).map (fun i => .destroy (.cmdSubmitFence i)) ++
  [.destroy .presentSemaphore,
   .destroy .renderFinishedSemaphore,
   .destroy .transferCmdBuffer,
   .destroy .computeCmdBuffer,
   .destroy (.cmdBuffers app.cmdBuffers),
   .destroy .transferCmdPool,
   .destroy .computeCmdPool,
   .destroy .graphicsCmdPool] ++
  (List.range app.framebuffers).map (fun i => .destroy (.framebuffer i)) ++
  [.destroy .renderPass] ++
  (List.range app.swapchainImageViews).map (fun i => .destroy (.imageView i)) ++
  [.destroy .swapchain,
   .destroy .device,
   .destroy .surface] ++
  (if app.debugReport then [.destroy .debugReportCallback] else []) ++
  [.destroy .vkInstance]

/-- The objects created by a sequence of calls, in order of creation. -/
def createdObjects (events : List Event) : List VkObject :=
  events.filterMap (fun e =>
    match e with
    | .create object result => if result = VK_SUCCESS then some object else none
    | _ => none)

/-- The objects released by a sequence of calls, in order of release. -/
def releasedObjects (events : List Event) : List VkObject :=
  events.filterMap (fun e =>
    match e with
    | .destroy object => some object
    | _ => none)

/-- Every call of the bring-up that returns a status returns
`VK_SUCCESS`. -/
def Driver.AllSucceed (d : Driver) : Prop :=
  d.createInstance = VK_SUCCESS ∧
  d.createDebugReportCallback = VK_SUCCESS ∧
  d.enumeratePhysicalDevices = VK_SUCCESS ∧
  d.createDevice = VK_SUCCESS ∧
  d.createWin32Surface = VK_SUCCESS ∧
  d.createSwapchain = VK_SUCCESS ∧
  (∀ i, d.createImageView i = VK_SUCCESS) ∧
  d.createRenderPass = VK_SUCCESS ∧
  (∀ i, d.createFramebuffer i = VK_SUCCESS) ∧
  d.createGraphicsCmdPool = VK_SUCCESS ∧
  d.createComputeCmdPool = VK_SUCCESS ∧
  d.createTransferCmdPool = VK_SUCCESS ∧
  d.allocateCmdBuffers = VK_SUCCESS ∧
  d.allocateComputeCmdBuffer = VK_SUCCESS ∧
  d.allocateTransferCmdBuffer = VK_SUCCESS ∧
  d.createPresentSemaphore = VK_SUCCESS ∧
  d.createRenderFinishedSemaphore = VK_SUCCESS ∧
  (∀ i, d.createCmdSubmitFence i = VK_SUCCESS) ∧
  d.createTransferFence = VK_SUCCESS

/-- A platform on which every call succeeds, with the given queue families
and number of swapchain images. -/
def Driver.succeeding (debugReport : Bool) (families : List VkQueueFamilyProperties)
    (imageCount : Nat) (startTime : Int) : Driver :=
  { debugReport := debugReport
    createInstance := VK_SUCCESS
    createDebugReportCallback := VK_SUCCESS
    enumeratePhysicalDevices := VK_SUCCESS
    queueFamilyProperties := families
    createDevice := VK_SUCCESS
    createWin32Surface := VK_SUCCESS
    createSwapchain := VK_SUCCESS
    swapchainImageCount := imageCount
    createImageView := fun _ => VK_SUCCESS
    createRenderPass := VK_SUCCESS
    createFramebuffer := fun _ => VK_SUCCESS
    createGraphicsCmdPool := VK_SUCCESS
    createComputeCmdPool := VK_SUCCESS
    createTransferCmdPool := VK_SUCCESS
    allocateCmdBuffers := VK_SUCCESS
    allocateComputeCmdBuffer := VK_SUCCESS
    allocateTransferCmdBuffer := VK_SUCCESS
    createPresentSemaphore := VK_SUCCESS
    createRenderFinishedSemaphore := VK_SUCCESS
    createCmdSubmitFence := fun _ => VK_SUCCESS
    createTransferFence := VK_SUCCESS
    startTime := startTime }

/-! ## The frame loop: `VkApp::onPaint` (vkApp.cpp, lines 71-137) -/

/-- What the platform returns to the calls of one `onPaint`:
the status of `vkAcquireNextImageKHR` and the index it writes to
`imageIndex` when it returns an image, the statuses of
`vkBeginCommandBuffer`, `vkQueueSubmit`, `vkQueuePresentKHR` and
`vkWaitForFences`, and the reading of the clock in
`Timer::millisecondsElapsed`. -/
structure Frame where
  acquireResult : VkResult
  acquiredImage : Nat
  beginResult : VkResult
  submitResult : VkResult
  presentResult : VkResult
  waitResult : VkResult
  now : Int
  deriving DecidableEq, Repr

/-- `std::roundf`: nearest integer, halfway cases away from zero; the
result is a `float` without rounding. -/
def roundf (x : ℚ) : ℤ :=
  if 0 ≤ x then ⌊x + 1 / 2⌋ else -⌊-x + 1 / 2⌋

/-- The conversion `(uint32_t)` of an integral `float`; C++ defines it only
for values in the range of `uint32_t`. -/
def toUint32 (x : ℤ) : Nat :=
  x.toNat % 2 ^ 32

/-- `VkApp::submit` (lines 510-530), with `WAIT_PRESENT_FENCE` defined: the
submission signals `cmdSubmitFences[imageIndex]`. -/
def submit (frame : Frame) (imageIndex : Nat) : Proc :=
  seq [call (.queueSubmit imageIndex frame.submitResult),
       CHECK_SUCCEEDED frame.submitResult "queue submission failed"]

/-- `VkApp::present` (lines 532-546). -/
def present (frame : Frame) (imageIndex : Nat) : Proc :=
  seq [call (.queuePresent imageIndex frame.presentResult),
       CHECK_SUCCEEDED frame.presentResult "present failed"]

/-- `VkApp::waitForPresentComplete` (lines 548-562), with
`WAIT_PRESENT_FENCE` defined: a wait of at most 10 ms on
`cmdSubmitFences[imageIndex]`. -/
def waitForPresentComplete (frame : Frame) (imageIndex : Nat) : Proc :=
  seq ([call (.waitForFences imageIndex frame.waitResult)] ++
    if VK_TIMEOUT = frame.waitResult then
      [call (.outputDebugString "timeout has expired\n")]
    else
      [CHECK_SUCCEEDED frame.waitResult "wait for fence failed"])

/-- The timing stage of `onPaint` (lines 125-136).  `frameCount` is a
`uint32_t`; `time` and `dt` are `float`s: the sum `time += dt`, the
quotient `time / 1000.f`, the conversion of `frameCount` to `float` and the
product are each rounded to `float`. -/
def timing (frame : Frame) : Proc := fun app =>
  let frameCount : Nat := (app.frameCount + 1) % 2 ^ 32
  let elapsed := app.timer.millisecondsElapsed frame.now
  let dt : ℚ := elapsed.1
  let time : ℚ := float32 (app.time + dt)
  if time > 1000 then
    let fps : Nat :=
      toUint32 (roundf (float32 (float32 (frameCount : ℚ) * float32 (time / 1000))))
    { app := { app with timer := elapsed.2, time := 0, frameCount := 0, fps := fps }
      events := [.setWindowText ("FPS: " ++ toString fps)]
      thrown := none }
  else
    { app := { app with timer := elapsed.2, time := time, frameCount := frameCount }
      events := []
      thrown := none }

/-- `VkApp::onPaint`.  The local `imageIndex` is initialised to 0 and
written by the driver only when the acquisition returns an image.  The
`assert` of line 96 is compiled out (release build); indexing the vectors
by `imageIndex` is not checked by the program. -/
def onPaint (frame : Frame) : Proc := fun app =>
  let imageIndex : Nat := if frame.acquireResult = VK_SUCCESS then frame.acquiredImage else 0
  if VK_TIMEOUT ≠ frame.acquireResult ∧ VK_SUCCESS ≠ frame.acquireResult then
    call (.acquireNextImage frame.acquireResult) app
  else
    seq ([call (.acquireNextImage frame.acquireResult)] ++
         (if VK_TIMEOUT = frame.acquireResult then
            [call (.outputDebugString "acquire image timeout has expired\n")]
          else []) ++
         [call (.resetFences imageIndex),
          call (.resetCommandBuffer imageIndex),
          call (.beginCommandBuffer imageIndex frame.beginResult)] ++
         (if VK_SUCCESS = frame.beginResult then
            [call (.cmdBeginRenderPass imageIndex),
             call (.cmdEndRenderPass imageIndex)]
          else []) ++
         [call (.endCommandBuffer imageIndex),
          submit frame imageIndex,
          present frame imageIndex,
          waitForPresentComplete frame imageIndex,
          timing frame]) app

/-- The idle iterations of `Win32App::run` (win32App.cpp, lines 90-106):
each element of the list is one iteration in which no message is pending
and the window is not minimised, so `onIdle`, hence `onPaint`, runs.  An
exception leaves the loop. -/
def run : List Frame → Proc
  | [], app => { app := app, events := [], thrown := none }
  | frame :: rest, app =>
    let s := onPaint frame app
    match s.thrown with
    | some message => { app := s.app, events := s.events, thrown := some message }
    | none =>
      let r := run rest s.app
      { app := r.app, events := s.events ++ r.events, thrown := r.thrown }

/-! ## Vocabulary of the specification for the frame loop -/

/-- A frame in which every call succeeds. -/
def Frame.Succeeds (frame : Frame) : Prop :=
  frame.acquireResult = VK_SUCCESS ∧ frame.beginResult = VK_SUCCESS ∧
  frame.submitResult = VK_SUCCESS ∧ frame.presentResult = VK_SUCCESS ∧
  frame.waitResult = VK_SUCCESS

instance (frame : Frame) : Decidable frame.Succeeds := by
  unfold Frame.Succeeds; infer_instance

/-- A frame in which every call succeeds, acquiring `image` at clock
reading `now`. -/
def Frame.succeeding (image : Nat) (now : Int) : Frame :=
  { acquireResult := VK_SUCCESS
    acquiredImage := image
    beginResult := VK_SUCCESS
    submitResult := VK_SUCCESS
    presentResult := VK_SUCCESS
    waitResult := VK_SUCCESS
    now := now }

/-- The microsecond counts `ms.count()` read by the timer in successive
frames that reach the timing stage. -/
def elapsedMicros : Timer → List Frame → List Int
  | _, [] => []
  | timer, frame :: rest =>
    Int.tdiv (frame.now - timer.prev) 1000 ::
      elapsedMicros (timer.millisecondsElapsed frame.now).2 rest

/-- The per-frame elapsed times `dt`, in milliseconds, of successive frames
that reach the timing stage. -/
def elapsedTimes : Timer → List Frame → List ℚ
  | _, [] => []
  | timer, frame :: rest =>
    (timer.millisecondsElapsed frame.now).1 ::
      elapsedTimes (timer.millisecondsElapsed frame.now).2 rest

/-- The values taken by `time` along the updates `time += dt` of successive
frames, each sum rounded to `float`, starting from `time`. -/
def runningTimes (time : ℚ) : List ℚ → List ℚ
  | [] => []
  | dt :: rest => float32 (time + dt) :: runningTimes (float32 (time + dt)) rest

/-- The value of `time` after the updates `time += dt` of successive
frames, starting from `time`. -/
def accumulatedTime (time : ℚ) : List ℚ → ℚ
  | [] => time
  | dt :: rest => accumulatedTime (float32 (time + dt)) rest

/-- The captions pushed to the window by a sequence of calls. -/
def captions (events : List Event) : List String :=
  events.filterMap (fun e =>
    match e with
    | .setWindowText caption => some caption
    | _ => none)

/-- Frames per second in the words of the specification: the frame count
divided by the accumulated time in seconds, rounded to the nearest
integer. -/
def roundedFramesPerSecond (frameCount : Nat) (timeMs : ℚ) : ℤ :=
  roundf ((frameCount : ℚ) / (timeMs / 1000))

/-- Frame-slot exclusivity on a sequence of calls: whenever the command
buffer of slot `i` is reset after a successful submission of slot `i`, a
wait on the fence of slot `i` has returned `VK_SUCCESS` in between. -/
def FenceObservedBeforeReuse (events : List Event) : Prop :=
  ∀ (i : Nat) (before between after : List Event),
    events = before ++ Event.queueSubmit i VK_SUCCESS :: between ++
      Event.resetCommandBuffer i :: after →
    Event.waitForFences i VK_SUCCESS ∈ between

/-- What the code ensures between a submission of slot `i` and a later
reset of its command buffer: the bounded wait on the fence of slot `i` was
made and returned either `VK_SUCCESS` or `VK_TIMEOUT`. -/
def FenceWaitedBeforeReuse (events : List Event) : Prop :=
  ∀ (i : Nat) (before between after : List Event),
    events = before ++ Event.queueSubmit i VK_SUCCESS :: between ++
      Event.resetCommandBuffer i :: after →
    Event.waitForFences i VK_SUCCESS ∈ between ∨
      Event.waitForFences i VK_TIMEOUT ∈ between

/-! ## Concrete runs used to evaluate the frame loop -/

/-- A constructed application on which every call of the bring-up
succeeded: one queue family, two swapchain images, clock started at 0. -/
def startedApp : VkApp :=
  (construct (Driver.succeeding false [⟨7, 1⟩] 2 0)).app

/-- Sixty frames in which every call succeeds, alternating between the two
images: forty frames of 17 ms, nineteen frames of 16 ms, and a last frame
of `lastMs` milliseconds (clock readings in nanoseconds).  With
`lastMs = 16` the elapsed times sum to exactly 1000 ms. -/
def sixtyFrames (lastMs : Nat) : List Frame :=
  (List.range 60).map (fun k =>
    Frame.succeeding (k % 2)
      (if k < 40 then ((17000000 * (k + 1) : Nat) : Int)
       else if k < 59 then ((680000000 + 16000000 * (k - 39) : Nat) : Int)
       else ((984000000 + 1000000 * lastMs : Nat) : Int)))

/-- Sixty frames in which every call succeeds, alternating between the two
images: five frames of 16007 µs, fifty-four frames of 17000 µs and a last
frame of 1965 µs.  The elapsed times sum to exactly 1000000 µs. -/
def sixtyUnevenFrames : List Frame :=
  (List.range 60).map (fun k =>
    Frame.succeeding (k % 2)
      (if k < 5 then ((16007000 * (k + 1) : Nat) : Int)
       else if k < 59 then ((80035000 + 17000000 * (k - 4) : Nat) : Int)
       else ((1000000000 : Nat) : Int)))

/-- Three frames on a two-image swapchain, acquiring the images 0, 1, 0.
Every call succeeds, except that the bounded wait on the fence at the end
of the first frame returns `firstWait`. -/
def alternatingFrames (firstWait : VkResult) : List Frame :=
  [{ Frame.succeeding 0 16000000 with waitResult := firstWait },
   Frame.succeeding 1 32000000,
   Frame.succeeding 0 48000000]

/-! ## Vocabulary of the specification for teardown order -/

/-- The pairs of objects, first created first, that the destructor releases
in the order of their creation: the device and the surface, the two
semaphores, and two elements of the same per-image vector (image views,
framebuffers, per-slot fences). -/
def sameOrderPair : VkObject → VkObject → Bool
  | .device, .surface => true
  | .presentSemaphore, .renderFinishedSemaphore => true
  | .imageView _, .imageView _ => true
  | .framebuffer _, .framebuffer _ => true
  | .cmdSubmitFence _, .cmdSubmitFence _ => true
  | _, _ => false

/-- Position of an object in the constructor: the rank of the statement
that creates it, and the index inside a per-image vector. -/
def createKey : VkObject → Nat × Nat
  | .vkInstance => (0, 0)
  | .debugReportCallback => (1, 0)
  | .device => (2, 0)
  | .surface => (3, 0)
  | .swapchain => (4, 0)
  | .imageView i => (5, i)
  | .renderPass => (6, 0)
  | .framebuffer i => (7, i)
  | .graphicsCmdPool => (8, 0)
  | .computeCmdPool => (9, 0)
  | .transferCmdPool => (10, 0)
  | .cmdBuffers _ => (11, 0)
  | .computeCmdBuffer => (12, 0)
  | .transferCmdBuffer => (13, 0)
  | .presentSemaphore => (14, 0)
  | .renderFinishedSemaphore => (15, 0)
  | .cmdSubmitFence i => (16, i)
  | .transferFence => (17, 0)

/-- Position of an object in the destructor, likewise. -/
def releaseKey : VkObject → Nat × Nat
  | .transferFence => (0, 0)
  | .cmdSubmitFence i => (1, i)
  | .presentSemaphore => (2, 0)
  | .renderFinishedSemaphore => (3, 0)
  | .transferCmdBuffer => (4, 0)
  | .computeCmdBuffer => (5, 0)
  | .cmdBuffers _ => (6, 0)
  | .transferCmdPool => (7, 0)
  | .computeCmdPool => (8, 0)
  | .graphicsCmdPool => (9, 0)
  | .framebuffer i => (10, i)
  | .renderPass => (11, 0)
  | .imageView i => (12, i)
  | .swapchain => (13, 0)
  | .device => (14, 0)
  | .surface => (15, 0)
  | .debugReportCallback => (16, 0)
  | .vkInstance => (17, 0)

/-- Lexicographic order on positions. -/
def keyLt (k₁ k₂ : Nat × Nat) : Prop :=
  k₁.1 < k₂.1 ∨ (k₁.1 = k₂.1 ∧ k₁.2 < k₂.2)

/-- The list of positions `l` is in increasing order and all its ranks are
at least `m`. -/
def SortedFrom (m : Nat) (l : List (Nat × Nat)) : Prop :=
  List.Pairwise keyLt l ∧ ∀ k ∈ l, m ≤ k.1

/-! ## The entry point `WinMain` (win32App.cpp, lines 158-177) -/

/-- What `WinMain` leaves behind: the calls made to the driver and to the
window, in program order, the text of the `MessageBoxA` of the `catch`
block if it was shown, and the value returned. -/
structure ProcessExit where
  events : List Event
  messageBox : Option String
  exitCode : Int

/-- `WinMain`: `appFactory` constructs the `VkApp`, `show` and `run` follow
inside the `try` block, the `catch` block shows the message of the
exception, and 0 is returned.  The `std::unique_ptr` is assigned only when
the constructor returns, so `~VkApp` runs at the end of `WinMain` exactly
when the construction completed; an exception thrown by the constructor
unwinds only the base class and the members.  The calls of `Win32App` on
the window (creation, `show`, destruction) return nothing the program
reads and are left out. -/
def WinMain (d : Driver) (frames : List Frame) : ProcessExit :=
  let built := construct d
  match built.thrown with
  | some message =>
    { events := built.events, messageBox := some message, exitCode := 0 }
  | none =>
    let looped := run frames built.app
    { events := built.events ++ looped.events ++ destruct looped.app
      messageBox := looped.thrown
      exitCode := 0 }

/-! ## Pieces of `onPaint` named for the proofs -/

/-- The value of the local `imageIndex` after the acquisition. -/
def Frame.imageIndex (frame : Frame) : Nat :=
  if frame.acquireResult = VK_SUCCESS then frame.acquiredImage else 0

/-- The calls of the acquire and record stages of `onPaint` (lines 75-119)
when the acquisition returns `VK_SUCCESS` or `VK_TIMEOUT`. -/
def Frame.recordingCalls (frame : Frame) : List Event :=
  [Event.acquireNextImage frame.acquireResult] ++
  (if VK_TIMEOUT = frame.acquireResult then
     [Event.outputDebugString "acquire image timeout has expired\n"]
   else []) ++
  [Event.resetFences frame.imageIndex,
   Event.resetCommandBuffer frame.imageIndex,
   Event.beginCommandBuffer frame.imageIndex frame.beginResult] ++
  (if VK_SUCCESS = frame.beginResult then
     [Event.cmdBeginRenderPass frame.imageIndex,
      Event.cmdEndRenderPass frame.imageIndex]
   else []) ++
  [Event.endCommandBuffer frame.imageIndex]

/-- The stages of `onPaint` after recording (lines 121-136). -/
def afterRecording (frame : Frame) : Proc :=
  seq [submit frame frame.imageIndex, present frame frame.imageIndex,
       waitForPresentComplete frame frame.imageIndex, timing frame]

/-- The frame reaches the timing stage of `onPaint`: the acquisition
returns `VK_SUCCESS` or `VK_TIMEOUT`, the submission and the presentation
succeed, and the wait on the fence returns `VK_SUCCESS` or `VK_TIMEOUT`. -/
def Frame.ReachesTiming (frame : Frame) : Prop :=
  (frame.acquireResult = VK_SUCCESS ∨ frame.acquireResult = VK_TIMEOUT) ∧
  frame.submitResult = VK_SUCCESS ∧ frame.presentResult = VK_SUCCESS ∧
  (frame.waitResult = VK_SUCCESS ∨ frame.waitResult = VK_TIMEOUT)

instance (frame : Frame) : Decidable frame.ReachesTiming := by
  unfold Frame.ReachesTiming; infer_instance

/-- A frame whose acquisition times out, no image being returned, and in
which every later call succeeds. -/
def Frame.timedOut (now : Int) : Frame :=
  { Frame.succeeding 0 now with acquireResult := VK_TIMEOUT }

/-! ## Vocabulary of the specification for startup failure and caption updates -/

/-- The piece of program `p` makes only creation calls. -/
def OnlyCreates (p : Proc) : Prop :=
  ∀ app, ∀ e ∈ (p app).events, ∃ object result, e = Event.create object result

/-- The per-frame elapsed times `dt`, in milliseconds, read by the timing
stage along a sequence of frames: a frame that does not reach the timing
stage does not read the clock, so its duration is part of the elapsed time
of the next frame that does. -/
def timedElapsed : Timer → List Frame → List ℚ
  | _, [] => []
  | timer, frame :: rest =>
    if frame.ReachesTiming then
      (timer.millisecondsElapsed frame.now).1 ::
        timedElapsed (timer.millisecondsElapsed frame.now).2 rest
    else timedElapsed timer rest

/-- Two frames in which no caption is pushed: one in which every call
succeeds, on image 1, and one whose acquisition returns
`VK_ERROR_OUT_OF_DATE_KHR`. -/
def quietFrames : List Frame :=
  [Frame.succeeding 1 1516000000,
   { Frame.succeeding 0 1532000000 with acquireResult := VK_ERROR_OUT_OF_DATE_KHR }]

/-- The frames that follow a first frame of 1500 ms: 189 frames of 5291 µs
in which every call succeeds, alternating between the two images.  Their
elapsed times sum to 999999 µs. -/
def briefFrames : List Frame :=
  (List.range 189).map (fun k =>
    Frame.succeeding (k % 2) ((1500000000 + 5291000 * (k + 1) : Nat) : Int))

/-- The object is one of the per-slot submission fences. -/
def isCmdSubmitFence : VkObject → Bool
  | .cmdSubmitFence _ => true
  | _ => false

/-! ## Theorems -/

theorem scanFamilies_none (accept : VkQueueFamilyProperties → Bool)
    (l : List VkQueueFamilyProperties) (k : Nat) :
    scanFamilies accept l k = none ↔ ∀ x ∈ l, accept x = false := by
  induction l generalizing k with
  | nil => simp [scanFamilies]
  | cons a t ih =>
    by_cases ha : accept a = true
    · simp [scanFamilies, ha]
    · simp [scanFamilies, ha, ih]

theorem scanFamilies_some (accept : VkQueueFamilyProperties → Bool)
    (l : List VkQueueFamilyProperties) (k i : Nat)
    (h : scanFamilies accept l k = some i) :
    k ≤ i ∧ IsFirstIndex (fun x => accept x = true) l (i - k) := by
  induction l generalizing k with
  | nil => simp [scanFamilies] at h
  | cons a t ih =>
    by_cases ha : accept a = true
    · simp [scanFamilies, ha] at h
      subst h
      refine ⟨le_refl _, ⟨a, by simp, ha⟩, ?_⟩
      intro j hj
      simp at hj
    · simp [scanFamilies, ha] at h
      obtain ⟨hk, ⟨x, hx, hpx⟩, hmin⟩ := ih (k + 1) h
      have e : i - k = (i - (k + 1)) + 1 := by omega
      refine ⟨by omega, ⟨x, ?_, hpx⟩, ?_⟩
      · rw [e]; simpa using hx
      · intro j hj y hy
        cases j with
        | zero =>
          simp at hy
          subst hy
          exact ha
        | succ j =>
          simp at hy
          exact hmin j (by omega) y hy

theorem scanFamilies_exists (accept : VkQueueFamilyProperties → Bool)
    (l : List VkQueueFamilyProperties)
    (h : ∃ x ∈ l, accept x = true) :
    ∃ i, scanFamilies accept l 0 = some i ∧ IsFirstIndex (fun x => accept x = true) l i := by
  cases hs : scanFamilies accept l 0 with
  | none =>
    rw [scanFamilies_none] at hs
    obtain ⟨x, hx, hax⟩ := h
    simp [hs x hx] at hax
  | some i =>
    exact ⟨i, rfl, by simpa using (scanFamilies_some accept l 0 i hs).2⟩

theorem lor_eq_zero_iff (a b : Nat) : a ||| b = 0 ↔ a = 0 ∧ b = 0 := by
  constructor
  · intro h
    have key : ∀ i, (a.testBit i || b.testBit i) = false := by
      intro i
      rw [← Nat.testBit_or, h, Nat.zero_testBit]
    constructor
    · apply Nat.eq_of_testBit_eq
      intro i
      have := key i
      simp only [Bool.or_eq_false_iff] at this
      simp [this.1]
    · apply Nat.eq_of_testBit_eq
      intro i
      have := key i
      simp only [Bool.or_eq_false_iff] at this
      simp [this.2]
  · rintro ⟨rfl, rfl⟩
    rfl

theorem acceptAny_iff (queueType : Nat) (p : VkQueueFamilyProperties) :
    acceptAny queueType p = true ↔ hasBit p queueType := by
  simp [acceptAny, hasBit]

theorem acceptCompute_iff (queueType : Nat) (p : VkQueueFamilyProperties) :
    acceptCompute queueType p = true ↔
      hasBit p queueType ∧ ¬ hasBit p VK_QUEUE_GRAPHICS_BIT := by
  simp [acceptCompute, hasBit]

theorem acceptTransfer_iff (queueType : Nat) (p : VkQueueFamilyProperties) :
    acceptTransfer queueType p = true ↔
      hasBit p queueType ∧ ¬ hasBit p VK_QUEUE_GRAPHICS_BIT ∧
        ¬ hasBit p VK_QUEUE_COMPUTE_BIT := by
  simp [acceptTransfer, hasBit, Nat.and_or_distrib_left, lor_eq_zero_iff]

theorem IsFirstIndex.congr {α : Type} {P Q : α → Prop} (h : ∀ x, P x ↔ Q x)
    {l : List α} {i : Nat} (hi : IsFirstIndex P l i) : IsFirstIndex Q l i := by
  obtain ⟨⟨x, hx, hp⟩, hmin⟩ := hi
  exact ⟨⟨x, hx, (h x).1 hp⟩, fun j hj y hy hq => hmin j hj y hy ((h y).2 hq)⟩

theorem IsFirstIndex.unique {α : Type} {P : α → Prop} {l : List α} {i j : Nat}
    (hi : IsFirstIndex P l i) (hj : IsFirstIndex P l j) : i = j := by
  obtain ⟨⟨x, hx, hp⟩, hmin⟩ := hi
  obtain ⟨⟨y, hy, hq⟩, hmin2⟩ := hj
  rcases Nat.lt_trichotomy i j with h | h | h
  · exact absurd hp (hmin2 i h x hx)
  · exact h
  · exact absurd hq (hmin j h y hy)

/-- Result of `chooseFamilyIndex` when the dedicated scan of its role
returns. -/
theorem chooseFamilyIndex_compute_dedicated (props : List VkQueueFamilyProperties) (i : Nat)
    (h : scanFamilies (acceptCompute VK_QUEUE_COMPUTE_BIT) props 0 = some i) :
    chooseFamilyIndex props VK_QUEUE_COMPUTE_BIT = i := by
  simp [chooseFamilyIndex, h]

theorem chooseFamilyIndex_transfer_dedicated (props : List VkQueueFamilyProperties)
    (queueType i : Nat)
    (hq : queueType = VK_QUEUE_TRANSFER_BIT ∨ queueType = VK_QUEUE_SPARSE_BINDING_BIT)
    (h : scanFamilies (acceptTransfer queueType) props 0 = some i) :
    chooseFamilyIndex props queueType = i := by
  have hne : queueType ≠ VK_QUEUE_COMPUTE_BIT := by
    rcases hq with rfl | rfl <;> decide
  simp [chooseFamilyIndex, hne, hq, h]

/-- Result of `chooseFamilyIndex` when no dedicated scan returns: the
fallback loop decides. -/
theorem chooseFamilyIndex_fallback (props : List VkQueueFamilyProperties) (queueType : Nat)
    (hc : queueType = VK_QUEUE_COMPUTE_BIT →
      scanFamilies (acceptCompute queueType) props 0 = none)
    (ht : queueType = VK_QUEUE_TRANSFER_BIT ∨ queueType = VK_QUEUE_SPARSE_BINDING_BIT →
      scanFamilies (acceptTransfer queueType) props 0 = none) :
    chooseFamilyIndex props queueType =
      (scanFamilies (acceptAny queueType) props 0).getD 0 := by
  unfold chooseFamilyIndex
  by_cases h1 : queueType = VK_QUEUE_COMPUTE_BIT
  · simp only [h1, if_true]
    rw [h1] at hc
    rw [hc rfl]
    cases scanFamilies (acceptAny VK_QUEUE_COMPUTE_BIT) props 0 <;> rfl
  · by_cases h2 : queueType = VK_QUEUE_TRANSFER_BIT ∨ queueType = VK_QUEUE_SPARSE_BINDING_BIT
    · simp only [h1, h2, if_true, if_false]
      rw [ht h2]
      cases scanFamilies (acceptAny queueType) props 0 <;> rfl
    · simp only [h1, h2, if_false]
      cases scanFamilies (acceptAny queueType) props 0 <;> rfl

/-- C1: for every queue-family list in which some family has the compute
bit, `chooseFamilyIndex(VK_QUEUE_COMPUTE_BIT)` returns an index inside the
list whose family has the compute bit. -/
theorem chooseFamilyIndex_compute_has_compute (props : List VkQueueFamilyProperties)
    (h : ∃ p ∈ props, hasBit p VK_QUEUE_COMPUTE_BIT) :
    chooseFamilyIndex props VK_QUEUE_COMPUTE_BIT < props.length ∧
    ∃ p, props[chooseFamilyIndex props VK_QUEUE_COMPUTE_BIT]? = some p ∧
      hasBit p VK_QUEUE_COMPUTE_BIT := by
  have main : ∃ p, props[chooseFamilyIndex props VK_QUEUE_COMPUTE_BIT]? = some p ∧
      hasBit p VK_QUEUE_COMPUTE_BIT := by
    cases hs : scanFamilies (acceptCompute VK_QUEUE_COMPUTE_BIT) props 0 with
    | some i =>
      rw [chooseFamilyIndex_compute_dedicated props i hs]
      obtain ⟨_, ⟨x, hx, hp⟩, _⟩ := scanFamilies_some _ _ _ _ hs
      exact ⟨x, by simpa using hx, ((acceptCompute_iff _ _).1 hp).1⟩
    | none =>
      rw [chooseFamilyIndex_fallback props VK_QUEUE_COMPUTE_BIT (fun _ => hs)
        (fun hq => absurd hq (by decide))]
      obtain ⟨p, hp, hb⟩ := h
      obtain ⟨i, hi, ⟨x, hx, hpx⟩, _⟩ :=
        scanFamilies_exists (acceptAny VK_QUEUE_COMPUTE_BIT) props
          ⟨p, hp, (acceptAny_iff _ _).2 hb⟩
      rw [hi]
      exact ⟨x, hx, (acceptAny_iff _ _).1 hpx⟩
  refine ⟨?_, main⟩
  obtain ⟨p, hp, _⟩ := main
  exact (List.getElem?_eq_some.1 hp).1

/-- Witness for C1 on a list whose only compute family also has graphics. -/
theorem chooseFamilyIndex_compute_has_compute_witness :
    chooseFamilyIndex [⟨4, 1⟩, ⟨3, 1⟩] VK_QUEUE_COMPUTE_BIT < [(⟨4, 1⟩ : VkQueueFamilyProperties), ⟨3, 1⟩].length ∧
    ∃ p, [(⟨4, 1⟩ : VkQueueFamilyProperties), ⟨3, 1⟩][chooseFamilyIndex [⟨4, 1⟩, ⟨3, 1⟩] VK_QUEUE_COMPUTE_BIT]? = some p ∧
      hasBit p VK_QUEUE_COMPUTE_BIT :=
  chooseFamilyIndex_compute_has_compute [⟨4, 1⟩, ⟨3, 1⟩] ⟨⟨3, 1⟩, by simp, by decide⟩

/-- C2: when some family has the transfer bit and neither the graphics nor
the compute bit, `chooseFamilyIndex(VK_QUEUE_TRANSFER_BIT)` returns the index
of the first such family, so the family it names has neither the graphics
nor the compute bit; likewise for `VK_QUEUE_SPARSE_BINDING_BIT`. -/
theorem chooseFamilyIndex_transfer_prefers_dedicated
    (props : List VkQueueFamilyProperties) (queueType : Nat)
    (hq : queueType = VK_QUEUE_TRANSFER_BIT ∨ queueType = VK_QUEUE_SPARSE_BINDING_BIT)
    (h : ∃ p ∈ props, hasBit p queueType ∧ ¬ hasBit p VK_QUEUE_GRAPHICS_BIT ∧
      ¬ hasBit p VK_QUEUE_COMPUTE_BIT) :
    IsFirstIndex (fun p => hasBit p queueType ∧ ¬ hasBit p VK_QUEUE_GRAPHICS_BIT ∧
        ¬ hasBit p VK_QUEUE_COMPUTE_BIT) props (chooseFamilyIndex props queueType) ∧
    ∀ p, props[chooseFamilyIndex props queueType]? = some p →
      ¬ hasBit p VK_QUEUE_GRAPHICS_BIT ∧ ¬ hasBit p VK_QUEUE_COMPUTE_BIT := by
  obtain ⟨p, hp, hb⟩ := h
  obtain ⟨i, hi, hfirst⟩ :=
    scanFamilies_exists (acceptTransfer queueType) props
      ⟨p, hp, (acceptTransfer_iff _ _).2 hb⟩
  rw [chooseFamilyIndex_transfer_dedicated props queueType i hq hi]
  have hfirst2 := IsFirstIndex.congr (fun x => acceptTransfer_iff queueType x) hfirst
  refine ⟨hfirst2, ?_⟩
  intro q hq2
  obtain ⟨⟨x, hx, hpx⟩, _⟩ := hfirst2
  rw [hx] at hq2
  cases hq2
  exact hpx.2

/-- Witness for C2: a graphics+compute+transfer family precedes the
transfer-only family. -/
theorem chooseFamilyIndex_transfer_prefers_dedicated_witness :
    IsFirstIndex (fun p => hasBit p VK_QUEUE_TRANSFER_BIT ∧ ¬ hasBit p VK_QUEUE_GRAPHICS_BIT ∧
        ¬ hasBit p VK_QUEUE_COMPUTE_BIT) [⟨7, 1⟩, ⟨4, 1⟩]
        (chooseFamilyIndex [⟨7, 1⟩, ⟨4, 1⟩] VK_QUEUE_TRANSFER_BIT) ∧
    ∀ p, [(⟨7, 1⟩ : VkQueueFamilyProperties), ⟨4, 1⟩][chooseFamilyIndex [⟨7, 1⟩, ⟨4, 1⟩]
        VK_QUEUE_TRANSFER_BIT]? = some p →
      ¬ hasBit p VK_QUEUE_GRAPHICS_BIT ∧ ¬ hasBit p VK_QUEUE_COMPUTE_BIT :=
  chooseFamilyIndex_transfer_prefers_dedicated [⟨7, 1⟩, ⟨4, 1⟩] VK_QUEUE_TRANSFER_BIT
    (Or.inl rfl) ⟨⟨4, 1⟩, by simp, by decide⟩

/-- C3: when some family has the compute bit and not the graphics bit,
`chooseFamilyIndex(VK_QUEUE_COMPUTE_BIT)` returns the index of the first such
family in list order, whatever precedes it. -/
theorem chooseFamilyIndex_compute_prefers_dedicated
    (props : List VkQueueFamilyProperties)
    (h : ∃ p ∈ props, hasBit p VK_QUEUE_COMPUTE_BIT ∧ ¬ hasBit p VK_QUEUE_GRAPHICS_BIT) :
    IsFirstIndex (fun p => hasBit p VK_QUEUE_COMPUTE_BIT ∧ ¬ hasBit p VK_QUEUE_GRAPHICS_BIT)
      props (chooseFamilyIndex props VK_QUEUE_COMPUTE_BIT) := by
  obtain ⟨p, hp, hb⟩ := h
  obtain ⟨i, hi, hfirst⟩ :=
    scanFamilies_exists (acceptCompute VK_QUEUE_COMPUTE_BIT) props
      ⟨p, hp, (acceptCompute_iff _ _).2 hb⟩
  rw [chooseFamilyIndex_compute_dedicated props i hi]
  exact IsFirstIndex.congr (fun x => acceptCompute_iff VK_QUEUE_COMPUTE_BIT x) hfirst

/-- Witness for C3: the first family has both compute and graphics, the
second one compute only. -/
theorem chooseFamilyIndex_compute_prefers_dedicated_witness :
    IsFirstIndex (fun p => hasBit p VK_QUEUE_COMPUTE_BIT ∧ ¬ hasBit p VK_QUEUE_GRAPHICS_BIT)
      [⟨3, 1⟩, ⟨2, 1⟩] (chooseFamilyIndex [⟨3, 1⟩, ⟨2, 1⟩] VK_QUEUE_COMPUTE_BIT) :=
  chooseFamilyIndex_compute_prefers_dedicated [⟨3, 1⟩, ⟨2, 1⟩] ⟨⟨2, 1⟩, by simp, by decide⟩

/-- C4: for each of the four roles, when no family of the list is dedicated
to the role, `chooseFamilyIndex` returns the index of the first family
whose mask has the requested bit; when no family has the requested bit
(the empty list included) it returns 0; and no family is ever dedicated to
the graphics role. -/
theorem chooseFamilyIndex_fallback_first_or_zero
    (props : List VkQueueFamilyProperties) (queueType : Nat)
    (hrole : queueType = VK_QUEUE_GRAPHICS_BIT ∨ queueType = VK_QUEUE_COMPUTE_BIT ∨
      queueType = VK_QUEUE_TRANSFER_BIT ∨ queueType = VK_QUEUE_SPARSE_BINDING_BIT) :
    ((∀ p ∈ props, ¬ dedicatedFor queueType p) → (∃ p ∈ props, hasBit p queueType) →
      IsFirstIndex (fun p => hasBit p queueType) props (chooseFamilyIndex props queueType)) ∧
    ((∀ p ∈ props, ¬ hasBit p queueType) → chooseFamilyIndex props queueType = 0) ∧
    (queueType = VK_QUEUE_GRAPHICS_BIT → ∀ p, ¬ dedicatedFor queueType p) := by
  have hfb : (∀ p ∈ props, ¬ dedicatedFor queueType p) →
      chooseFamilyIndex props queueType =
        (scanFamilies (acceptAny queueType) props 0).getD 0 := by
    intro hnone
    apply chooseFamilyIndex_fallback
    · intro hc
      rw [scanFamilies_none]
      intro x hx
      have := hnone x hx
      rw [dedicatedFor, if_pos hc] at this
      rw [Bool.eq_false_iff]
      intro hacc
      exact this (by simpa [hc] using (acceptCompute_iff queueType x).1 hacc)
    · intro ht
      have hne : queueType ≠ VK_QUEUE_COMPUTE_BIT := by
        rcases ht with rfl | rfl <;> decide
      rw [scanFamilies_none]
      intro x hx
      have := hnone x hx
      rw [dedicatedFor, if_neg hne, if_pos ht] at this
      rw [Bool.eq_false_iff]
      intro hacc
      exact this ((acceptTransfer_iff queueType x).1 hacc)
  have hded : (∀ p ∈ props, ¬ hasBit p queueType) → ∀ p ∈ props, ¬ dedicatedFor queueType p := by
    intro hno p hp hd
    unfold dedicatedFor at hd
    split at hd
    · rename_i hc
      rw [hc] at hno
      exact hno p hp hd.1
    · split at hd
      · exact hno p hp hd.1
      · exact hd
  refine ⟨?_, ?_, ?_⟩
  · rintro hnone ⟨p, hp, hb⟩
    obtain ⟨i, hi, hfirst⟩ :=
      scanFamilies_exists (acceptAny queueType) props ⟨p, hp, (acceptAny_iff _ _).2 hb⟩
    rw [hfb hnone, hi]
    exact IsFirstIndex.congr (fun x => acceptAny_iff queueType x) hfirst
  · intro hno
    have : scanFamilies (acceptAny queueType) props 0 = none := by
      rw [scanFamilies_none]
      intro x hx
      rw [Bool.eq_false_iff]
      intro hacc
      exact hno x hx ((acceptAny_iff _ _).1 hacc)
    rw [hfb (hded hno), this]
    rfl
  · intro hg p hd
    unfold dedicatedFor at hd
    rw [hg] at hd
    rw [if_neg (by decide), if_neg (by decide)] at hd
    exact hd

/-- Witness for C4: the graphics role on a list whose second family is the
first one with the graphics bit, and the sparse-binding role on a list
without that bit. -/
theorem chooseFamilyIndex_fallback_first_or_zero_witness :
    chooseFamilyIndex [⟨4, 1⟩, ⟨7, 1⟩, ⟨1, 1⟩] VK_QUEUE_GRAPHICS_BIT = 1 ∧
    IsFirstIndex (fun p => hasBit p VK_QUEUE_GRAPHICS_BIT) [⟨4, 1⟩, ⟨7, 1⟩, ⟨1, 1⟩]
      (chooseFamilyIndex [⟨4, 1⟩, ⟨7, 1⟩, ⟨1, 1⟩] VK_QUEUE_GRAPHICS_BIT) ∧
    chooseFamilyIndex [⟨4, 1⟩, ⟨7, 1⟩, ⟨1, 1⟩] VK_QUEUE_SPARSE_BINDING_BIT = 0 :=
  ⟨by decide,
   (chooseFamilyIndex_fallback_first_or_zero [⟨4, 1⟩, ⟨7, 1⟩, ⟨1, 1⟩] VK_QUEUE_GRAPHICS_BIT
      (Or.inl rfl)).1
      (fun p _ => (chooseFamilyIndex_fallback_first_or_zero [⟨4, 1⟩, ⟨7, 1⟩, ⟨1, 1⟩]
        VK_QUEUE_GRAPHICS_BIT (Or.inl rfl)).2.2 rfl p)
      ⟨⟨7, 1⟩, by simp, by decide⟩,
   (chooseFamilyIndex_fallback_first_or_zero [⟨4, 1⟩, ⟨7, 1⟩, ⟨1, 1⟩]
      VK_QUEUE_SPARSE_BINDING_BIT (Or.inr (Or.inr (Or.inr rfl)))).2.1
      (by decide)⟩

/-- C5: the queue-creation requests built by `createLogicalDevice` carry
pairwise distinct family indices; an index is requested exactly when it is
the graphics, compute or transfer selection; the number of requests is
the number of distinct selected indices; and each selected index is
carried by exactly one request (so one request, not two, when graphics and
compute coincide). -/
theorem queueCreateInfos_deduplicated (props : List VkQueueFamilyProperties) :
    ((queueCreateInfos props).map (fun info => info.queueFamilyIndex)).Nodup ∧
    (∀ x, x ∈ (queueCreateInfos props).map (fun info => info.queueFamilyIndex) ↔
      x = chooseFamilyIndex props VK_QUEUE_GRAPHICS_BIT ∨
      x = chooseFamilyIndex props VK_QUEUE_COMPUTE_BIT ∨
      x = chooseFamilyIndex props VK_QUEUE_TRANSFER_BIT) ∧
    (queueCreateInfos props).length =
      ({chooseFamilyIndex props VK_QUEUE_GRAPHICS_BIT,
        chooseFamilyIndex props VK_QUEUE_COMPUTE_BIT,
        chooseFamilyIndex props VK_QUEUE_TRANSFER_BIT} : Finset Nat).card ∧
    (∀ x ∈ ({chooseFamilyIndex props VK_QUEUE_GRAPHICS_BIT,
        chooseFamilyIndex props VK_QUEUE_COMPUTE_BIT,
        chooseFamilyIndex props VK_QUEUE_TRANSFER_BIT} : Finset Nat),
      ((queueCreateInfos props).filter (fun info => info.queueFamilyIndex = x)).length = 1) := by
  unfold queueCreateInfos
  generalize chooseFamilyIndex props VK_QUEUE_GRAPHICS_BIT = g
  generalize chooseFamilyIndex props VK_QUEUE_COMPUTE_BIT = c
  generalize chooseFamilyIndex props VK_QUEUE_TRANSFER_BIT = t
  by_cases hcg : c = g
  · subst hcg
    by_cases htc : t = c
    · subst htc
      simp
    · have htc2 : c ≠ t := fun h => htc h.symm
      simp [htc, htc2, List.filter_cons, Finset.card_insert_of_not_mem]
  · have hgc : g ≠ c := fun h => hcg h.symm
    by_cases htg : t = g
    · subst htg
      simp [hcg, hgc, List.filter_cons]
      intro x
      tauto
    · have hgt : g ≠ t := fun h => htg h.symm
      by_cases htc : t = c
      · subst htc
        simp [hcg, hgc, List.filter_cons, Finset.card_pair hgc]
      · have hct : c ≠ t := fun h => htc h.symm
        simp [hcg, hgc, htg, hgt, htc, hct, List.filter_cons]

/-! ### Bring-up and teardown -/

theorem seq_nil (app : VkApp) : seq [] app = { app := app, events := [], thrown := none } := rfl

theorem seq_cons_ok (p : Proc) (rest : List Proc) (app : VkApp) (h : (p app).thrown = none) :
    seq (p :: rest) app =
      { app := (seq rest (p app).app).app
        events := (p app).events ++ (seq rest (p app).app).events
        thrown := (seq rest (p app).app).thrown } := by
  simp [seq, h]

theorem seq_cons_thrown (p : Proc) (rest : List Proc) (app : VkApp) (message : String)
    (h : (p app).thrown = some message) :
    seq (p :: rest) app =
      { app := (p app).app, events := (p app).events, thrown := some message } := by
  simp [seq, h]

/-- A loop whose body makes one call, never throws and updates the state
by `f`. -/
theorem seq_map_calls (l : List Nat) (body : Nat → Proc) (f : VkApp → VkApp)
    (ev : Nat → Event)
    (h : ∀ i ∈ l, ∀ app, body i app = { app := f app, events := [ev i], thrown := none })
    (app : VkApp) :
    seq (l.map body) app =
      { app := f^[l.length] app, events := l.map ev, thrown := none } := by
  induction l generalizing app with
  | nil => rfl
  | cons i t ih =>
    have hi := h i (List.mem_cons_self i t)
    have ht : ∀ j ∈ t, ∀ app, body j app = { app := f app, events := [ev j], thrown := none } :=
      fun j hj => h j (List.mem_cons_of_mem i hj)
    rw [List.map_cons, seq_cons_ok _ _ _ (by rw [hi])]
    rw [hi]
    simp only [ih ht]
    simp

theorem filterMap_some_eq_map {α β : Type} (f : α → β) (l : List α) :
    l.filterMap (fun x => some (f x)) = l.map f := by
  induction l with
  | nil => rfl
  | cons a t ih => simp [List.filterMap_cons, ih]

theorem iterate_push_view (n : Nat) (app : VkApp) :
    (fun a : VkApp => { a with swapchainImageViews := a.swapchainImageViews + 1 })^[n] app =
      { app with swapchainImageViews := app.swapchainImageViews + n } := by
  induction n generalizing app with
  | zero => rfl
  | succ n ih =>
    rw [Function.iterate_succ_apply, ih]
    simp only [Nat.add_assoc, Nat.add_comm 1 n]

/-- The objects in order of creation when every call succeeds. -/
theorem construct_events_of_allSucceed (d : Driver) (h : d.AllSucceed) :
    (construct d).thrown = none ∧
    createdObjects (construct d).events =
      [VkObject.vkInstance] ++ (if d.debugReport then [VkObject.debugReportCallback] else []) ++
      [VkObject.device, VkObject.surface, VkObject.swapchain] ++
      (List.range d.swapchainImageCount).map VkObject.imageView ++
      [VkObject.renderPass] ++
      (List.range d.swapchainImageCount).map VkObject.framebuffer ++
      [VkObject.graphicsCmdPool, VkObject.computeCmdPool, VkObject.transferCmdPool,
       VkObject.cmdBuffers d.swapchainImageCount, VkObject.computeCmdBuffer,
       VkObject.transferCmdBuffer, VkObject.presentSemaphore,
       VkObject.renderFinishedSemaphore] ++
      (List.range d.swapchainImageCount).map VkObject.cmdSubmitFence ++
      [VkObject.transferFence] ∧
    (construct d).app.debugReport = d.debugReport ∧
    (construct d).app.swapchainImageViews = d.swapchainImageCount ∧
    (construct d).app.framebuffers = d.swapchainImageCount ∧
    (construct d).app.cmdBuffers = d.swapchainImageCount ∧
    (construct d).app.cmdSubmitFences = d.swapchainImageCount := by
  obtain ⟨h1, h2, h3, h4, h5, h6, h7, h8, h9, h10, h11, h12, h13, h14, h15, h16, h17, h18, h19⟩ := h
  have hviews : ∀ (n : Nat) (app : VkApp), forEach n (createImageViewAt d) app =
               { app := { app with swapchainImageViews := app.swapchainImageViews + n },
                 events := (List.range n).map (fun i => Event.create (.imageView i) VK_SUCCESS),
                 thrown := none } := by
    intro n app
    unfold forEach
    rw [seq_map_calls (List.range n) _
      (fun a : VkApp => { a with swapchainImageViews := a.swapchainImageViews + 1 })
      (fun i => Event.create (.imageView i) VK_SUCCESS)]
    · rw [iterate_push_view, List.length_range]
    · intro i _ app
      simp [createImageViewAt, seq, call, CHECK_SUCCEEDED, assign, h7 i]
  have hfbs : ∀ (n : Nat) (app : VkApp), forEach n (createFramebufferAt d) app =
               { app := app,
                 events := (List.range n).map (fun i => Event.create (.framebuffer i) VK_SUCCESS),
                 thrown := none } := by
    intro n app
    unfold forEach
    rw [seq_map_calls (List.range n) _ id
      (fun i => Event.create (.framebuffer i) VK_SUCCESS)]
    · simp
    · intro i _ app
      simp [createFramebufferAt, seq, call, CHECK_SUCCEEDED, h9 i]
  have hfences : ∀ (n : Nat) (app : VkApp), forEach n (createCmdSubmitFenceAt d) app =
               { app := app,
                 events := (List.range n).map (fun i => Event.create (.cmdSubmitFence i) VK_SUCCESS),
                 thrown := none } := by
    intro n app
    unfold forEach
    rw [seq_map_calls (List.range n) _ id
      (fun i => Event.create (.cmdSubmitFence i) VK_SUCCESS)]
    · simp
    · intro i _ app
      simp [createCmdSubmitFenceAt, call, h18 i]
  have hne : VK_ERROR_EXTENSION_NOT_PRESENT ≠ VK_SUCCESS := by decide
  cases hdbg : d.debugReport <;>
    simp [construct, createInstance, createPhysicalDevice, createLogicalDevice,
      createWin32Surface, createSwapchain, createRenderPass, createFramebuffer,
      createCommandPools, createCommandBuffers, createSyncPrimitices, seq, call,
      CHECK_SUCCEEDED, assign, VkApp.initial, hviews, hfbs, hfences, hne, hdbg,
      h1, h2, h3, h4, h5, h6, h8, h10, h11, h12, h13, h14, h15, h16, h17, h19,
      createdObjects, List.filterMap_append, List.filterMap_map, Function.comp_def,
      List.filterMap_cons, filterMap_some_eq_map]

theorem keyLt_asymm (k₁ k₂ : Nat × Nat) (h : keyLt k₁ k₂) : ¬ keyLt k₂ k₁ := by
  unfold keyLt at *
  omega

theorem rel_of_sublist_pair {α : Type} {R : α → α → Prop} {l : List α} {a b : α}
    (hl : l.Pairwise R) (hab : List.Sublist [a, b] l) : R a b := by
  have := hl.sublist hab
  simpa using this

theorem sublist_pair_of_pairwise {α : Type} {R : α → α → Prop}
    (hasym : ∀ a b, R a b → ¬ R b a) (l : List α) (hl : l.Pairwise R) (a b : α)
    (ha : a ∈ l) (hb : b ∈ l) (hab : R a b) : List.Sublist [a, b] l := by
  induction l with
  | nil => simp at ha
  | cons x t ih =>
    rw [List.pairwise_cons] at hl
    rcases List.mem_cons.1 ha with rfl | hat
    · rcases List.mem_cons.1 hb with rfl | hbt
      · exact absurd hab (hasym _ _ hab)
      · exact List.Sublist.cons₂ _ (List.singleton_sublist.2 hbt)
    · rcases List.mem_cons.1 hb with rfl | hbt
      · exact absurd (hl.1 a hat) (hasym _ _ hab)
      · exact List.Sublist.cons _ (ih hl.2 hat hbt)

/-- The objects in order of release by the destructor. -/
theorem releasedObjects_destruct (app : VkApp) :
    releasedObjects (destruct app) =
      [VkObject.transferFence] ++
      (List.range app.cmdSubmitFences).map VkObject.cmdSubmitFence ++
      [VkObject.presentSemaphore, VkObject.renderFinishedSemaphore,
       VkObject.transferCmdBuffer, VkObject.computeCmdBuffer,
       VkObject.cmdBuffers app.cmdBuffers, VkObject.transferCmdPool,
       VkObject.computeCmdPool, VkObject.graphicsCmdPool] ++
      (List.range app.framebuffers).map VkObject.framebuffer ++
      [VkObject.renderPass] ++
      (List.range app.swapchainImageViews).map VkObject.imageView ++
      [VkObject.swapchain, VkObject.device, VkObject.surface] ++
      (if app.debugReport then [VkObject.debugReportCallback] else []) ++
      [VkObject.vkInstance] := by
  cases h : app.debugReport <;>
    simp [releasedObjects, destruct, h, List.filterMap_append, List.filterMap_map,
      Function.comp_def, List.filterMap_cons, filterMap_some_eq_map]

theorem SortedFrom.pairwise (m : Nat) {l : List (Nat × Nat)} (h : SortedFrom m l) :
    List.Pairwise keyLt l := h.1

theorem sortedFrom_nil (m : Nat) : SortedFrom m [] := by
  simp [SortedFrom]

theorem sortedFrom_cons (m j : Nat) (l : List (Nat × Nat)) (h : SortedFrom (m + 1) l) :
    SortedFrom m ((m, j) :: l) := by
  refine ⟨List.pairwise_cons.2 ⟨?_, h.1⟩, ?_⟩
  · intro k hk
    have := h.2 k hk
    left
    show m < k.1
    omega
  · intro k hk
    rcases List.mem_cons.1 hk with rfl | hk
    · exact le_refl _
    · have := h.2 k hk
      omega

theorem sortedFrom_skip (m : Nat) (l : List (Nat × Nat)) (h : SortedFrom (m + 1) l) :
    SortedFrom m l :=
  ⟨h.1, fun k hk => Nat.le_of_succ_le (h.2 k hk)⟩

theorem sortedFrom_range (m n : Nat) (l : List (Nat × Nat)) (h : SortedFrom (m + 1) l) :
    SortedFrom m ((List.range n).map (fun i => (m, i)) ++ l) := by
  refine ⟨List.pairwise_append.2 ⟨?_, h.1, ?_⟩, ?_⟩
  · rw [List.pairwise_map]
    exact (List.pairwise_lt_range n).imp (fun hij => Or.inr ⟨rfl, hij⟩)
  · intro a ha b hb
    obtain ⟨i, _, rfl⟩ := List.mem_map.1 ha
    have := h.2 b hb
    left
    show m < b.1
    omega
  · intro k hk
    rcases List.mem_append.1 hk with hk | hk
    · obtain ⟨i, _, rfl⟩ := List.mem_map.1 hk
      exact le_refl _
    · have := h.2 k hk
      omega

theorem created_sorted (dbg : Bool) (n : Nat) :
    List.Pairwise (fun a b => keyLt (createKey a) (createKey b))
      ([VkObject.vkInstance] ++ (if dbg then [VkObject.debugReportCallback] else []) ++
      [VkObject.device, VkObject.surface, VkObject.swapchain] ++
      (List.range n).map VkObject.imageView ++
      [VkObject.renderPass] ++
      (List.range n).map VkObject.framebuffer ++
      [VkObject.graphicsCmdPool, VkObject.computeCmdPool, VkObject.transferCmdPool,
       VkObject.cmdBuffers n, VkObject.computeCmdBuffer,
       VkObject.transferCmdBuffer, VkObject.presentSemaphore,
       VkObject.renderFinishedSemaphore] ++
      (List.range n).map VkObject.cmdSubmitFence ++
      [VkObject.transferFence]) := by
  apply List.pairwise_map.1
  cases dbg <;>
  · simp only [List.map_append, List.map_cons, List.map_nil, List.map_map, createKey,
      Function.comp_def, Bool.false_eq_true, if_false, if_true, List.append_assoc,
      List.cons_append, List.nil_append]
    apply SortedFrom.pairwise 0
    iterate 40
      try
        first
          | exact sortedFrom_nil _
          | apply sortedFrom_cons
          | apply sortedFrom_range
          | apply sortedFrom_skip

theorem released_sorted (dbg : Bool) (n : Nat) :
    List.Pairwise (fun a b => keyLt (releaseKey a) (releaseKey b))
      ([VkObject.transferFence] ++
      (List.range n).map VkObject.cmdSubmitFence ++
      [VkObject.presentSemaphore, VkObject.renderFinishedSemaphore,
       VkObject.transferCmdBuffer, VkObject.computeCmdBuffer,
       VkObject.cmdBuffers n, VkObject.transferCmdPool,
       VkObject.computeCmdPool, VkObject.graphicsCmdPool] ++
      (List.range n).map VkObject.framebuffer ++
      [VkObject.renderPass] ++
      (List.range n).map VkObject.imageView ++
      [VkObject.swapchain, VkObject.device, VkObject.surface] ++
      (if dbg then [VkObject.debugReportCallback] else []) ++
      [VkObject.vkInstance]) := by
  apply List.pairwise_map.1
  cases dbg <;>
  · simp only [List.map_append, List.map_cons, List.map_nil, List.map_map, releaseKey,
      Function.comp_def, Bool.false_eq_true, if_false, if_true, List.append_assoc,
      List.cons_append, List.nil_append]
    apply SortedFrom.pairwise 0
    iterate 40
      try
        first
          | exact sortedFrom_nil _
          | apply sortedFrom_cons
          | apply sortedFrom_range
          | apply sortedFrom_skip

theorem release_order_of_create_order (a b : VkObject)
    (h : keyLt (createKey a) (createKey b)) :
    if sameOrderPair a b then keyLt (releaseKey a) (releaseKey b)
    else keyLt (releaseKey b) (releaseKey a) := by
  cases a <;> cases b <;>
    simp [createKey, releaseKey, keyLt, sameOrderPair] at h ⊢ <;> exact h

theorem mem_released_of_mem_created (dbg : Bool) (n : Nat) (x : VkObject)
    (h : x ∈ [VkObject.vkInstance] ++ (if dbg then [VkObject.debugReportCallback] else []) ++
      [VkObject.device, VkObject.surface, VkObject.swapchain] ++
      (List.range n).map VkObject.imageView ++
      [VkObject.renderPass] ++
      (List.range n).map VkObject.framebuffer ++
      [VkObject.graphicsCmdPool, VkObject.computeCmdPool, VkObject.transferCmdPool,
       VkObject.cmdBuffers n, VkObject.computeCmdBuffer,
       VkObject.transferCmdBuffer, VkObject.presentSemaphore,
       VkObject.renderFinishedSemaphore] ++
      (List.range n).map VkObject.cmdSubmitFence ++
      [VkObject.transferFence]) :
    x ∈ [VkObject.transferFence] ++
      (List.range n).map VkObject.cmdSubmitFence ++
      [VkObject.presentSemaphore, VkObject.renderFinishedSemaphore,
       VkObject.transferCmdBuffer, VkObject.computeCmdBuffer,
       VkObject.cmdBuffers n, VkObject.transferCmdPool,
       VkObject.computeCmdPool, VkObject.graphicsCmdPool] ++
      (List.range n).map VkObject.framebuffer ++
      [VkObject.renderPass] ++
      (List.range n).map VkObject.imageView ++
      [VkObject.swapchain, VkObject.device, VkObject.surface] ++
      (if dbg then [VkObject.debugReportCallback] else []) ++
      [VkObject.vkInstance] := by
  cases dbg <;>
  · simp only [List.mem_append, List.mem_cons, List.mem_singleton, List.not_mem_nil,
      Bool.false_eq_true, if_false, if_true, or_false] at h ⊢
    tauto

/-- C7, as the code has it: after a construction in which every call
succeeds, of any two objects the one created later is released earlier by
the destructor, except for the pairs of `sameOrderPair` (the device and the
surface, the two semaphores, two image views, two framebuffers, two
per-slot fences), which are released in the order of their creation. -/
theorem destruct_order_of_create_order (d : Driver) (h : d.AllSucceed) (a b : VkObject)
    (hab : List.Sublist [a, b] (createdObjects (construct d).events)) :
    if sameOrderPair a b then
      List.Sublist [a, b] (releasedObjects (destruct (construct d).app))
    else
      List.Sublist [b, a] (releasedObjects (destruct (construct d).app)) := by
  obtain ⟨_, hcreated, hdbg, hviews, hfbs, hcmd, hfences⟩ :=
    construct_events_of_allSucceed d h
  rw [releasedObjects_destruct, hdbg, hviews, hfbs, hcmd, hfences]
  rw [hcreated] at hab
  have hkey : keyLt (createKey a) (createKey b) :=
    @rel_of_sublist_pair _ (fun x y => keyLt (createKey x) (createKey y)) _ _ _
      (created_sorted d.debugReport d.swapchainImageCount) hab
  have ha := mem_released_of_mem_created _ _ a (hab.subset (by simp))
  have hb := mem_released_of_mem_created _ _ b (hab.subset (by simp))
  have hrel := release_order_of_create_order a b hkey
  have hsorted := released_sorted d.debugReport d.swapchainImageCount
  have hasym : ∀ x y : VkObject, keyLt (releaseKey x) (releaseKey y) →
      ¬ keyLt (releaseKey y) (releaseKey x) := fun x y => keyLt_asymm _ _
  cases hs : sameOrderPair a b
  · rw [hs] at hrel
    simp only [Bool.false_eq_true, if_false] at hrel ⊢
    exact @sublist_pair_of_pairwise _ (fun x y => keyLt (releaseKey x) (releaseKey y))
      hasym _ hsorted b a hb ha hrel
  · rw [hs] at hrel
    simp only [if_true] at hrel ⊢
    exact @sublist_pair_of_pairwise _ (fun x y => keyLt (releaseKey x) (releaseKey y))
      hasym _ hsorted a b ha hb hrel

theorem allSucceed_succeeding (debugReport : Bool) (families : List VkQueueFamilyProperties)
    (imageCount : Nat) (startTime : Int) :
    (Driver.succeeding debugReport families imageCount startTime).AllSucceed := by
  simp [Driver.AllSucceed, Driver.succeeding]

/-- Witness for C7 on a two-image swapchain: the render pass is created
before framebuffer 1 and released after it. -/
theorem destruct_order_of_create_order_witness :
    List.Sublist [VkObject.renderPass, VkObject.framebuffer 1]
      (createdObjects (construct (Driver.succeeding false [⟨7, 1⟩] 2 0)).events) ∧
    List.Sublist [VkObject.framebuffer 1, VkObject.renderPass]
      (releasedObjects (destruct (construct (Driver.succeeding false [⟨7, 1⟩] 2 0)).app)) :=
  ⟨by decide,
   destruct_order_of_create_order (Driver.succeeding false [⟨7, 1⟩] 2 0)
     (allSucceed_succeeding false [⟨7, 1⟩] 2 0) VkObject.renderPass (VkObject.framebuffer 1)
     (by decide)⟩

/-- C7 fails as stated: on a two-image swapchain with every call
succeeding, the release sequence is not the reverse of the creation
sequence; the device is created before the surface and released before
it, and so are the present semaphore and the render-finished semaphore. -/
theorem destruct_not_reverse_of_construct :
    releasedObjects (destruct (construct (Driver.succeeding false [⟨7, 1⟩] 2 0)).app) ≠
      (createdObjects (construct (Driver.succeeding false [⟨7, 1⟩] 2 0)).events).reverse ∧
    List.Sublist [VkObject.device, VkObject.surface]
      (createdObjects (construct (Driver.succeeding false [⟨7, 1⟩] 2 0)).events) ∧
    ¬ List.Sublist [VkObject.surface, VkObject.device]
      (releasedObjects (destruct (construct (Driver.succeeding false [⟨7, 1⟩] 2 0)).app)) ∧
    List.Sublist [VkObject.presentSemaphore, VkObject.renderFinishedSemaphore]
      (createdObjects (construct (Driver.succeeding false [⟨7, 1⟩] 2 0)).events) ∧
    ¬ List.Sublist [VkObject.renderFinishedSemaphore, VkObject.presentSemaphore]
      (releasedObjects (destruct (construct (Driver.succeeding false [⟨7, 1⟩] 2 0)).app)) := by
  decide

/-- C10 fails on the code: with every other call succeeding, a failed
creation of the graphics command pool, of the present semaphore, or of
every per-slot fence lets the constructor complete without an exception;
the check labelled "graphics command pool" tests the status of the compute
pool. -/
theorem construct_misses_creation_failures :
    (construct { Driver.succeeding false [⟨7, 1⟩] 2 0 with
        createGraphicsCmdPool := VK_ERROR_OUT_OF_HOST_MEMORY }).thrown = none ∧
    (construct { Driver.succeeding false [⟨7, 1⟩] 2 0 with
        createPresentSemaphore := VK_ERROR_OUT_OF_HOST_MEMORY }).thrown = none ∧
    (construct { Driver.succeeding false [⟨7, 1⟩] 2 0 with
        createCmdSubmitFence := fun _ => VK_ERROR_OUT_OF_HOST_MEMORY }).thrown = none ∧
    (construct { Driver.succeeding false [⟨7, 1⟩] 2 0 with
        createComputeCmdPool := VK_ERROR_OUT_OF_HOST_MEMORY }).thrown =
      some "failed to create graphics command pool" := by
  decide

/-! ### The frame loop -/

theorem timing_thrown (frame : Frame) (app : VkApp) : (timing frame app).thrown = none := by
  unfold timing
  dsimp only
  split <;> rfl

/-- A frame in which every call succeeds makes the ten calls of the
acquire, record, submit, present and wait stages, then runs the timing
stage. -/
theorem onPaint_of_succeeds (frame : Frame) (app : VkApp) (h : frame.Succeeds) :
    onPaint frame app =
      { app := (timing frame app).app
        events :=
          [Event.acquireNextImage VK_SUCCESS,
           Event.resetFences frame.acquiredImage,
           Event.resetCommandBuffer frame.acquiredImage,
           Event.beginCommandBuffer frame.acquiredImage VK_SUCCESS,
           Event.cmdBeginRenderPass frame.acquiredImage,
           Event.cmdEndRenderPass frame.acquiredImage,
           Event.endCommandBuffer frame.acquiredImage,
           Event.queueSubmit frame.acquiredImage VK_SUCCESS,
           Event.queuePresent frame.acquiredImage VK_SUCCESS,
           Event.waitForFences frame.acquiredImage VK_SUCCESS] ++ (timing frame app).events
        thrown := none } := by
  obtain ⟨h1, h2, h3, h4, h5⟩ := h
  have hne : VK_TIMEOUT ≠ VK_SUCCESS := by decide
  have hthrown : (timing frame app).thrown = none := timing_thrown frame app
  simp [onPaint, submit, present, waitForPresentComplete, seq, call, CHECK_SUCCEEDED,
    h1, h2, h3, h4, h5, hne, hthrown]

theorem timing_of_le (frame : Frame) (app : VkApp)
    (h : float32 (app.time + (app.timer.millisecondsElapsed frame.now).1) ≤ 1000) :
    timing frame app =
      { app := { app with
                 timer := (app.timer.millisecondsElapsed frame.now).2
                 time := float32 (app.time + (app.timer.millisecondsElapsed frame.now).1)
                 frameCount := (app.frameCount + 1) % 2 ^ 32 }
        events := []
        thrown := none } := by
  unfold timing
  simp only [gt_iff_lt, not_lt.2 h, if_false]

theorem timing_of_gt (frame : Frame) (app : VkApp)
    (h : 1000 < float32 (app.time + (app.timer.millisecondsElapsed frame.now).1)) :
    timing frame app =
      { app := { app with
                 timer := (app.timer.millisecondsElapsed frame.now).2
                 time := 0
                 frameCount := 0
                 fps := toUint32 (roundf (float32
                   (float32 (((app.frameCount + 1) % 2 ^ 32 : Nat) : ℚ) *
                     float32 (float32 (app.time +
                       (app.timer.millisecondsElapsed frame.now).1) / 1000)))) }
        events := [Event.setWindowText ("FPS: " ++ toString (toUint32 (roundf (float32
          (float32 (((app.frameCount + 1) % 2 ^ 32 : Nat) : ℚ) *
            float32 (float32 (app.time +
              (app.timer.millisecondsElapsed frame.now).1) / 1000))))))]
        thrown := none } := by
  unfold timing
  simp only [gt_iff_lt, h, if_true]

theorem run_nil (app : VkApp) : run [] app = { app := app, events := [], thrown := none } := rfl

theorem run_cons_of_ok (frame : Frame) (rest : List Frame) (app : VkApp)
    (h : (onPaint frame app).thrown = none) :
    run (frame :: rest) app =
      { app := (run rest (onPaint frame app).app).app
        events := (onPaint frame app).events ++ (run rest (onPaint frame app).app).events
        thrown := (run rest (onPaint frame app).app).thrown } := by
  simp [run, h]

theorem run_cons_of_thrown (frame : Frame) (rest : List Frame) (app : VkApp) (message : String)
    (h : (onPaint frame app).thrown = some message) :
    run (frame :: rest) app =
      { app := (onPaint frame app).app, events := (onPaint frame app).events,
        thrown := some message } := by
  simp [run, h]

theorem run_append (frames more : List Frame) (app : VkApp)
    (h : (run frames app).thrown = none) :
    run (frames ++ more) app =
      { app := (run more (run frames app).app).app
        events := (run frames app).events ++ (run more (run frames app).app).events
        thrown := (run more (run frames app).app).thrown } := by
  induction frames generalizing app with
  | nil => simp [run_nil]
  | cons f t ih =>
    cases hf : (onPaint f app).thrown with
    | some message =>
      rw [run_cons_of_thrown f t app message hf] at h
      simp at h
    | none =>
      rw [run_cons_of_ok f t app hf] at h
      simp only at h
      rw [List.cons_append, run_cons_of_ok f (t ++ more) app hf, ih _ h,
        run_cons_of_ok f t app hf]
      simp

theorem runningTimes_append (time : ℚ) (l m : List ℚ) :
    runningTimes time (l ++ m) = runningTimes time l ++ runningTimes (accumulatedTime time l) m := by
  induction l generalizing time with
  | nil => rfl
  | cons dt t ih => simp [runningTimes, accumulatedTime, ih]

theorem accumulatedTime_append (time : ℚ) (l m : List ℚ) :
    accumulatedTime time (l ++ m) = accumulatedTime (accumulatedTime time l) m := by
  induction l generalizing time with
  | nil => rfl
  | cons dt t ih => simp [accumulatedTime, ih]

/-- Frames in which every call succeeds and the accumulated time stays at
most 1000: no caption is pushed, the time and the frames are accumulated,
and `fps` is left as it was. -/
theorem run_quiet (frames : List Frame) (app : VkApp)
    (hfc : app.frameCount < 2 ^ 32)
    (hok : ∀ f ∈ frames, f.Succeeds)
    (hle : ∀ t ∈ runningTimes app.time (elapsedTimes app.timer frames), t ≤ 1000) :
    (run frames app).thrown = none ∧
    captions (run frames app).events = [] ∧
    (run frames app).app.time = accumulatedTime app.time (elapsedTimes app.timer frames) ∧
    (run frames app).app.frameCount = (app.frameCount + frames.length) % 2 ^ 32 ∧
    (run frames app).app.fps = app.fps ∧
    (∀ more, elapsedTimes app.timer (frames ++ more) =
      elapsedTimes app.timer frames ++ elapsedTimes (run frames app).app.timer more) := by
  induction frames generalizing app with
  | nil =>
    have hmod : app.frameCount % 2 ^ 32 = app.frameCount := Nat.mod_eq_of_lt hfc
    simp only [run_nil, captions, elapsedTimes, accumulatedTime, List.filterMap_nil,
      List.length_nil, Nat.add_zero, hmod, List.nil_append, implies_true, and_self]
  | cons f t ih =>
    have hf : f.Succeeds := hok f (List.mem_cons_self f t)
    have ht : ∀ g ∈ t, g.Succeeds := fun g hg => hok g (List.mem_cons_of_mem f hg)
    simp only [elapsedTimes, runningTimes, List.mem_cons, forall_eq_or_imp] at hle
    have hp := onPaint_of_succeeds f app hf
    rw [timing_of_le f app hle.1] at hp
    have hthrown : (onPaint f app).thrown = none := by rw [hp]
    have happ : (onPaint f app).app = { app with
                 timer := (app.timer.millisecondsElapsed f.now).2
                 time := float32 (app.time + (app.timer.millisecondsElapsed f.now).1)
                 frameCount := (app.frameCount + 1) % 2 ^ 32 } := by rw [hp]
    have hev : captions (onPaint f app).events = [] := by
      rw [hp]; simp [captions]
    obtain ⟨i1, i2, i3, i4, i5, i6⟩ := ih (onPaint f app).app
      (by rw [happ]; exact Nat.mod_lt _ (by norm_num))
      ht (by rw [happ]; exact hle.2)
    rw [run_cons_of_ok f t app hthrown]
    refine ⟨i1, ?_, ?_, ?_, ?_, ?_⟩
    · simp only [captions, List.filterMap_append] at hev i2 ⊢
      rw [hev, i2]
      rfl
    · simp only [i3, elapsedTimes, accumulatedTime]
      rw [happ]
    · simp only [i4]
      rw [happ]
      simp only [List.length_cons]
      norm_num
      omega
    · simp only [i5]
      rw [happ]
    · intro more
      have h6 := i6 more
      rw [happ] at h6 ⊢
      simp only at h6
      simp only [List.cons_append, elapsedTimes]
      exact congrArg _ h6

theorem elapsedTimes_append (timer : Timer) (frames more : List Frame) :
    ∃ timer', elapsedTimes timer (frames ++ more) =
      elapsedTimes timer frames ++ elapsedTimes timer' more := by
  induction frames generalizing timer with
  | nil => exact ⟨timer, rfl⟩
  | cons f t ih =>
    obtain ⟨timer', h⟩ := ih (timer.millisecondsElapsed f.now).2
    refine ⟨timer', ?_⟩
    simp only [List.cons_append, elapsedTimes]
    exact congrArg _ h

theorem roundf_eq_sixty (x : ℚ) (h1 : 60 - 1 / 2 ≤ x) (h2 : x < 60 + 1 / 2) : roundf x = 60 := by
  unfold roundf
  rw [if_pos (by linarith)]
  rw [Int.floor_eq_iff]
  constructor
  · push_cast; linarith
  · push_cast; linarith

theorem roundHalfEven_error (x : ℚ) : |(roundHalfEven x : ℚ) - x| ≤ 1 / 2 := by
  have h1 := Int.floor_le x
  have h2 := Int.lt_floor_add_one x
  unfold roundHalfEven
  rw [abs_le]
  split_ifs with a b c
  · constructor <;> linarith
  · push_cast; constructor <;> linarith
  · constructor <;> linarith
  · push_cast; constructor <;> linarith

theorem bitLength_bounds (fuel n : Nat) (h : n ≤ fuel) (hn : n ≠ 0) :
    2 ^ (bitLength fuel n) ≤ 2 * n ∧ n < 2 ^ (bitLength fuel n) := by
  induction fuel generalizing n with
  | zero => omega
  | succ f ih =>
    unfold bitLength
    rw [if_neg hn]
    by_cases h2 : n / 2 = 0
    · have h1 : n = 1 := by omega
      subst h1
      cases f <;> simp [bitLength]
    · obtain ⟨a, b⟩ := ih (n / 2) (by omega) h2
      rw [pow_succ]
      constructor <;> omega

/-- The exponent computed by `binade` is not above that of `x`. -/
theorem binade_le (x : ℚ) (hx : x ≠ 0) : (2 : ℚ) ^ (binade x) ≤ |x| := by
  unfold binade
  dsimp only
  split_ifs with h
  · exact h
  · have hn : x.num.natAbs ≠ 0 := by
      simpa using hx
    obtain ⟨a, _⟩ := bitLength_bounds _ _ (le_refl x.num.natAbs) hn
    obtain ⟨_, b⟩ := bitLength_bounds _ _ (le_refl x.den) x.den_nz
    have habs : |x| = (x.num.natAbs : ℚ) / (x.den : ℚ) := by
      conv_lhs => rw [← Rat.num_div_den x]
      rw [abs_div, Nat.abs_cast, Nat.cast_natAbs, Int.cast_abs]
    rw [habs, zpow_sub_one₀ (by norm_num), zpow_sub₀ (by norm_num), zpow_natCast, zpow_natCast]
    have a' : (2 : ℚ) ^ bitLength x.num.natAbs x.num.natAbs ≤ 2 * (x.num.natAbs : ℚ) := by
      exact_mod_cast a
    have b' : (x.den : ℚ) < 2 ^ bitLength x.den x.den := by
      exact_mod_cast b
    have hd : (0 : ℚ) < x.den := by exact_mod_cast x.den_pos
    have hp : (0 : ℚ) < 2 ^ bitLength x.den x.den := by positivity
    rw [div_mul_eq_mul_div, div_le_div_iff₀ hp hd]
    have hnum : (0 : ℚ) ≤ 2 ^ bitLength x.num.natAbs x.num.natAbs := by positivity
    have hnn : (0 : ℚ) ≤ (x.num.natAbs : ℚ) := by positivity
    nlinarith

/-- The rounding to `float` moves a value by at most half a unit in the
last place: a relative error of `2^(-24)`, or `2^(-150)` among the
subnormal numbers. -/
theorem float32_error (x : ℚ) : |float32 x - x| ≤ |x| / 2 ^ 24 + 1 / 2 ^ 150 := by
  by_cases hx : x = 0
  · subst hx
    have : float32 0 = 0 := by decide!
    rw [this]
    norm_num
  have hb := binade_le x hx
  unfold float32
  dsimp only
  set e := max (binade x) (-126) with he
  have hulp : (0 : ℚ) < 2 ^ (e - 23) := by positivity
  have herr := roundHalfEven_error (x / 2 ^ (e - 23))
  have h1 : |(roundHalfEven (x / 2 ^ (e - 23)) : ℚ) * 2 ^ (e - 23) - x| =
      |(roundHalfEven (x / 2 ^ (e - 23)) : ℚ) - x / 2 ^ (e - 23)| * 2 ^ (e - 23) := by
    rw [← abs_of_pos hulp, ← abs_mul, abs_of_pos hulp]
    congr 1
    field_simp
  rw [h1]
  have h2 : (2 : ℚ) ^ (e - 23) = 2 ^ e / 2 ^ 23 := by
    rw [zpow_sub₀ (by norm_num)]
    norm_num
  have h3 : (2 : ℚ) ^ e ≤ |x| + 1 / 2 ^ 126 := by
    rcases max_cases (binade x) (-126) with ⟨h, _⟩ | ⟨h, _⟩
    · rw [he, h]
      have : (0 : ℚ) ≤ 1 / 2 ^ 126 := by positivity
      linarith
    · rw [he, h]
      have : (2 : ℚ) ^ (-126 : ℤ) = 1 / 2 ^ 126 := by
        rw [zpow_neg]; norm_num
      rw [this]
      have := abs_nonneg x
      linarith
  calc |(roundHalfEven (x / 2 ^ (e - 23)) : ℚ) - x / 2 ^ (e - 23)| * 2 ^ (e - 23)
      ≤ 1 / 2 * 2 ^ (e - 23) := by
        exact mul_le_mul_of_nonneg_right herr hulp.le
    _ = 2 ^ e / 2 ^ 24 := by rw [h2]; ring
    _ ≤ (|x| + 1 / 2 ^ 126) / 2 ^ 24 := by
        apply div_le_div_of_nonneg_right h3 (by positivity)
    _ = |x| / 2 ^ 24 + 1 / 2 ^ 150 := by ring

/-- The value computed by line 130 for 60 frames and an accumulated time
above 1000 and below 1008. -/
theorem fps_value_sixty (time : ℚ) (h1 : 1000 < time) (h2 : time < 1008) :
    toUint32 (roundf (float32 (float32 ((60 : Nat) : ℚ) * float32 (time / 1000)))) = 60 := by
  have h60 : float32 ((60 : Nat) : ℚ) = 60 := by decide!
  rw [h60]
  have hq := float32_error (time / 1000)
  have hz := float32_error (60 * float32 (time / 1000))
  have hpos : (0 : ℚ) < time / 1000 := by positivity
  rw [abs_of_pos hpos, abs_le] at hq
  have hq1 : (9999 : ℚ) / 10000 < float32 (time / 1000) := by
    have : (1 : ℚ) / 2 ^ 150 < 1 / 100000 := by norm_num
    have : time / 1000 / 2 ^ 24 < 1 / 100000 := by
      rw [div_div, div_lt_iff₀ (by norm_num)]
      norm_num
      linarith
    have : (1 : ℚ) < time / 1000 := by
      rw [lt_div_iff₀ (by norm_num)]
      linarith
    linarith [hq.1]
  have hq2 : float32 (time / 1000) < 10081 / 10000 := by
    have : (1 : ℚ) / 2 ^ 150 < 1 / 100000 := by norm_num
    have : time / 1000 / 2 ^ 24 < 1 / 100000 := by
      rw [div_div, div_lt_iff₀ (by norm_num)]
      norm_num
      linarith
    have : time / 1000 < 1008 / 1000 := by
      rw [div_lt_div_iff_of_pos_right (by norm_num)]
      exact h2
    linarith [hq.2]
  have hpos2 : (0 : ℚ) < 60 * float32 (time / 1000) := by linarith
  rw [abs_of_pos hpos2, abs_le] at hz
  have hsmall : 60 * float32 (time / 1000) / 2 ^ 24 + 1 / 2 ^ 150 < 1 / 1000 := by
    have : (1 : ℚ) / 2 ^ 150 < 1 / 100000 := by norm_num
    have : 60 * float32 (time / 1000) / 2 ^ 24 < 1 / 100000 := by
      rw [div_lt_iff₀ (by norm_num)]
      norm_num
      linarith
    linarith
  rw [roundf_eq_sixty]
  · rfl
  · linarith [hz.1]
  · linarith [hz.2]

/-- C8, as the code has it: from `time = 0` and `frameCount = 0`, over 60
frames in which every call succeeds, `time` takes the running sums, each
rounded to `float`, of the elapsed times `float(µs) * 0.001f`.  When none
of them exceeds 1000 no value is computed and no caption is pushed during
these frames (the threshold test is strict), and the 60 frames and the time
stay accumulated; when `time` exceeds 1000 for the first time at the 60th
frame and is less than 1008, the 60th frame computes 60 and pushes the
caption "FPS: 60". -/
theorem fps_over_sixty_frames (app : VkApp) (frames : List Frame)
    (htime : app.time = 0) (hcount : app.frameCount = 0)
    (hlen : frames.length = 60)
    (hok : ∀ f ∈ frames, f.Succeeds) :
    ((∀ t ∈ runningTimes 0 (elapsedTimes app.timer frames), t ≤ 1000) →
      captions (run frames app).events = [] ∧
      (run frames app).app.fps = app.fps ∧
      (run frames app).app.time = accumulatedTime 0 (elapsedTimes app.timer frames) ∧
      (run frames app).app.frameCount = 60) ∧
    ((∀ t ∈ (runningTimes 0 (elapsedTimes app.timer frames)).dropLast, t ≤ 1000) →
      1000 < accumulatedTime 0 (elapsedTimes app.timer frames) →
      accumulatedTime 0 (elapsedTimes app.timer frames) < 1008 →
      captions (run frames app).events = ["FPS: 60"] ∧
      (run frames app).app.fps = 60 ∧
      (run frames app).app.time = 0 ∧
      (run frames app).app.frameCount = 0) := by
  have hfc : app.frameCount < 2 ^ 32 := by rw [hcount]; norm_num
  constructor
  · intro hle
    obtain ⟨_, h2, h3, h4, h5, _⟩ := run_quiet frames app hfc hok (by rw [htime]; exact hle)
    refine ⟨h2, h5, ?_, ?_⟩
    · rw [h3, htime]
    · rw [h4, hcount, hlen]; norm_num
  · intro hinit hgt hlt
    have hne : frames ≠ [] := by
      intro h
      rw [h] at hlen
      simp at hlen
    obtain ⟨init, last, rfl⟩ : ∃ init last, frames = init ++ [last] :=
      ⟨frames.dropLast, frames.getLast hne, (List.dropLast_append_getLast hne).symm⟩
    have hlen' : init.length = 59 := by
      simp at hlen
      exact hlen
    have hokInit : ∀ f ∈ init, f.Succeeds := fun f hf => hok f (List.mem_append_left _ hf)
    obtain ⟨timer', htimes⟩ := elapsedTimes_append app.timer init [last]
    have hdrop : (runningTimes 0 (elapsedTimes app.timer (init ++ [last]))).dropLast =
        runningTimes 0 (elapsedTimes app.timer init) := by
      rw [htimes, runningTimes_append]
      simp [elapsedTimes, runningTimes]
    rw [hdrop] at hinit
    obtain ⟨q1, q2, q3, q4, q5, q6⟩ := run_quiet init app hfc hokInit
      (by rw [htime]; exact hinit)
    have hlast : last.Succeeds := hok last (by simp)
    have htotal : accumulatedTime 0 (elapsedTimes app.timer (init ++ [last])) =
        float32 ((run init app).app.time +
          ((run init app).app.timer.millisecondsElapsed last.now).1) := by
      rw [q6 [last], accumulatedTime_append, q3, htime]
      simp [elapsedTimes, accumulatedTime]
    rw [htotal] at hgt hlt
    have hp := onPaint_of_succeeds last (run init app).app hlast
    rw [timing_of_gt last (run init app).app hgt] at hp
    have hrun : run [last] (run init app).app = onPaint last (run init app).app := by
      rw [run_cons_of_ok _ _ _ (by rw [hp]), run_nil]
      simp only [List.append_nil]
      rw [hp]
    have hfcount : ((run init app).app.frameCount + 1) % 2 ^ 32 = 60 := by
      rw [q4, hcount, hlen']
      norm_num
    rw [hfcount, fps_value_sixty _ hgt hlt] at hp
    rw [run_append init [last] app q1, hrun, hp]
    refine ⟨?_, rfl, rfl, rfl⟩
    simp only [captions, List.filterMap_append] at q2 ⊢
    rw [q2]
    rfl

/-- Witness for C8 on sixty frames that take 1001 ms. -/
theorem fps_over_sixty_frames_witness :
    (∀ t ∈ (runningTimes 0 (elapsedTimes startedApp.timer (sixtyFrames 17))).dropLast,
      t ≤ 1000) ∧
    (elapsedMicros startedApp.timer (sixtyFrames 17)).sum = 1001000 ∧
    accumulatedTime 0 (elapsedTimes startedApp.timer (sixtyFrames 17)) = 1001 ∧
    captions (run (sixtyFrames 17) startedApp).events = ["FPS: 60"] ∧
    (run (sixtyFrames 17) startedApp).app.fps = 60 ∧
    (run (sixtyFrames 17) startedApp).app.time = 0 ∧
    (run (sixtyFrames 17) startedApp).app.frameCount = 0 :=
  ⟨by decide!, by decide!, by decide!,
   (fps_over_sixty_frames startedApp (sixtyFrames 17) (by decide!) (by decide!) (by decide!)
      (by decide!)).2 (by decide!) (by decide!) (by decide!)⟩

/-- C8 fails as stated: sixty frames in which every call succeeds, whose
elapsed times (40 of 17 ms, 20 of 16 ms) sum to exactly 1000 ms, run from
`time = 0` and `frameCount = 0`, push no caption at all and leave `fps` at
its initial value 0; the sixty frames and the 1000 ms stay accumulated. -/
theorem no_fps_at_exactly_1000_ms :
    startedApp.time = 0 ∧ startedApp.frameCount = 0 ∧
    (sixtyFrames 16).length = 60 ∧
    (∀ f ∈ sixtyFrames 16, f.Succeeds) ∧
    (elapsedMicros startedApp.timer (sixtyFrames 16)).sum = 1000000 ∧
    (elapsedTimes startedApp.timer (sixtyFrames 16)).sum = 1000 ∧
    (run (sixtyFrames 16) startedApp).thrown = none ∧
    captions (run (sixtyFrames 16) startedApp).events = [] ∧
    (run (sixtyFrames 16) startedApp).app.fps = 0 ∧
    (run (sixtyFrames 16) startedApp).app.time = 1000 ∧
    (run (sixtyFrames 16) startedApp).app.frameCount = 60 := by
  decide!

/-- Whether sixty frames that take exactly 1000 ms reach the threshold
depends on the rounding of the `float` operations: with five frames of
16007 µs, fifty-four of 17000 µs and one of 1965 µs, `time` comes to
1000 + 1/16384 at the 60th frame, which computes 60 and pushes the caption
"FPS: 60". -/
theorem fps_at_1000_ms_after_rounding :
    sixtyUnevenFrames.length = 60 ∧
    (∀ f ∈ sixtyUnevenFrames, f.Succeeds) ∧
    (elapsedMicros startedApp.timer sixtyUnevenFrames).sum = 1000000 ∧
    captions (run sixtyUnevenFrames.dropLast startedApp).events = [] ∧
    accumulatedTime 0 (elapsedTimes startedApp.timer sixtyUnevenFrames) = 1000 + 1 / 16384 ∧
    captions (run sixtyUnevenFrames startedApp).events = ["FPS: 60"] ∧
    (run sixtyUnevenFrames startedApp).app.fps = 60 := by
  decide!

/-- C9 fails on the code: from `time = 0` and `frameCount = 0`, one frame in
which every call succeeds and which takes 4000 ms makes the accumulated
time exceed 1000 ms; the code computes and displays 4, the product of the
frame count and the seconds, where one frame in four seconds rounds to 0
frames per second.  The two counters are reset to 0. -/
theorem fps_is_count_times_seconds :
    startedApp.time = 0 ∧ startedApp.frameCount = 0 ∧
    (Frame.succeeding 0 4000000000).Succeeds ∧
    elapsedMicros startedApp.timer [Frame.succeeding 0 4000000000] = [4000000] ∧
    elapsedTimes startedApp.timer [Frame.succeeding 0 4000000000] = [4000 + 1 / 4096] ∧
    (onPaint (Frame.succeeding 0 4000000000) startedApp).app.fps = 4 ∧
    captions (onPaint (Frame.succeeding 0 4000000000) startedApp).events = ["FPS: 4"] ∧
    roundedFramesPerSecond 1 4000 = 0 ∧
    roundedFramesPerSecond 1 (4000 + 1 / 4096) = 0 ∧
    (onPaint (Frame.succeeding 0 4000000000) startedApp).app.time = 0 ∧
    (onPaint (Frame.succeeding 0 4000000000) startedApp).app.frameCount = 0 := by
  decide!


/-! ### Frame-slot exclusivity -/

theorem split_unique {α : Type} {l₁ l₂ a b : List α} {x y : α}
    (h : l₁ ++ x :: l₂ = a ++ y :: b) (hp : y ∉ l₁) (hq : y ∉ l₂) :
    a = l₁ ∧ x = y ∧ b = l₂ := by
  induction l₁ generalizing a with
  | nil =>
    cases a with
    | nil =>
      simp at h
      exact ⟨rfl, h.1, h.2.symm⟩
    | cons c a =>
      simp at h
      exact absurd (by rw [h.2]; simp) hq
  | cons c t ih =>
    cases a with
    | nil =>
      simp at h
      exact absurd (List.mem_cons.2 (Or.inl h.1.symm)) hp
    | cons c' a =>
      simp at h
      obtain ⟨r1, r2, r3⟩ := ih h.2 (fun hm => hp (List.mem_cons_of_mem _ hm))
      exact ⟨by rw [r1, h.1], r2, r3⟩

theorem seq_call_cons (e : Event) (rest : List Proc) (app : VkApp) :
    seq (call e :: rest) app =
      { app := (seq rest app).app, events := e :: (seq rest app).events,
        thrown := (seq rest app).thrown } := by
  simp [seq, call]

theorem timing_events (frame : Frame) (app : VkApp) :
    ∀ e ∈ (timing frame app).events, ∃ caption, e = Event.setWindowText caption := by
  unfold timing
  dsimp only
  split
  · intro e he
    simp at he
    exact ⟨_, he⟩
  · intro e he
    simp at he

/-- The stages of a frame after recording: the submission is their first
call; no command buffer is reset and nothing else is submitted; and when
they complete without an exception the submission succeeded and the wait on
the fence of the slot was made, returning `VK_SUCCESS` or `VK_TIMEOUT`. -/
theorem submit_present_wait_events (frame : Frame) (i : Nat) (app : VkApp) :
    (seq [submit frame i, present frame i, waitForPresentComplete frame i,
        timing frame] app).events = Event.queueSubmit i frame.submitResult ::
      (seq [submit frame i, present frame i, waitForPresentComplete frame i,
        timing frame] app).events.tail ∧
    (∀ k, Event.resetCommandBuffer k ∉ (seq [submit frame i, present frame i,
        waitForPresentComplete frame i, timing frame] app).events) ∧
    (∀ j r, Event.queueSubmit j r ∉ (seq [submit frame i, present frame i,
        waitForPresentComplete frame i, timing frame] app).events.tail) ∧
    ((seq [submit frame i, present frame i, waitForPresentComplete frame i,
        timing frame] app).thrown = none →
      frame.submitResult = VK_SUCCESS ∧
      (Event.waitForFences i VK_SUCCESS ∈ (seq [submit frame i, present frame i,
          waitForPresentComplete frame i, timing frame] app).events.tail ∨
        Event.waitForFences i VK_TIMEOUT ∈ (seq [submit frame i, present frame i,
          waitForPresentComplete frame i, timing frame] app).events.tail) ∧
      (frame.waitResult ≠ VK_TIMEOUT →
        Event.waitForFences i VK_SUCCESS ∈ (seq [submit frame i, present frame i,
          waitForPresentComplete frame i, timing frame] app).events.tail)) := by
  have hT := timing_events frame app
  have hT1 : ∀ k, Event.resetCommandBuffer k ∉ (timing frame app).events := by
    intro k hk
    obtain ⟨c, hc⟩ := hT _ hk
    cases hc
  have hT2 : ∀ j r, Event.queueSubmit j r ∉ (timing frame app).events := by
    intro j r hk
    obtain ⟨c, hc⟩ := hT _ hk
    cases hc
  have hTt := timing_thrown frame app
  have hne : VK_TIMEOUT ≠ VK_SUCCESS := by decide
  have hne2 : VK_SUCCESS ≠ VK_TIMEOUT := by decide
  by_cases hs : frame.submitResult = VK_SUCCESS
  · by_cases hp : frame.presentResult = VK_SUCCESS
    · by_cases hw : frame.waitResult = VK_TIMEOUT
      · simp [seq, submit, present, waitForPresentComplete, call, CHECK_SUCCEEDED, hs, hp,
          hw, hTt, hT1, hT2, hne, hne2]
      · have hw' : ¬ VK_TIMEOUT = frame.waitResult := fun h => hw h.symm
        by_cases hw2 : frame.waitResult = VK_SUCCESS
        · simp [seq, submit, present, waitForPresentComplete, call, CHECK_SUCCEEDED, hs, hp,
            hw2, hTt, hT1, hT2, hne, hne2]
        · have hw2' : ¬ VK_SUCCESS = frame.waitResult := fun h => hw2 h.symm
          simp [seq, submit, present, waitForPresentComplete, call, CHECK_SUCCEEDED, hs, hp,
            hw, hw', hw2, hw2', hTt, hT1, hT2, hne, hne2]
    · have hp' : ¬ VK_SUCCESS = frame.presentResult := fun h => hp h.symm
      simp [seq, submit, present, waitForPresentComplete, call, CHECK_SUCCEEDED, hs, hp, hp',
        hTt, hT1, hT2, hne, hne2]
  · have hs' : ¬ VK_SUCCESS = frame.submitResult := fun h => hs h.symm
    simp [seq, submit, present, waitForPresentComplete, call, CHECK_SUCCEEDED, hs, hs',
      hTt, hT1, hT2, hne, hne2]

/-- Shape of the calls of one `onPaint`: either nothing is submitted (the
acquisition failed), or the calls are those of the acquire and record
stages, among which no submission, followed by those of the submit,
present, wait and timing stages on the same slot. -/
theorem onPaint_events (frame : Frame) (app : VkApp) :
    ((onPaint frame app).thrown = none ∧
      ∀ j r, Event.queueSubmit j r ∉ (onPaint frame app).events) ∨
    ∃ recorded i,
      (onPaint frame app).events = recorded ++
        (seq [submit frame i, present frame i, waitForPresentComplete frame i,
          timing frame] app).events ∧
      (onPaint frame app).thrown =
        (seq [submit frame i, present frame i, waitForPresentComplete frame i,
          timing frame] app).thrown ∧
      ∀ j r, Event.queueSubmit j r ∉ recorded := by
  by_cases hret : VK_TIMEOUT ≠ frame.acquireResult ∧ VK_SUCCESS ≠ frame.acquireResult
  · left
    simp [onPaint, hret, call]
  · right
    refine ⟨[Event.acquireNextImage frame.acquireResult] ++
         (if VK_TIMEOUT = frame.acquireResult then
            [Event.outputDebugString "acquire image timeout has expired\n"]
          else []) ++
         [Event.resetFences (if frame.acquireResult = VK_SUCCESS then frame.acquiredImage else 0),
          Event.resetCommandBuffer
            (if frame.acquireResult = VK_SUCCESS then frame.acquiredImage else 0),
          Event.beginCommandBuffer
            (if frame.acquireResult = VK_SUCCESS then frame.acquiredImage else 0)
            frame.beginResult] ++
         (if VK_SUCCESS = frame.beginResult then
            [Event.cmdBeginRenderPass
               (if frame.acquireResult = VK_SUCCESS then frame.acquiredImage else 0),
             Event.cmdEndRenderPass
               (if frame.acquireResult = VK_SUCCESS then frame.acquiredImage else 0)]
          else []) ++
         [Event.endCommandBuffer
            (if frame.acquireResult = VK_SUCCESS then frame.acquiredImage else 0)],
      if frame.acquireResult = VK_SUCCESS then frame.acquiredImage else 0, ?_, ?_, ?_⟩
    · unfold onPaint
      simp only [hret, if_false]
      by_cases ha : VK_TIMEOUT = frame.acquireResult <;>
        by_cases hb : VK_SUCCESS = frame.beginResult <;>
          simp only [ha, hb, if_true, if_false, List.append_assoc, List.cons_append,
            List.nil_append, seq_call_cons]
    · unfold onPaint
      simp only [hret, if_false]
      by_cases ha : VK_TIMEOUT = frame.acquireResult <;>
        by_cases hb : VK_SUCCESS = frame.beginResult <;>
          simp only [ha, hb, if_true, if_false, List.append_assoc, List.cons_append,
            List.nil_append, seq_call_cons]
    · intro j r
      by_cases ha : VK_TIMEOUT = frame.acquireResult <;>
        by_cases hb : VK_SUCCESS = frame.beginResult <;>
          simp [ha, hb]

/-- Within one `onPaint`, no command buffer is reset after a submission. -/
theorem onPaint_no_reset_after_submit (frame : Frame) (app : VkApp)
    (a b : List Event) (j : Nat) (r : VkResult)
    (h : (onPaint frame app).events = a ++ Event.queueSubmit j r :: b) :
    ∀ k, Event.resetCommandBuffer k ∉ b := by
  rcases onPaint_events frame app with ⟨_, hno⟩ | ⟨recorded, i, hev, _, hrec⟩
  · exact absurd (by rw [h]; simp) (hno j r)
  · obtain ⟨t1, t2, t3, _⟩ := submit_present_wait_events frame i app
    rw [hev, t1] at h
    obtain ⟨_, _, hb⟩ := split_unique h (hrec j r) (t3 j r)
    intro k hk
    apply t2 k
    rw [t1, ← hb]
    exact List.mem_cons_of_mem _ hk

/-- Within one `onPaint` that completes without an exception, a submission
is followed by the wait on the fence of the same slot. -/
theorem onPaint_wait_after_submit (frame : Frame) (app : VkApp)
    (a b : List Event) (j : Nat) (r : VkResult)
    (h : (onPaint frame app).events = a ++ Event.queueSubmit j r :: b)
    (hthrown : (onPaint frame app).thrown = none) :
    (Event.waitForFences j VK_SUCCESS ∈ b ∨ Event.waitForFences j VK_TIMEOUT ∈ b) ∧
    (frame.waitResult ≠ VK_TIMEOUT → Event.waitForFences j VK_SUCCESS ∈ b) := by
  rcases onPaint_events frame app with ⟨_, hno⟩ | ⟨recorded, i, hev, hth, hrec⟩
  · exact absurd (by rw [h]; simp) (hno j r)
  · obtain ⟨t1, _, t3, t4⟩ := submit_present_wait_events frame i app
    rw [hth] at hthrown
    obtain ⟨_, w1, w2⟩ := t4 hthrown
    rw [hev, t1] at h
    obtain ⟨_, hx, hb⟩ := split_unique h (hrec j r) (t3 j r)
    have hij : i = j := by
      injection hx
    subst hij
    rw [hb]
    exact ⟨w1, w2⟩

/-- A property `G i between` of what lies between a successful submission of
slot `i` and a later reset of its command buffer holds along a run as soon
as it is stable under extension and holds, in every frame that completes,
for what follows a submission inside the frame. -/
theorem run_between (G : Nat → List Event → Prop)
    (hmono : ∀ i l l', G i l → G i (l ++ l'))
    (frames : List Frame)
    (hframe : ∀ f ∈ frames, ∀ (app : VkApp) (a b : List Event) (j : Nat),
      (onPaint f app).events = a ++ Event.queueSubmit j VK_SUCCESS :: b →
      (onPaint f app).thrown = none → G j b)
    (app : VkApp) (i : Nat) (before between after : List Event)
    (h : (run frames app).events = before ++ Event.queueSubmit i VK_SUCCESS :: between ++
      Event.resetCommandBuffer i :: after) :
    G i between := by
  induction frames generalizing app before with
  | nil =>
    rw [run_nil] at h
    simp at h
  | cons f t ih =>
    have iht := ih (fun g hg => hframe g (List.mem_cons_of_mem f hg))
    cases hth : (onPaint f app).thrown with
    | some message =>
      rw [run_cons_of_thrown f t app message hth] at h
      simp only at h
      have hno := onPaint_no_reset_after_submit f app before
        (between ++ Event.resetCommandBuffer i :: after) i VK_SUCCESS
        (by rw [h]; simp) i
      simp at hno
    | none =>
      rw [run_cons_of_ok f t app hth] at h
      simp only at h
      have h' : (onPaint f app).events ++ (run t (onPaint f app).app).events =
          before ++ (Event.queueSubmit i VK_SUCCESS :: between ++
            Event.resetCommandBuffer i :: after) := by
        rw [h]; simp
      rcases List.append_eq_append_iff.1 h' with ⟨a', _, h2⟩ | ⟨c', h1, h2⟩
      · exact iht (onPaint f app).app a' (by rw [h2]; simp)
      · cases c' with
        | nil =>
          exact iht (onPaint f app).app [] (by simpa using h2.symm)
        | cons x c'' =>
          simp only [List.cons_append, List.cons.injEq] at h2
          obtain ⟨hx, h3⟩ := h2
          subst hx
          have hG := hframe f (List.mem_cons_self f t) app before c'' i h1 hth
          have hno := onPaint_no_reset_after_submit f app before c'' i VK_SUCCESS h1 i
          rcases List.append_eq_append_iff.1 h3 with ⟨a', h4, h5⟩ | ⟨c3, h4, _⟩
          · cases a' with
            | nil =>
              have hc : c'' = between := by simpa using h4
              rw [← hc]
              exact hG
            | cons y a'' =>
              simp only [List.cons_append, List.cons.injEq] at h5
              rw [h4, ← h5.1] at hno
              simp at hno
          · rw [h4]
            exact hmono i _ _ hG

/-- C6, as the code has it: along every sequence of `onPaint` calls,
between a successful submission of a slot and a later reset of the command
buffer of that slot, the bounded wait on the fence of the slot was made and
returned `VK_SUCCESS` (fence observed signaled) or `VK_TIMEOUT` (logged, the
frame loop goes on); when no fence wait of the sequence times out, the
fence has been observed signaled before every such reset. -/
theorem run_fence_waited_before_reuse (frames : List Frame) (app : VkApp) :
    FenceWaitedBeforeReuse (run frames app).events ∧
    ((∀ f ∈ frames, f.waitResult ≠ VK_TIMEOUT) →
      FenceObservedBeforeReuse (run frames app).events) := by
  constructor
  · intro i before between after h
    exact run_between
      (fun i l => Event.waitForFences i VK_SUCCESS ∈ l ∨ Event.waitForFences i VK_TIMEOUT ∈ l)
      (fun i l l' hl => by
        rcases hl with hl | hl
        · exact Or.inl (List.mem_append_left _ hl)
        · exact Or.inr (List.mem_append_left _ hl))
      frames
      (fun f _ app a b j hev hth => (onPaint_wait_after_submit f app a b j VK_SUCCESS hev hth).1)
      app i before between after h
  · intro hwait i before between after h
    exact run_between
      (fun i l => Event.waitForFences i VK_SUCCESS ∈ l)
      (fun i l l' hl => List.mem_append_left _ hl)
      frames
      (fun f hf app a b j hev hth =>
        (onPaint_wait_after_submit f app a b j VK_SUCCESS hev hth).2 (hwait f hf))
      app i before between after h

/-- Witness for C6: three frames on the slots 0, 1, 0 in which every call
succeeds; the third frame resets the command buffer of slot 0 after the
wait of the first frame returned `VK_SUCCESS`. -/
theorem run_fence_waited_before_reuse_witness :
    (∀ f ∈ alternatingFrames VK_SUCCESS, f.waitResult ≠ VK_TIMEOUT) ∧
    (run (alternatingFrames VK_SUCCESS) startedApp).events =
      (run (alternatingFrames VK_SUCCESS) startedApp).events.take 7 ++
        Event.queueSubmit 0 VK_SUCCESS ::
        ((run (alternatingFrames VK_SUCCESS) startedApp).events.drop 8).take 14 ++
        Event.resetCommandBuffer 0 ::
        (run (alternatingFrames VK_SUCCESS) startedApp).events.drop 23 ∧
    Event.waitForFences 0 VK_SUCCESS ∈
      ((run (alternatingFrames VK_SUCCESS) startedApp).events.drop 8).take 14 :=
  ⟨by decide, by decide!,
   (run_fence_waited_before_reuse (alternatingFrames VK_SUCCESS) startedApp).2 (by decide) 0
     ((run (alternatingFrames VK_SUCCESS) startedApp).events.take 7)
     (((run (alternatingFrames VK_SUCCESS) startedApp).events.drop 8).take 14)
     ((run (alternatingFrames VK_SUCCESS) startedApp).events.drop 23) (by decide!)⟩

/-- C6 fails as stated: in three frames on the slots 0, 1, 0 where the
bounded wait at the end of the first frame times out, no exception is
raised, and the third frame resets the command buffer of slot 0 although no
wait on the fence of slot 0 has returned `VK_SUCCESS` since the submission
of the first frame. -/
theorem reuse_without_observed_fence :
    (run (alternatingFrames VK_TIMEOUT) startedApp).thrown = none ∧
    ¬ FenceObservedBeforeReuse (run (alternatingFrames VK_TIMEOUT) startedApp).events := by
  refine ⟨by decide!, ?_⟩
  intro h
  have hmem := h 0
    ((run (alternatingFrames VK_TIMEOUT) startedApp).events.take 7)
    (((run (alternatingFrames VK_TIMEOUT) startedApp).events.drop 8).take 15)
    ((run (alternatingFrames VK_TIMEOUT) startedApp).events.drop 24) (by decide!)
  revert hmem
  decide!

/-! ### Results of one `onPaint` -/

/-- When the acquisition returns `VK_SUCCESS` or `VK_TIMEOUT`, `onPaint` is
its recording calls followed by the later stages. -/
theorem onPaint_decompose (frame : Frame) (app : VkApp)
    (h : frame.acquireResult = VK_SUCCESS ∨ frame.acquireResult = VK_TIMEOUT) :
    onPaint frame app =
      { app := (afterRecording frame app).app
        events := frame.recordingCalls ++ (afterRecording frame app).events
        thrown := (afterRecording frame app).thrown } := by
  have hret : ¬ (VK_TIMEOUT ≠ frame.acquireResult ∧ VK_SUCCESS ≠ frame.acquireResult) := by
    rcases h with h | h <;> simp [h]
  unfold onPaint afterRecording Frame.recordingCalls Frame.imageIndex
  simp only [hret, if_false]
  by_cases ha : VK_TIMEOUT = frame.acquireResult <;>
    by_cases hb : VK_SUCCESS = frame.beginResult <;>
      simp only [ha, hb, if_true, if_false, List.append_assoc, List.cons_append,
        List.nil_append, seq_call_cons]

/-- When the acquisition returns another status, `onPaint` returns at
once. -/
theorem onPaint_of_acquire_failed (frame : Frame) (app : VkApp)
    (h1 : frame.acquireResult ≠ VK_SUCCESS) (h2 : frame.acquireResult ≠ VK_TIMEOUT) :
    onPaint frame app =
      { app := app, events := [Event.acquireNextImage frame.acquireResult], thrown := none } := by
  have hret : VK_TIMEOUT ≠ frame.acquireResult ∧ VK_SUCCESS ≠ frame.acquireResult :=
    ⟨fun h => h2 h.symm, fun h => h1 h.symm⟩
  simp [onPaint, hret, call]

theorem afterRecording_submit_failed (frame : Frame) (app : VkApp)
    (hs : frame.submitResult ≠ VK_SUCCESS) :
    afterRecording frame app =
      { app := app
        events := [Event.queueSubmit frame.imageIndex frame.submitResult]
        thrown := some "queue submission failed" } := by
  have hs' : ¬ VK_SUCCESS = frame.submitResult := fun h => hs h.symm
  simp [afterRecording, seq, submit, call, CHECK_SUCCEEDED, hs']

theorem afterRecording_present_failed (frame : Frame) (app : VkApp)
    (hs : frame.submitResult = VK_SUCCESS) (hp : frame.presentResult ≠ VK_SUCCESS) :
    afterRecording frame app =
      { app := app
        events := [Event.queueSubmit frame.imageIndex VK_SUCCESS,
                   Event.queuePresent frame.imageIndex frame.presentResult]
        thrown := some "present failed" } := by
  have hp' : ¬ VK_SUCCESS = frame.presentResult := fun h => hp h.symm
  simp [afterRecording, seq, submit, present, call, CHECK_SUCCEEDED, hs, hp']

theorem afterRecording_wait_failed (frame : Frame) (app : VkApp)
    (hs : frame.submitResult = VK_SUCCESS) (hp : frame.presentResult = VK_SUCCESS)
    (hw1 : frame.waitResult ≠ VK_SUCCESS) (hw2 : frame.waitResult ≠ VK_TIMEOUT) :
    afterRecording frame app =
      { app := app
        events := [Event.queueSubmit frame.imageIndex VK_SUCCESS,
                   Event.queuePresent frame.imageIndex VK_SUCCESS,
                   Event.waitForFences frame.imageIndex frame.waitResult]
        thrown := some "wait for fence failed" } := by
  have hw1' : ¬ VK_SUCCESS = frame.waitResult := fun h => hw1 h.symm
  have hw2' : ¬ VK_TIMEOUT = frame.waitResult := fun h => hw2 h.symm
  simp [afterRecording, seq, submit, present, waitForPresentComplete, call, CHECK_SUCCEEDED,
    hs, hp, hw1', hw2']

theorem afterRecording_wait_timeout (frame : Frame) (app : VkApp)
    (hs : frame.submitResult = VK_SUCCESS) (hp : frame.presentResult = VK_SUCCESS)
    (hw : frame.waitResult = VK_TIMEOUT) :
    afterRecording frame app =
      { app := (timing frame app).app
        events := [Event.queueSubmit frame.imageIndex VK_SUCCESS,
                   Event.queuePresent frame.imageIndex VK_SUCCESS,
                   Event.waitForFences frame.imageIndex VK_TIMEOUT,
                   Event.outputDebugString "timeout has expired\n"] ++
                  (timing frame app).events
        thrown := none } := by
  have hTt := timing_thrown frame app
  simp [afterRecording, seq, submit, present, waitForPresentComplete, call, CHECK_SUCCEEDED,
    hs, hp, hw, hTt]

theorem afterRecording_wait_ok (frame : Frame) (app : VkApp)
    (hs : frame.submitResult = VK_SUCCESS) (hp : frame.presentResult = VK_SUCCESS)
    (hw : frame.waitResult = VK_SUCCESS) :
    afterRecording frame app =
      { app := (timing frame app).app
        events := [Event.queueSubmit frame.imageIndex VK_SUCCESS,
                   Event.queuePresent frame.imageIndex VK_SUCCESS,
                   Event.waitForFences frame.imageIndex VK_SUCCESS] ++
                  (timing frame app).events
        thrown := none } := by
  have hTt := timing_thrown frame app
  have hne : VK_TIMEOUT ≠ VK_SUCCESS := by decide
  simp [afterRecording, seq, submit, present, waitForPresentComplete, call, CHECK_SUCCEEDED,
    hs, hp, hw, hTt, hne]

/-- A frame that reaches the timing stage: state and captions are those of
the timing stage, and no exception is raised. -/
theorem onPaint_of_reachesTiming (frame : Frame) (app : VkApp) (h : frame.ReachesTiming) :
    (onPaint frame app).app = (timing frame app).app ∧
    (onPaint frame app).thrown = none ∧
    captions (onPaint frame app).events = captions (timing frame app).events := by
  obtain ⟨ha, hs, hp, hw⟩ := h
  rw [onPaint_decompose frame app ha]
  have hrec : captions frame.recordingCalls = [] := by
    unfold Frame.recordingCalls captions
    by_cases h1 : VK_TIMEOUT = frame.acquireResult <;>
      by_cases h2 : VK_SUCCESS = frame.beginResult <;> simp [h1, h2]
  rcases hw with hw | hw
  · rw [afterRecording_wait_ok frame app hs hp hw]
    refine ⟨rfl, rfl, ?_⟩
    simp only [captions, List.filterMap_append] at hrec ⊢
    rw [hrec]
    simp
  · rw [afterRecording_wait_timeout frame app hs hp hw]
    refine ⟨rfl, rfl, ?_⟩
    simp only [captions, List.filterMap_append] at hrec ⊢
    rw [hrec]
    simp

/-- A frame that does not reach the timing stage leaves the state as it
was and pushes no caption. -/
theorem onPaint_of_not_reachesTiming (frame : Frame) (app : VkApp) (h : ¬ frame.ReachesTiming) :
    (onPaint frame app).app = app ∧
    captions (onPaint frame app).events = [] := by
  by_cases ha : frame.acquireResult = VK_SUCCESS ∨ frame.acquireResult = VK_TIMEOUT
  · rw [onPaint_decompose frame app ha]
    have hrec : captions frame.recordingCalls = [] := by
      unfold Frame.recordingCalls captions
      by_cases h1 : VK_TIMEOUT = frame.acquireResult <;>
        by_cases h2 : VK_SUCCESS = frame.beginResult <;> simp [h1, h2]
    by_cases hs : frame.submitResult = VK_SUCCESS
    · by_cases hp : frame.presentResult = VK_SUCCESS
      · have hw : frame.waitResult ≠ VK_SUCCESS ∧ frame.waitResult ≠ VK_TIMEOUT := by
          constructor
          · intro hw; exact h ⟨ha, hs, hp, Or.inl hw⟩
          · intro hw; exact h ⟨ha, hs, hp, Or.inr hw⟩
        rw [afterRecording_wait_failed frame app hs hp hw.1 hw.2]
        refine ⟨rfl, ?_⟩
        simp only [captions, List.filterMap_append] at hrec ⊢
        rw [hrec]
        simp
      · rw [afterRecording_present_failed frame app hs hp]
        refine ⟨rfl, ?_⟩
        simp only [captions, List.filterMap_append] at hrec ⊢
        rw [hrec]
        simp
    · rw [afterRecording_submit_failed frame app hs]
      refine ⟨rfl, ?_⟩
      simp only [captions, List.filterMap_append] at hrec ⊢
      rw [hrec]
      simp
  · have h1 : frame.acquireResult ≠ VK_SUCCESS := fun h' => ha (Or.inl h')
    have h2 : frame.acquireResult ≠ VK_TIMEOUT := fun h' => ha (Or.inr h')
    rw [onPaint_of_acquire_failed frame app h1 h2]
    exact ⟨rfl, by simp [captions]⟩


/-- C12: when the acquisition returns a status that is neither success nor
timeout, `onPaint` makes no call after the acquisition (no fence or command
buffer reset, nothing recorded, submitted or presented), raises nothing,
and leaves `frameCount`, `time`, `fps` and the previous time point of the
timer as they were, so that the next frame runs exactly as it would have
without the aborted frame: its elapsed time is measured from the time
point before the aborted frame, and the aborted frame is not counted. -/
theorem onPaint_acquire_failure_leaves_state (frame : Frame) (app : VkApp)
    (h1 : frame.acquireResult ≠ VK_SUCCESS) (h2 : frame.acquireResult ≠ VK_TIMEOUT) :
    (onPaint frame app).events = [Event.acquireNextImage frame.acquireResult] ∧
    (onPaint frame app).thrown = none ∧
    (onPaint frame app).app.frameCount = app.frameCount ∧
    (onPaint frame app).app.time = app.time ∧
    (onPaint frame app).app.fps = app.fps ∧
    (onPaint frame app).app.timer.prev = app.timer.prev ∧
    (∀ next : Frame, onPaint next (onPaint frame app).app = onPaint next app) := by
  rw [onPaint_of_acquire_failed frame app h1 h2]
  exact ⟨rfl, rfl, rfl, rfl, rfl, rfl, fun _ => rfl⟩

/-- Witness for C12: the acquisition returns `VK_ERROR_OUT_OF_DATE_KHR`. -/
theorem onPaint_acquire_failure_leaves_state_witness :
    (onPaint { Frame.succeeding 0 16000000 with acquireResult := VK_ERROR_OUT_OF_DATE_KHR }
      startedApp).events = [Event.acquireNextImage VK_ERROR_OUT_OF_DATE_KHR] ∧
    (onPaint { Frame.succeeding 0 16000000 with acquireResult := VK_ERROR_OUT_OF_DATE_KHR }
      startedApp).app.frameCount = startedApp.frameCount ∧
    (onPaint { Frame.succeeding 0 16000000 with acquireResult := VK_ERROR_OUT_OF_DATE_KHR }
      startedApp).app.timer.prev = startedApp.timer.prev :=
  have h := onPaint_acquire_failure_leaves_state
    { Frame.succeeding 0 16000000 with acquireResult := VK_ERROR_OUT_OF_DATE_KHR } startedApp
    (by decide) (by decide)
  ⟨h.1, h.2.2.1, h.2.2.2.2.2.1⟩

theorem not_mem_timing_events (frame : Frame) (app : VkApp) (e : Event)
    (h : ∀ caption, e ≠ Event.setWindowText caption) : e ∉ (timing frame app).events := by
  intro he
  obtain ⟨c, hc⟩ := timing_events frame app e he
  exact h c hc

theorem imageIndex_of_timeout (frame : Frame) (h : frame.acquireResult = VK_TIMEOUT) :
    frame.imageIndex = 0 := by
  unfold Frame.imageIndex
  rw [h, if_neg (by decide)]

theorem imageIndex_of_success (frame : Frame) (h : frame.acquireResult = VK_SUCCESS) :
    frame.imageIndex = frame.acquiredImage := by
  unfold Frame.imageIndex
  rw [if_pos h]


/-- The calls of the stages after recording. -/
theorem afterRecording_calls (frame : Frame) (app : VkApp) :
    Event.queueSubmit frame.imageIndex frame.submitResult ∈ (afterRecording frame app).events ∧
    (frame.submitResult = VK_SUCCESS →
      Event.queuePresent frame.imageIndex frame.presentResult ∈
        (afterRecording frame app).events) ∧
    (∀ e ∈ (afterRecording frame app).events,
      e = Event.queueSubmit frame.imageIndex frame.submitResult ∨
      e = Event.queuePresent frame.imageIndex frame.presentResult ∨
      e = Event.waitForFences frame.imageIndex frame.waitResult ∨
      e = Event.outputDebugString "timeout has expired\n" ∨
      e ∈ (timing frame app).events) := by
  by_cases hs : frame.submitResult = VK_SUCCESS
  · by_cases hp : frame.presentResult = VK_SUCCESS
    · by_cases hw : frame.waitResult = VK_SUCCESS
      · rw [afterRecording_wait_ok frame app hs hp hw, hs, hp, hw]
        simp
        intro a ha
        simp [ha]
      · by_cases hw2 : frame.waitResult = VK_TIMEOUT
        · rw [afterRecording_wait_timeout frame app hs hp hw2, hs, hp, hw2]
          simp
        · rw [afterRecording_wait_failed frame app hs hp hw hw2, hs, hp]
          simp
    · rw [afterRecording_present_failed frame app hs hp, hs]
      simp
  · rw [afterRecording_submit_failed frame app hs]
    simp [hs]

/-- Every call of `onPaint` that names a slot names `imageIndex`. -/
theorem onPaint_slots (frame : Frame) (app : VkApp)
    (ha : frame.acquireResult = VK_SUCCESS ∨ frame.acquireResult = VK_TIMEOUT) :
    Event.resetFences frame.imageIndex ∈ (onPaint frame app).events ∧
    Event.resetCommandBuffer frame.imageIndex ∈ (onPaint frame app).events ∧
    Event.beginCommandBuffer frame.imageIndex frame.beginResult ∈ (onPaint frame app).events ∧
    Event.queueSubmit frame.imageIndex frame.submitResult ∈ (onPaint frame app).events ∧
    (frame.submitResult = VK_SUCCESS →
      Event.queuePresent frame.imageIndex frame.presentResult ∈ (onPaint frame app).events) ∧
    (∀ i, (Event.resetFences i ∈ (onPaint frame app).events ∨
        Event.resetCommandBuffer i ∈ (onPaint frame app).events ∨
        (∃ r, Event.beginCommandBuffer i r ∈ (onPaint frame app).events) ∨
        (∃ r, Event.queueSubmit i r ∈ (onPaint frame app).events) ∨
        (∃ r, Event.queuePresent i r ∈ (onPaint frame app).events) ∨
        (∃ r, Event.waitForFences i r ∈ (onPaint frame app).events)) →
      i = frame.imageIndex) := by
  rw [onPaint_decompose frame app ha]
  have t1 : ∀ i, Event.resetFences i ∉ (timing frame app).events :=
    fun i => not_mem_timing_events frame app _ (fun c h => by cases h)
  have t2 : ∀ i, Event.resetCommandBuffer i ∉ (timing frame app).events :=
    fun i => not_mem_timing_events frame app _ (fun c h => by cases h)
  have t3 : ∀ i r, Event.beginCommandBuffer i r ∉ (timing frame app).events :=
    fun i r => not_mem_timing_events frame app _ (fun c h => by cases h)
  have t4 : ∀ i r, Event.queueSubmit i r ∉ (timing frame app).events :=
    fun i r => not_mem_timing_events frame app _ (fun c h => by cases h)
  have t5 : ∀ i r, Event.queuePresent i r ∉ (timing frame app).events :=
    fun i r => not_mem_timing_events frame app _ (fun c h => by cases h)
  have t6 : ∀ i r, Event.waitForFences i r ∉ (timing frame app).events :=
    fun i r => not_mem_timing_events frame app _ (fun c h => by cases h)
  have hrec : ∀ e ∈ frame.recordingCalls,
      e = Event.acquireNextImage frame.acquireResult ∨
      e = Event.outputDebugString "acquire image timeout has expired\n" ∨
      e = Event.resetFences frame.imageIndex ∨
      e = Event.resetCommandBuffer frame.imageIndex ∨
      e = Event.beginCommandBuffer frame.imageIndex frame.beginResult ∨
      e = Event.cmdBeginRenderPass frame.imageIndex ∨
      e = Event.cmdEndRenderPass frame.imageIndex ∨
      e = Event.endCommandBuffer frame.imageIndex := by
    intro e he
    unfold Frame.recordingCalls at he
    by_cases h1 : VK_TIMEOUT = frame.acquireResult <;>
      by_cases h2 : VK_SUCCESS = frame.beginResult <;>
        simp [h1, h2] at he <;> tauto
  have hin : Event.resetFences frame.imageIndex ∈ frame.recordingCalls ∧
      Event.resetCommandBuffer frame.imageIndex ∈ frame.recordingCalls ∧
      Event.beginCommandBuffer frame.imageIndex frame.beginResult ∈ frame.recordingCalls := by
    unfold Frame.recordingCalls
    simp
  obtain ⟨c1, c2, c3⟩ := afterRecording_calls frame app
  refine ⟨List.mem_append_left _ hin.1, List.mem_append_left _ hin.2.1,
    List.mem_append_left _ hin.2.2, List.mem_append_right _ c1,
    fun hs => List.mem_append_right _ (c2 hs), ?_⟩
  have key : ∀ e ∈ frame.recordingCalls ++ (afterRecording frame app).events,
      e = Event.acquireNextImage frame.acquireResult ∨
      e = Event.outputDebugString "acquire image timeout has expired\n" ∨
      e = Event.resetFences frame.imageIndex ∨
      e = Event.resetCommandBuffer frame.imageIndex ∨
      e = Event.beginCommandBuffer frame.imageIndex frame.beginResult ∨
      e = Event.cmdBeginRenderPass frame.imageIndex ∨
      e = Event.cmdEndRenderPass frame.imageIndex ∨
      e = Event.endCommandBuffer frame.imageIndex ∨
      e = Event.queueSubmit frame.imageIndex frame.submitResult ∨
      e = Event.queuePresent frame.imageIndex frame.presentResult ∨
      e = Event.waitForFences frame.imageIndex frame.waitResult ∨
      e = Event.outputDebugString "timeout has expired\n" ∨
      e ∈ (timing frame app).events := by
    intro e he
    rcases List.mem_append.1 he with he | he
    · rcases hrec e he with h | h | h | h | h | h | h | h <;> simp [h]
    · rcases c3 e he with h | h | h | h | h <;> simp [h]
  intro i hi
  rcases hi with h | h | ⟨r, h⟩ | ⟨r, h⟩ | ⟨r, h⟩ | ⟨r, h⟩
  · have := key _ h
    simpa [t1] using this
  · have := key _ h
    simpa [t2] using this
  · have := key _ h
    simp [t3] at this
    exact this.1
  · have := key _ h
    simp [t4] at this
    exact this.1
  · have := key _ h
    simp [t5] at this
    exact this.1
  · have := key _ h
    simp [t6] at this
    exact this.1


theorem onPaint_timeout_logs (frame : Frame) (app : VkApp)
    (h : frame.acquireResult = VK_TIMEOUT) :
    Event.outputDebugString "acquire image timeout has expired\n" ∈
      (onPaint frame app).events := by
  rw [onPaint_decompose frame app (Or.inr h)]
  apply List.mem_append_left
  unfold Frame.recordingCalls
  simp [h]

/-- C13, as the code has it: when the acquisition times out, `onPaint` logs
a diagnostic and resets, records, submits and presents on slot 0, the
initial value of its local `imageIndex`, whatever the state left by the
previous frames; no call of the frame names another slot. -/
theorem onPaint_timeout_uses_slot_zero (frame : Frame) (app : VkApp)
    (h : frame.acquireResult = VK_TIMEOUT) :
    Event.outputDebugString "acquire image timeout has expired\n" ∈
      (onPaint frame app).events ∧
    Event.resetFences 0 ∈ (onPaint frame app).events ∧
    Event.resetCommandBuffer 0 ∈ (onPaint frame app).events ∧
    Event.beginCommandBuffer 0 frame.beginResult ∈ (onPaint frame app).events ∧
    Event.queueSubmit 0 frame.submitResult ∈ (onPaint frame app).events ∧
    (frame.submitResult = VK_SUCCESS →
      Event.queuePresent 0 frame.presentResult ∈ (onPaint frame app).events) ∧
    (∀ i, (Event.resetFences i ∈ (onPaint frame app).events ∨
        Event.resetCommandBuffer i ∈ (onPaint frame app).events ∨
        (∃ r, Event.beginCommandBuffer i r ∈ (onPaint frame app).events) ∨
        (∃ r, Event.queueSubmit i r ∈ (onPaint frame app).events) ∨
        (∃ r, Event.queuePresent i r ∈ (onPaint frame app).events) ∨
        (∃ r, Event.waitForFences i r ∈ (onPaint frame app).events)) →
      i = 0) := by
  have hslots := onPaint_slots frame app (Or.inr h)
  rw [imageIndex_of_timeout frame h] at hslots
  exact ⟨onPaint_timeout_logs frame app h, hslots⟩

/-- Witness for C13: a timed-out acquisition after a frame that acquired
image 1. -/
theorem onPaint_timeout_uses_slot_zero_witness :
    (Frame.timedOut 32000000).acquireResult = VK_TIMEOUT ∧
    Event.queueSubmit 0 VK_SUCCESS ∈
      (onPaint (Frame.timedOut 32000000)
        (onPaint (Frame.succeeding 1 16000000) startedApp).app).events ∧
    Event.queuePresent 0 VK_SUCCESS ∈
      (onPaint (Frame.timedOut 32000000)
        (onPaint (Frame.succeeding 1 16000000) startedApp).app).events :=
  have h := onPaint_timeout_uses_slot_zero (Frame.timedOut 32000000)
    (onPaint (Frame.succeeding 1 16000000) startedApp).app (by decide)
  ⟨by decide, h.2.2.2.2.1, h.2.2.2.2.2.1 (by decide)⟩

/-- C13 fails as stated: after a frame that acquired image 1 and submitted
on slot 1, a frame whose acquisition times out resets, records, submits and
presents on slot 0, and makes no call on slot 1. -/
theorem timeout_frame_ignores_previous_index :
    (onPaint (Frame.succeeding 1 16000000) startedApp).thrown = none ∧
    Event.queueSubmit 1 VK_SUCCESS ∈ (onPaint (Frame.succeeding 1 16000000) startedApp).events ∧
    (onPaint (Frame.timedOut 32000000)
        (onPaint (Frame.succeeding 1 16000000) startedApp).app).events =
      [Event.acquireNextImage VK_TIMEOUT,
       Event.outputDebugString "acquire image timeout has expired\n",
       Event.resetFences 0,
       Event.resetCommandBuffer 0,
       Event.beginCommandBuffer 0 VK_SUCCESS,
       Event.cmdBeginRenderPass 0,
       Event.cmdEndRenderPass 0,
       Event.endCommandBuffer 0,
       Event.queueSubmit 0 VK_SUCCESS,
       Event.queuePresent 0 VK_SUCCESS,
       Event.waitForFences 0 VK_SUCCESS] := by
  decide!

/-- C14, as the code has it: a frame whose acquisition times out and whose
submission, presentation and fence wait succeed logs a diagnostic, raises
no exception, and is counted like any other frame: `frameCount` is
incremented (modulo 2^32), unless the accumulated time, the `float` sum
`time + dt`, exceeds 1000 ms and the FPS update resets it to 0. -/
theorem onPaint_timeout_counts_frame (frame : Frame) (app : VkApp)
    (ha : frame.acquireResult = VK_TIMEOUT)
    (hs : frame.submitResult = VK_SUCCESS) (hp : frame.presentResult = VK_SUCCESS)
    (hw : frame.waitResult = VK_SUCCESS) :
    Event.outputDebugString "acquire image timeout has expired\n" ∈
      (onPaint frame app).events ∧
    (onPaint frame app).thrown = none ∧
    (onPaint frame app).app.frameCount =
      if float32 (app.time + (app.timer.millisecondsElapsed frame.now).1) > 1000 then 0
      else (app.frameCount + 1) % 2 ^ 32 := by
  obtain ⟨h1, h2, _⟩ := onPaint_of_reachesTiming frame app ⟨Or.inr ha, hs, hp, Or.inl hw⟩
  refine ⟨(onPaint_timeout_logs frame app ha), h2, ?_⟩
  rw [h1]
  by_cases hgt : float32 (app.time + (app.timer.millisecondsElapsed frame.now).1) > 1000
  · rw [timing_of_gt frame app hgt, if_pos hgt]
  · rw [timing_of_le frame app (not_lt.1 hgt), if_neg hgt]


/-- Witness for C14: a timed-out acquisition 16 ms after the start. -/
theorem onPaint_timeout_counts_frame_witness :
    (Frame.timedOut 16000000).acquireResult = VK_TIMEOUT ∧
    (Frame.timedOut 16000000).submitResult = VK_SUCCESS ∧
    (onPaint (Frame.timedOut 16000000) startedApp).thrown = none ∧
    (onPaint (Frame.timedOut 16000000) startedApp).app.frameCount =
      if float32 (startedApp.time + (startedApp.timer.millisecondsElapsed 16000000).1) > 1000
      then 0
      else (startedApp.frameCount + 1) % 2 ^ 32 :=
  have h := onPaint_timeout_counts_frame (Frame.timedOut 16000000) startedApp
    (by decide) (by decide) (by decide) (by decide)
  ⟨by decide, by decide, h.2.1, h.2.2⟩

/-- C14 fails as stated: from `frameCount = 0`, a frame whose acquisition
times out and whose later calls all succeed, 16 ms after the start, raises
no exception, pushes no caption (the FPS update does not run) and leaves
`frameCount = 1`. -/
theorem timeout_frame_increments_frameCount :
    (Frame.timedOut 16000000).acquireResult = VK_TIMEOUT ∧
    (Frame.timedOut 16000000).beginResult = VK_SUCCESS ∧
    (Frame.timedOut 16000000).submitResult = VK_SUCCESS ∧
    (Frame.timedOut 16000000).presentResult = VK_SUCCESS ∧
    (Frame.timedOut 16000000).waitResult = VK_SUCCESS ∧
    startedApp.frameCount = 0 ∧
    (onPaint (Frame.timedOut 16000000) startedApp).thrown = none ∧
    captions (onPaint (Frame.timedOut 16000000) startedApp).events = [] ∧
    (onPaint (Frame.timedOut 16000000) startedApp).app.frameCount = 1 := by
  decide!

theorem winMain_of_constructed (d : Driver) (frames : List Frame)
    (h : (construct d).thrown = none) :
    WinMain d frames =
      { events := (construct d).events ++ (run frames (construct d).app).events ++
          destruct (run frames (construct d).app).app
        messageBox := (run frames (construct d).app).thrown
        exitCode := 0 } := by
  simp [WinMain, h]

theorem winMain_of_not_constructed (d : Driver) (frames : List Frame) (message : String)
    (h : (construct d).thrown = some message) :
    WinMain d frames =
      { events := (construct d).events, messageBox := some message, exitCode := 0 } := by
  simp [WinMain, h]

/-- C11, as the code has it, for a frame whose acquisition returned an
image or timed out and whose submission succeeded: when the present call
succeeds and the fence wait times out, `onPaint` logs a diagnostic, raises
no exception, and the idle loop goes on with the next frame; when the
present call returns any other status than `VK_SUCCESS`, or the fence wait
a status that is neither `VK_SUCCESS` nor `VK_TIMEOUT`, `onPaint` raises an
exception, no further frame is run, and `WinMain` shows the message of the
exception. -/
theorem onPaint_frame_errors (frame : Frame) (rest : List Frame) (app : VkApp)
    (ha : frame.acquireResult = VK_SUCCESS ∨ frame.acquireResult = VK_TIMEOUT)
    (hs : frame.submitResult = VK_SUCCESS) :
    (frame.presentResult = VK_SUCCESS → frame.waitResult = VK_TIMEOUT →
      Event.outputDebugString "timeout has expired\n" ∈ (onPaint frame app).events ∧
      (onPaint frame app).thrown = none ∧
      (run (frame :: rest) app).events =
        (onPaint frame app).events ++ (run rest (onPaint frame app).app).events ∧
      (run (frame :: rest) app).thrown = (run rest (onPaint frame app).app).thrown) ∧
    (frame.presentResult ≠ VK_SUCCESS →
      (onPaint frame app).thrown = some "present failed" ∧
      (run (frame :: rest) app).events = (onPaint frame app).events ∧
      (run (frame :: rest) app).thrown = some "present failed" ∧
      ∀ d, (construct d).thrown = none → (construct d).app = app →
        (WinMain d (frame :: rest)).messageBox = some "present failed") ∧
    (frame.presentResult = VK_SUCCESS → frame.waitResult ≠ VK_SUCCESS →
      frame.waitResult ≠ VK_TIMEOUT →
      (onPaint frame app).thrown = some "wait for fence failed" ∧
      (run (frame :: rest) app).events = (onPaint frame app).events ∧
      (run (frame :: rest) app).thrown = some "wait for fence failed" ∧
      ∀ d, (construct d).thrown = none → (construct d).app = app →
        (WinMain d (frame :: rest)).messageBox = some "wait for fence failed") := by
  refine ⟨?_, ?_, ?_⟩
  · intro hp hw
    have hth : (onPaint frame app).thrown = none := by
      rw [onPaint_decompose frame app ha, afterRecording_wait_timeout frame app hs hp hw]
    refine ⟨?_, hth, ?_, ?_⟩
    · rw [onPaint_decompose frame app ha, afterRecording_wait_timeout frame app hs hp hw]
      simp
    · rw [run_cons_of_ok frame rest app hth]
    · rw [run_cons_of_ok frame rest app hth]
  · intro hp
    have hth : (onPaint frame app).thrown = some "present failed" := by
      rw [onPaint_decompose frame app ha, afterRecording_present_failed frame app hs hp]
    refine ⟨hth, ?_, ?_, ?_⟩
    · rw [run_cons_of_thrown frame rest app _ hth]
    · rw [run_cons_of_thrown frame rest app _ hth]
    · intro d hd happ
      rw [winMain_of_constructed d _ hd, happ, run_cons_of_thrown frame rest app _ hth]
  · intro hp hw1 hw2
    have hth : (onPaint frame app).thrown = some "wait for fence failed" := by
      rw [onPaint_decompose frame app ha, afterRecording_wait_failed frame app hs hp hw1 hw2]
    refine ⟨hth, ?_, ?_, ?_⟩
    · rw [run_cons_of_thrown frame rest app _ hth]
    · rw [run_cons_of_thrown frame rest app _ hth]
    · intro d hd happ
      rw [winMain_of_constructed d _ hd, happ, run_cons_of_thrown frame rest app _ hth]

/-- Witness for C11: the fence wait of the first of three frames times
out and the loop goes on. -/
theorem onPaint_frame_errors_witness :
    (onPaint { Frame.succeeding 0 16000000 with waitResult := VK_TIMEOUT } startedApp).thrown =
      none ∧
    (run (alternatingFrames VK_TIMEOUT) startedApp).thrown =
      (run [Frame.succeeding 1 32000000, Frame.succeeding 0 48000000]
        (onPaint { Frame.succeeding 0 16000000 with waitResult := VK_TIMEOUT }
          startedApp).app).thrown :=
  have h := (onPaint_frame_errors { Frame.succeeding 0 16000000 with waitResult := VK_TIMEOUT }
    [Frame.succeeding 1 32000000, Frame.succeeding 0 48000000] startedApp
    (Or.inl (by decide)) (by decide)).1 (by decide) (by decide)
  ⟨h.2.1, h.2.2.2⟩

/-- C11 fails as stated: a frame whose present call returns
`VK_ERROR_OUT_OF_DATE_KHR` makes `onPaint` raise "present failed"; the
frame that follows is never run, and `WinMain` shows the message and
returns.  A fence wait that returns `VK_ERROR_DEVICE_LOST` raises "wait for
fence failed" likewise. -/
theorem present_failure_ends_the_loop :
    (onPaint { Frame.succeeding 0 16000000 with presentResult := VK_ERROR_OUT_OF_DATE_KHR }
      startedApp).thrown = some "present failed" ∧
    (run [{ Frame.succeeding 0 16000000 with presentResult := VK_ERROR_OUT_OF_DATE_KHR },
          Frame.succeeding 1 32000000] startedApp).events =
      (onPaint { Frame.succeeding 0 16000000 with presentResult := VK_ERROR_OUT_OF_DATE_KHR }
        startedApp).events ∧
    (WinMain (Driver.succeeding false [⟨7, 1⟩] 2 0)
      [{ Frame.succeeding 0 16000000 with presentResult := VK_ERROR_OUT_OF_DATE_KHR },
       Frame.succeeding 1 32000000]).messageBox = some "present failed" ∧
    (onPaint { Frame.succeeding 0 16000000 with waitResult := VK_ERROR_DEVICE_LOST }
      startedApp).thrown = some "wait for fence failed" := by
  decide!

/-! ### Range of `chooseFamilyIndex` -/

theorem scanFamilies_lt (accept : VkQueueFamilyProperties → Bool)
    (l : List VkQueueFamilyProperties) (i : Nat) (h : scanFamilies accept l 0 = some i) :
    i < l.length := by
  obtain ⟨_, ⟨x, hx, _⟩, _⟩ := scanFamilies_some accept l 0 i h
  exact (List.getElem?_eq_some.1 (by simpa using hx)).1

/-- C18: on a non-empty list of queue families, `chooseFamilyIndex` returns,
for every requested bit, an index smaller than the number of families; on
the empty list it returns 0, which names no family. -/
theorem chooseFamilyIndex_lt_length (props : List VkQueueFamilyProperties) (queueType : Nat) :
    (props ≠ [] → chooseFamilyIndex props queueType < props.length) ∧
    chooseFamilyIndex [] queueType = 0 ∧
    ([] : List VkQueueFamilyProperties)[chooseFamilyIndex [] queueType]? = none := by
  refine ⟨?_, ?_, ?_⟩
  · intro hne
    have hpos : 0 < props.length := List.length_pos.2 hne
    unfold chooseFamilyIndex
    by_cases h1 : queueType = VK_QUEUE_COMPUTE_BIT
    · simp only [h1, if_true]
      cases hd : scanFamilies (acceptCompute VK_QUEUE_COMPUTE_BIT) props 0 with
      | some i => exact scanFamilies_lt _ _ _ hd
      | none =>
        cases hf : scanFamilies (acceptAny VK_QUEUE_COMPUTE_BIT) props 0 with
        | some i => exact scanFamilies_lt _ _ _ hf
        | none => exact hpos
    · by_cases h2 : queueType = VK_QUEUE_TRANSFER_BIT ∨ queueType = VK_QUEUE_SPARSE_BINDING_BIT
      · simp only [h1, h2, if_true, if_false]
        cases hd : scanFamilies (acceptTransfer queueType) props 0 with
        | some i => exact scanFamilies_lt _ _ _ hd
        | none =>
          cases hf : scanFamilies (acceptAny queueType) props 0 with
          | some i => exact scanFamilies_lt _ _ _ hf
          | none => exact hpos
      · simp only [h1, h2, if_false]
        cases hf : scanFamilies (acceptAny queueType) props 0 with
        | some i => exact scanFamilies_lt _ _ _ hf
        | none => exact hpos
  · simp [chooseFamilyIndex, scanFamilies]
  · simp

/-- Witness for C18: the only family lacks the compute bit and index 0 is
returned for the compute role. -/
theorem chooseFamilyIndex_lt_length_witness :
    [(⟨1, 1⟩ : VkQueueFamilyProperties)] ≠ [] ∧
    chooseFamilyIndex [⟨1, 1⟩] VK_QUEUE_COMPUTE_BIT < [(⟨1, 1⟩ : VkQueueFamilyProperties)].length ∧
    ¬ hasBit ⟨1, 1⟩ VK_QUEUE_COMPUTE_BIT :=
  ⟨by simp, (chooseFamilyIndex_lt_length [⟨1, 1⟩] VK_QUEUE_COMPUTE_BIT).1 (by simp), by decide⟩

/-! ### Construction without an exception -/

theorem seq_check_cons_ok (message : String) (rest : List Proc) (app : VkApp) :
    seq (CHECK_SUCCEEDED VK_SUCCESS message :: rest) app = seq rest app := by
  simp [seq, CHECK_SUCCEEDED]

theorem seq_check_cons_failed (result : VkResult) (message : String) (rest : List Proc)
    (app : VkApp) (h : result ≠ VK_SUCCESS) :
    seq (CHECK_SUCCEEDED result message :: rest) app =
      { app := app, events := [], thrown := some message } := by
  have h' : ¬ VK_SUCCESS = result := fun e => h e.symm
  simp [seq, CHECK_SUCCEEDED, h']

theorem seq_assign_cons (f : VkApp → VkApp) (rest : List Proc) (app : VkApp) :
    seq (assign f :: rest) app = seq rest (f app) := by
  simp [seq, assign]

theorem seq_singleton (p : Proc) (app : VkApp) : seq [p] app = p app := by
  cases h : (p app).thrown with
  | none =>
    rw [seq_cons_ok p [] app h, seq_nil]
    cases hp : p app
    rw [hp] at h
    simp at h ⊢
    exact h.symm
  | some message =>
    rw [seq_cons_thrown p [] app message h]
    cases hp : p app
    rw [hp] at h
    simp at h ⊢
    exact h.symm

/-- The loop of `createSwapchain`, when it raises nothing: every image
view was created and pushed. -/
theorem imageViews_of_not_thrown (d : Driver) (l : List Nat) (app : VkApp)
    (h : (seq (l.map (createImageViewAt d)) app).thrown = none) :
    (∀ i ∈ l, d.createImageView i = VK_SUCCESS) ∧
    (seq (l.map (createImageViewAt d)) app).app =
      { app with swapchainImageViews := app.swapchainImageViews + l.length } := by
  induction l generalizing app with
  | nil => simp [seq_nil]
  | cons i t ih =>
    by_cases hi : d.createImageView i = VK_SUCCESS
    · have hbody : createImageViewAt d i app =
          { app := { app with swapchainImageViews := app.swapchainImageViews + 1 }
            events := [Event.create (.imageView i) VK_SUCCESS], thrown := none } := by
        simp [createImageViewAt, seq, call, CHECK_SUCCEEDED, assign, hi]
      rw [List.map_cons, seq_cons_ok _ _ _ (by rw [hbody])] at h ⊢
      simp only [hbody] at h ⊢
      obtain ⟨h1, h2⟩ := ih _ h
      refine ⟨?_, ?_⟩
      · intro j hj
        rcases List.mem_cons.1 hj with rfl | hj
        · exact hi
        · exact h1 j hj
      · rw [h2]
        simp only [List.length_cons]
        congr 1
        omega
    · have hi' : ¬ VK_SUCCESS = d.createImageView i := fun e => hi e.symm
      have hbody : (createImageViewAt d i app).thrown = some "failed to create image view" := by
        simp [createImageViewAt, seq, call, CHECK_SUCCEEDED, hi']
      rw [List.map_cons, seq_cons_thrown _ _ _ _ hbody] at h
      simp at h

/-- The loop of `createFramebuffer`, when it raises nothing: every
framebuffer was created. -/
theorem framebuffers_of_not_thrown (d : Driver) (l : List Nat) (app : VkApp)
    (h : (seq (l.map (createFramebufferAt d)) app).thrown = none) :
    (∀ i ∈ l, d.createFramebuffer i = VK_SUCCESS) ∧
    (seq (l.map (createFramebufferAt d)) app).app = app := by
  induction l generalizing app with
  | nil => simp [seq_nil]
  | cons i t ih =>
    by_cases hi : d.createFramebuffer i = VK_SUCCESS
    · have hbody : createFramebufferAt d i app =
          { app := app
            events := [Event.create (.framebuffer i) VK_SUCCESS], thrown := none } := by
        simp [createFramebufferAt, seq, call, CHECK_SUCCEEDED, hi]
      rw [List.map_cons, seq_cons_ok _ _ _ (by rw [hbody])] at h ⊢
      simp only [hbody] at h ⊢
      obtain ⟨h1, h2⟩ := ih _ h
      refine ⟨?_, h2⟩
      intro j hj
      rcases List.mem_cons.1 hj with rfl | hj
      · exact hi
      · exact h1 j hj
    · have hi' : ¬ VK_SUCCESS = d.createFramebuffer i := fun e => hi e.symm
      have hbody : (createFramebufferAt d i app).thrown = some "failed to create framebuffer" := by
        simp [createFramebufferAt, seq, call, CHECK_SUCCEEDED, hi']
      rw [List.map_cons, seq_cons_thrown _ _ _ _ hbody] at h
      simp at h

/-- The loop of `createSyncPrimitices` raises nothing and leaves the state
as it was, whatever `vkCreateFence` returns. -/
theorem fences_never_thrown (d : Driver) (n : Nat) (app : VkApp) :
    forEach n (createCmdSubmitFenceAt d) app =
      { app := app
        events := (List.range n).map
          (fun i => Event.create (.cmdSubmitFence i) (d.createCmdSubmitFence i))
        thrown := none } := by
  unfold forEach
  rw [seq_map_calls (List.range n) _ id
    (fun i => Event.create (.cmdSubmitFence i) (d.createCmdSubmitFence i))]
  · simp
  · intro i _ app
    simp [createCmdSubmitFenceAt, call]


theorem seq_cons_of_not_thrown (p : Proc) (rest : List Proc) (app : VkApp)
    (h : (seq (p :: rest) app).thrown = none) :
    (p app).thrown = none ∧ (seq rest (p app).app).thrown = none ∧
    (seq (p :: rest) app).app = (seq rest (p app).app).app := by
  cases hp : (p app).thrown with
  | some message =>
    rw [seq_cons_thrown p rest app message hp] at h
    simp at h
  | none =>
    rw [seq_cons_ok p rest app hp] at h ⊢
    exact ⟨rfl, h, rfl⟩

theorem createInstance_of_not_thrown (d : Driver) (app : VkApp)
    (h : (createInstance d app).thrown = none) :
    d.createInstance = VK_SUCCESS ∧ (createInstance d app).app = app := by
  by_cases h1 : d.createInstance = VK_SUCCESS
  · refine ⟨h1, ?_⟩
    cases hdbg : d.debugReport
    · simp [createInstance, seq, call, CHECK_SUCCEEDED, h1, hdbg]
    · by_cases h2 : VK_SUCCESS = d.createDebugReportCallback <;>
        simp [createInstance, seq, call, CHECK_SUCCEEDED, h1, hdbg, h2]
  · have h1' : ¬ VK_SUCCESS = d.createInstance := fun e => h1 e.symm
    simp [createInstance, seq, call, CHECK_SUCCEEDED, h1'] at h

theorem createPhysicalDevice_of_not_thrown (d : Driver) (app : VkApp)
    (h : (createPhysicalDevice d app).thrown = none) :
    (createPhysicalDevice d app).app =
      { app with queueFamilyProperties := d.queueFamilyProperties } := by
  by_cases h1 : VK_SUCCESS = d.enumeratePhysicalDevices
  · simp [createPhysicalDevice, seq, CHECK_SUCCEEDED, assign, h1]
  · simp [createPhysicalDevice, seq, CHECK_SUCCEEDED, assign, h1] at h

theorem createLogicalDevice_of_not_thrown (d : Driver) (app : VkApp)
    (h : (createLogicalDevice d app).thrown = none) :
    d.createDevice = VK_SUCCESS ∧ (createLogicalDevice d app).app = app := by
  by_cases h1 : d.createDevice = VK_SUCCESS
  · refine ⟨h1, ?_⟩
    have hne : VK_ERROR_EXTENSION_NOT_PRESENT ≠ VK_SUCCESS := by decide
    simp [createLogicalDevice, seq, call, CHECK_SUCCEEDED, h1, hne]
  · have h1' : ¬ VK_SUCCESS = d.createDevice := fun e => h1 e.symm
    by_cases h2 : VK_ERROR_EXTENSION_NOT_PRESENT = d.createDevice <;>
      simp [createLogicalDevice, seq, call, CHECK_SUCCEEDED, h1', h2] at h

theorem createWin32Surface_of_not_thrown (d : Driver) (app : VkApp)
    (h : (createWin32Surface d app).thrown = none) :
    d.createWin32Surface = VK_SUCCESS ∧ (createWin32Surface d app).app = app := by
  by_cases h1 : d.createWin32Surface = VK_SUCCESS
  · exact ⟨h1, by simp [createWin32Surface, seq, call, CHECK_SUCCEEDED, h1]⟩
  · have h1' : ¬ VK_SUCCESS = d.createWin32Surface := fun e => h1 e.symm
    simp [createWin32Surface, seq, call, CHECK_SUCCEEDED, h1'] at h

theorem createSwapchain_of_not_thrown (d : Driver) (app : VkApp)
    (h : (createSwapchain d app).thrown = none) :
    d.createSwapchain = VK_SUCCESS ∧
    (∀ i, i < d.swapchainImageCount → d.createImageView i = VK_SUCCESS) ∧
    (createSwapchain d app).app =
      { app with swapchainImages := d.swapchainImageCount
                 swapchainImageViews := app.swapchainImageViews + d.swapchainImageCount } := by
  by_cases h1 : d.createSwapchain = VK_SUCCESS
  · unfold createSwapchain at h ⊢
    rw [seq_call_cons] at h ⊢
    simp only [h1, seq_check_cons_ok, seq_assign_cons, seq_singleton] at h ⊢
    unfold forEach at h ⊢
    obtain ⟨q1, q2⟩ := imageViews_of_not_thrown d _ _ h
    refine ⟨trivial, ?_, ?_⟩
    · intro i hi
      exact q1 i (List.mem_range.2 hi)
    · rw [q2]
      simp
  · unfold createSwapchain at h
    rw [seq_call_cons, seq_check_cons_failed _ _ _ _ h1] at h
    simp at h

theorem createRenderPass_of_not_thrown (d : Driver) (app : VkApp)
    (h : (createRenderPass d app).thrown = none) :
    d.createRenderPass = VK_SUCCESS ∧ (createRenderPass d app).app = app := by
  by_cases h1 : d.createRenderPass = VK_SUCCESS
  · exact ⟨h1, by simp [createRenderPass, seq, call, CHECK_SUCCEEDED, h1]⟩
  · have h1' : ¬ VK_SUCCESS = d.createRenderPass := fun e => h1 e.symm
    simp [createRenderPass, seq, call, CHECK_SUCCEEDED, h1'] at h

theorem createFramebuffer_of_not_thrown (d : Driver) (app : VkApp)
    (h : (createFramebuffer d app).thrown = none) :
    (∀ i, i < app.swapchainImageViews → d.createFramebuffer i = VK_SUCCESS) ∧
    (createFramebuffer d app).app = { app with framebuffers := app.swapchainImageViews } := by
  unfold createFramebuffer at h ⊢
  simp only [seq_assign_cons, seq_singleton] at h ⊢
  unfold forEach at h ⊢
  obtain ⟨q1, q2⟩ := framebuffers_of_not_thrown d _ _ h
  refine ⟨?_, q2⟩
  intro i hi
  exact q1 i (List.mem_range.2 hi)

theorem createCommandPools_of_not_thrown (d : Driver) (app : VkApp)
    (h : (createCommandPools d app).thrown = none) :
    d.createComputeCmdPool = VK_SUCCESS ∧ d.createTransferCmdPool = VK_SUCCESS ∧
    (createCommandPools d app).app = app := by
  by_cases h1 : d.createComputeCmdPool = VK_SUCCESS
  · by_cases h2 : d.createTransferCmdPool = VK_SUCCESS
    · exact ⟨h1, h2, by simp [createCommandPools, seq, call, CHECK_SUCCEEDED, h1, h2]⟩
    · have h2' : ¬ VK_SUCCESS = d.createTransferCmdPool := fun e => h2 e.symm
      simp [createCommandPools, seq, call, CHECK_SUCCEEDED, h1, h2'] at h
  · have h1' : ¬ VK_SUCCESS = d.createComputeCmdPool := fun e => h1 e.symm
    simp [createCommandPools, seq, call, CHECK_SUCCEEDED, h1'] at h

theorem createCommandBuffers_of_not_thrown (d : Driver) (app : VkApp)
    (h : (createCommandBuffers d app).thrown = none) :
    d.allocateCmdBuffers = VK_SUCCESS ∧
    (createCommandBuffers d app).app = { app with cmdBuffers := app.swapchainImages } := by
  by_cases h1 : d.allocateCmdBuffers = VK_SUCCESS
  · refine ⟨h1, ?_⟩
    by_cases h2 : VK_SUCCESS = d.allocateComputeCmdBuffer
    · by_cases h3 : VK_SUCCESS = d.allocateTransferCmdBuffer
      · simp [createCommandBuffers, seq, call, CHECK_SUCCEEDED, assign, h1, ← h2, ← h3]
      · simp [createCommandBuffers, seq, call, CHECK_SUCCEEDED, assign, h1, ← h2, h3] at h
    · simp [createCommandBuffers, seq, call, CHECK_SUCCEEDED, assign, h1, h2] at h
  · have h1' : ¬ VK_SUCCESS = d.allocateCmdBuffers := fun e => h1 e.symm
    simp [createCommandBuffers, seq, call, CHECK_SUCCEEDED, assign, h1'] at h

theorem createSyncPrimitices_of_not_thrown (d : Driver) (app : VkApp)
    (h : (createSyncPrimitices d app).thrown = none) :
    (createSyncPrimitices d app).app = { app with cmdSubmitFences := app.cmdBuffers } := by
  by_cases h1 : d.createRenderFinishedSemaphore = VK_SUCCESS
  · unfold createSyncPrimitices at h ⊢
    rw [seq_call_cons, seq_call_cons] at h ⊢
    simp only [h1, seq_check_cons_ok, seq_assign_cons] at h ⊢
    rw [seq_cons_ok _ _ _ (by rw [fences_never_thrown])] at h ⊢
    simp only [fences_never_thrown] at h ⊢
    rw [seq_call_cons] at h ⊢
    by_cases h2 : d.createTransferFence = VK_SUCCESS
    · simp only [h2, seq_check_cons_ok, seq_nil]
    · rw [seq_check_cons_failed _ _ _ _ h2] at h
      simp at h
  · unfold createSyncPrimitices at h
    rw [seq_call_cons, seq_call_cons, seq_check_cons_failed _ _ _ _ h1] at h
    simp at h

/-- What a construction that raises no exception ensures, whatever the
number of images reported by the swapchain: the vectors of image views, of
framebuffers, of per-slot command buffers and of per-slot fences have as
many elements as there are images; every image view and every framebuffer
was created, and the command buffers were allocated.  Nothing is ensured of
the per-slot fences themselves, the status of their creation not being
tested. -/
theorem construct_vector_sizes (d : Driver) (h : (construct d).thrown = none) :
    (construct d).app.swapchainImages = d.swapchainImageCount ∧
    (construct d).app.swapchainImageViews = d.swapchainImageCount ∧
    (construct d).app.framebuffers = d.swapchainImageCount ∧
    (construct d).app.cmdBuffers = d.swapchainImageCount ∧
    (construct d).app.cmdSubmitFences = d.swapchainImageCount ∧
    (∀ i, i < d.swapchainImageCount → d.createImageView i = VK_SUCCESS) ∧
    (∀ i, i < d.swapchainImageCount → d.createFramebuffer i = VK_SUCCESS) ∧
    d.allocateCmdBuffers = VK_SUCCESS := by
  unfold construct at h ⊢
  obtain ⟨a1, h1, e1⟩ := seq_cons_of_not_thrown _ _ _ h
  obtain ⟨_, b1⟩ := createInstance_of_not_thrown d _ a1
  rw [b1] at h1 e1
  obtain ⟨a2, h2, e2⟩ := seq_cons_of_not_thrown _ _ _ h1
  have b2 := createPhysicalDevice_of_not_thrown d _ a2
  rw [b2] at h2 e2
  obtain ⟨a3, h3, e3⟩ := seq_cons_of_not_thrown _ _ _ h2
  obtain ⟨_, b3⟩ := createLogicalDevice_of_not_thrown d _ a3
  rw [b3] at h3 e3
  obtain ⟨a4, h4, e4⟩ := seq_cons_of_not_thrown _ _ _ h3
  obtain ⟨_, b4⟩ := createWin32Surface_of_not_thrown d _ a4
  rw [b4] at h4 e4
  obtain ⟨a5, h5, e5⟩ := seq_cons_of_not_thrown _ _ _ h4
  obtain ⟨_, v5, b5⟩ := createSwapchain_of_not_thrown d _ a5
  rw [b5] at h5 e5
  obtain ⟨a6, h6, e6⟩ := seq_cons_of_not_thrown _ _ _ h5
  obtain ⟨_, b6⟩ := createRenderPass_of_not_thrown d _ a6
  rw [b6] at h6 e6
  obtain ⟨a7, h7, e7⟩ := seq_cons_of_not_thrown _ _ _ h6
  obtain ⟨v7, b7⟩ := createFramebuffer_of_not_thrown d _ a7
  rw [b7] at h7 e7
  obtain ⟨a8, h8, e8⟩ := seq_cons_of_not_thrown _ _ _ h7
  obtain ⟨_, _, b8⟩ := createCommandPools_of_not_thrown d _ a8
  rw [b8] at h8 e8
  obtain ⟨a9, h9, e9⟩ := seq_cons_of_not_thrown _ _ _ h8
  obtain ⟨v9, b9⟩ := createCommandBuffers_of_not_thrown d _ a9
  rw [b9] at h9 e9
  obtain ⟨a10, h10, e10⟩ := seq_cons_of_not_thrown _ _ _ h9
  have b10 := createSyncPrimitices_of_not_thrown d _ a10
  rw [b10] at h10 e10
  rw [e1, e2, e3, e4, e5, e6, e7, e8, e9, e10, seq_assign_cons, seq_nil]
  simp only [VkApp.initial, Nat.zero_add] at v7 ⊢
  exact ⟨trivial, trivial, trivial, trivial, trivial, v5, v7, v9⟩

/-- C15 fails on the code: with two swapchain images, every other call
succeeding and every `vkCreateFence` of a per-slot fence failing, the
constructor completes without an exception; the two image views and the two
framebuffers were created and `cmdSubmitFences` has two elements, but not
one per-slot fence was created. -/
theorem construct_without_submit_fences :
    (construct { Driver.succeeding false [⟨7, 1⟩] 2 0 with
        createCmdSubmitFence := fun _ => VK_ERROR_OUT_OF_HOST_MEMORY }).thrown = none ∧
    (construct { Driver.succeeding false [⟨7, 1⟩] 2 0 with
        createCmdSubmitFence := fun _ => VK_ERROR_OUT_OF_HOST_MEMORY }).app.swapchainImages = 2 ∧
    (construct { Driver.succeeding false [⟨7, 1⟩] 2 0 with
        createCmdSubmitFence := fun _ => VK_ERROR_OUT_OF_HOST_MEMORY }).app.cmdSubmitFences = 2 ∧
    (createdObjects (construct { Driver.succeeding false [⟨7, 1⟩] 2 0 with
        createCmdSubmitFence := fun _ => VK_ERROR_OUT_OF_HOST_MEMORY }).events).filter
          isCmdSubmitFence = [] ∧
    VkObject.imageView 0 ∈ createdObjects (construct { Driver.succeeding false [⟨7, 1⟩] 2 0 with
        createCmdSubmitFence := fun _ => VK_ERROR_OUT_OF_HOST_MEMORY }).events ∧
    VkObject.imageView 1 ∈ createdObjects (construct { Driver.succeeding false [⟨7, 1⟩] 2 0 with
        createCmdSubmitFence := fun _ => VK_ERROR_OUT_OF_HOST_MEMORY }).events ∧
    VkObject.framebuffer 0 ∈ createdObjects (construct { Driver.succeeding false [⟨7, 1⟩] 2 0 with
        createCmdSubmitFence := fun _ => VK_ERROR_OUT_OF_HOST_MEMORY }).events ∧
    VkObject.framebuffer 1 ∈ createdObjects (construct { Driver.succeeding false [⟨7, 1⟩] 2 0 with
        createCmdSubmitFence := fun _ => VK_ERROR_OUT_OF_HOST_MEMORY }).events ∧
    (createdObjects (construct (Driver.succeeding false [⟨7, 1⟩] 2 0)).events).filter
      isCmdSubmitFence = [VkObject.cmdSubmitFence 0, VkObject.cmdSubmitFence 1] := by
  decide

/-! ### Startup failure -/

theorem onlyCreates_call (object : VkObject) (result : VkResult) :
    OnlyCreates (call (Event.create object result)) := by
  intro app e he
  simp [call] at he
  exact ⟨object, result, he⟩

theorem onlyCreates_check (result : VkResult) (message : String) :
    OnlyCreates (CHECK_SUCCEEDED result message) := by
  intro app e he
  simp [CHECK_SUCCEEDED] at he

theorem onlyCreates_assign (f : VkApp → VkApp) : OnlyCreates (assign f) := by
  intro app e he
  simp [assign] at he

theorem onlyCreates_seq (l : List Proc) (h : ∀ p ∈ l, OnlyCreates p) : OnlyCreates (seq l) := by
  induction l with
  | nil =>
    intro app e he
    simp [seq_nil] at he
  | cons p t ih =>
    intro app e he
    have hp := h p (List.mem_cons_self p t)
    have ht := ih (fun q hq => h q (List.mem_cons_of_mem p hq))
    cases hth : (p app).thrown with
    | some message =>
      rw [seq_cons_thrown p t app message hth] at he
      exact hp app e he
    | none =>
      rw [seq_cons_ok p t app hth] at he
      rcases List.mem_append.1 he with he | he
      · exact hp app e he
      · exact ht _ e he

theorem onlyCreates_forEach (count : VkApp → Nat) (body : Nat → Proc)
    (h : ∀ i, OnlyCreates (body i)) :
    OnlyCreates (fun app => forEach (count app) body app) := by
  intro app e he
  apply onlyCreates_seq ((List.range (count app)).map body) _ app e he
  intro p hp
  obtain ⟨i, _, rfl⟩ := List.mem_map.1 hp
  exact h i

/-- The constructor makes only creation calls. -/
theorem construct_onlyCreates (d : Driver) :
    ∀ e ∈ (construct d).events, ∃ object result, e = Event.create object result := by
  have hview : ∀ i, OnlyCreates (createImageViewAt d i) := by
    intro i
    apply onlyCreates_seq
    intro p hp
    simp only [List.mem_cons, List.mem_singleton, List.not_mem_nil, or_false] at hp
    rcases hp with rfl | rfl | rfl
    · exact onlyCreates_call _ _
    · exact onlyCreates_check _ _
    · exact onlyCreates_assign _
  have hfb : ∀ i, OnlyCreates (createFramebufferAt d i) := by
    intro i
    apply onlyCreates_seq
    intro p hp
    simp only [List.mem_cons, List.mem_singleton, List.not_mem_nil, or_false] at hp
    rcases hp with rfl | rfl
    · exact onlyCreates_call _ _
    · exact onlyCreates_check _ _
  have hfence : ∀ i, OnlyCreates (createCmdSubmitFenceAt d i) :=
    fun i => onlyCreates_call _ _
  have hthrow : OnlyCreates (fun app =>
        { app := app, events := [],
          thrown := if VK_ERROR_EXTENSION_NOT_PRESENT = d.createDevice then
            some "required extension not present" else none }) := by
    intro app e he
    simp at he
  have hcmd : OnlyCreates (fun app =>
      call (.create (.cmdBuffers app.cmdBuffers) d.allocateCmdBuffers) app) := by
    intro app e he
    exact onlyCreates_call _ _ app e he
  unfold construct
  apply onlyCreates_seq
  intro p hp
  simp only [List.mem_cons, List.mem_singleton, List.not_mem_nil, or_false] at hp
  rcases hp with rfl | rfl | rfl | rfl | rfl | rfl | rfl | rfl | rfl | rfl | rfl
  · unfold createInstance
    apply onlyCreates_seq
    intro p hp
    cases hdbg : d.debugReport <;>
      simp only [hdbg, Bool.false_eq_true, if_false, if_true, List.append_nil, List.cons_append,
        List.nil_append, List.mem_cons, List.mem_singleton, List.not_mem_nil, or_false] at hp
    · rcases hp with rfl | rfl
      · exact onlyCreates_call _ _
      · exact onlyCreates_check _ _
    · rcases hp with rfl | rfl | rfl | rfl
      · exact onlyCreates_call _ _
      · exact onlyCreates_check _ _
      · exact onlyCreates_call _ _
      · exact onlyCreates_check _ _
  · unfold createPhysicalDevice
    apply onlyCreates_seq
    intro p hp
    simp only [List.mem_cons, List.mem_singleton, List.not_mem_nil, or_false] at hp
    rcases hp with rfl | rfl
    · exact onlyCreates_check _ _
    · exact onlyCreates_assign _
  · unfold createLogicalDevice
    apply onlyCreates_seq
    intro p hp
    simp only [List.mem_cons, List.mem_singleton, List.not_mem_nil, or_false] at hp
    rcases hp with rfl | rfl | rfl
    · exact onlyCreates_call _ _
    · exact hthrow
    · exact onlyCreates_check _ _
  · unfold createWin32Surface
    apply onlyCreates_seq
    intro p hp
    simp only [List.mem_cons, List.mem_singleton, List.not_mem_nil, or_false] at hp
    rcases hp with rfl | rfl
    · exact onlyCreates_call _ _
    · exact onlyCreates_check _ _
  · unfold createSwapchain
    apply onlyCreates_seq
    intro p hp
    simp only [List.mem_cons, List.mem_singleton, List.not_mem_nil, or_false] at hp
    rcases hp with rfl | rfl | rfl | rfl
    · exact onlyCreates_call _ _
    · exact onlyCreates_check _ _
    · exact onlyCreates_assign _
    · exact onlyCreates_forEach _ _ hview
  · unfold createRenderPass
    apply onlyCreates_seq
    intro p hp
    simp only [List.mem_cons, List.mem_singleton, List.not_mem_nil, or_false] at hp
    rcases hp with rfl | rfl
    · exact onlyCreates_call _ _
    · exact onlyCreates_check _ _
  · unfold createFramebuffer
    apply onlyCreates_seq
    intro p hp
    simp only [List.mem_cons, List.mem_singleton, List.not_mem_nil, or_false] at hp
    rcases hp with rfl | rfl
    · exact onlyCreates_assign _
    · exact onlyCreates_forEach _ _ hfb
  · unfold createCommandPools
    apply onlyCreates_seq
    intro p hp
    simp only [List.mem_cons, List.mem_singleton, List.not_mem_nil, or_false] at hp
    rcases hp with rfl | rfl | rfl | rfl | rfl | rfl
    · exact onlyCreates_call _ _
    · exact onlyCreates_call _ _
    · exact onlyCreates_check _ _
    · exact onlyCreates_check _ _
    · exact onlyCreates_call _ _
    · exact onlyCreates_check _ _
  · unfold createCommandBuffers
    apply onlyCreates_seq
    intro p hp
    simp only [List.mem_cons, List.mem_singleton, List.not_mem_nil, or_false] at hp
    rcases hp with rfl | rfl | rfl | rfl | rfl | rfl | rfl
    · exact onlyCreates_assign _
    · exact hcmd
    · exact onlyCreates_check _ _
    · exact onlyCreates_call _ _
    · exact onlyCreates_check _ _
    · exact onlyCreates_call _ _
    · exact onlyCreates_check _ _
  · unfold createSyncPrimitices
    apply onlyCreates_seq
    intro p hp
    simp only [List.mem_cons, List.mem_singleton, List.not_mem_nil, or_false] at hp
    rcases hp with rfl | rfl | rfl | rfl | rfl | rfl | rfl
    · exact onlyCreates_call _ _
    · exact onlyCreates_call _ _
    · exact onlyCreates_check _ _
    · exact onlyCreates_assign _
    · exact onlyCreates_forEach _ _ hfence
    · exact onlyCreates_call _ _
    · exact onlyCreates_check _ _
  · exact onlyCreates_assign _

theorem releasedObjects_construct (d : Driver) : releasedObjects (construct d).events = [] := by
  unfold releasedObjects
  rw [List.filterMap_eq_nil_iff]
  intro e he
  obtain ⟨o, r, rfl⟩ := construct_onlyCreates d e he
  rfl

/-- C16, as the code has it: when the constructor raises an exception at
some bring-up step, `~VkApp` does not run, the object never having been
constructed: `WinMain` makes no release call at all, so the objects created
by the earlier steps are still unreleased when it returns, after showing
the message, with exit code 0.  The destructor runs, at the end of
`WinMain`, exactly when the construction completed. -/
theorem winMain_releases_only_when_constructed (d : Driver) (frames : List Frame) :
    (∀ message, (construct d).thrown = some message →
      (WinMain d frames).events = (construct d).events ∧
      createdObjects (WinMain d frames).events = createdObjects (construct d).events ∧
      releasedObjects (WinMain d frames).events = [] ∧
      (WinMain d frames).messageBox = some message ∧
      (WinMain d frames).exitCode = 0) ∧
    ((construct d).thrown = none →
      (WinMain d frames).events =
        (construct d).events ++ (run frames (construct d).app).events ++
          destruct (run frames (construct d).app).app ∧
      (WinMain d frames).exitCode = 0) := by
  constructor
  · intro message h
    rw [winMain_of_not_constructed d frames message h]
    exact ⟨rfl, rfl, releasedObjects_construct d, rfl, rfl⟩
  · intro h
    rw [winMain_of_constructed d frames h]
    exact ⟨rfl, rfl⟩

/-- Witness for C16: the creation of the first framebuffer fails. -/
theorem winMain_releases_only_when_constructed_witness :
    (construct { Driver.succeeding false [⟨7, 1⟩] 2 0 with
      createFramebuffer := fun _ => VK_ERROR_OUT_OF_HOST_MEMORY }).thrown =
        some "failed to create framebuffer" ∧
    releasedObjects (WinMain { Driver.succeeding false [⟨7, 1⟩] 2 0 with
      createFramebuffer := fun _ => VK_ERROR_OUT_OF_HOST_MEMORY } []).events = [] ∧
    (WinMain { Driver.succeeding false [⟨7, 1⟩] 2 0 with
      createFramebuffer := fun _ => VK_ERROR_OUT_OF_HOST_MEMORY } []).messageBox =
        some "failed to create framebuffer" :=
  have h := (winMain_releases_only_when_constructed
    { Driver.succeeding false [⟨7, 1⟩] 2 0 with
      createFramebuffer := fun _ => VK_ERROR_OUT_OF_HOST_MEMORY } []).1
    "failed to create framebuffer" (by decide)
  ⟨by decide, h.2.2.1, h.2.2.2.1⟩

/-- C16 fails as stated: when the creation of the render pass fails, the
instance, the device, the surface, the swapchain and the two image views
have been created, `WinMain` shows the message and returns 0, and not one
of these objects has been released. -/
theorem startup_failure_leaks :
    (construct { Driver.succeeding false [⟨7, 1⟩] 2 0 with
      createRenderPass := VK_ERROR_OUT_OF_HOST_MEMORY }).thrown =
        some "failed to create render pass" ∧
    createdObjects (WinMain { Driver.succeeding false [⟨7, 1⟩] 2 0 with
      createRenderPass := VK_ERROR_OUT_OF_HOST_MEMORY } []).events =
        [VkObject.vkInstance, VkObject.device, VkObject.surface, VkObject.swapchain,
         VkObject.imageView 0, VkObject.imageView 1] ∧
    releasedObjects (WinMain { Driver.succeeding false [⟨7, 1⟩] 2 0 with
      createRenderPass := VK_ERROR_OUT_OF_HOST_MEMORY } []).events = [] ∧
    (WinMain { Driver.succeeding false [⟨7, 1⟩] 2 0 with
      createRenderPass := VK_ERROR_OUT_OF_HOST_MEMORY } []).messageBox =
        some "failed to create render pass" ∧
    (WinMain { Driver.succeeding false [⟨7, 1⟩] 2 0 with
      createRenderPass := VK_ERROR_OUT_OF_HOST_MEMORY } []).exitCode = 0 := by
  decide!


/-! ### Caption updates -/

/-- A frame that pushes a caption reaches the timing stage with more than
1000 ms accumulated; the caption is "FPS: " followed by the decimal form of
the value stored in `fps`, and `time` is reset. -/
theorem onPaint_caption (frame : Frame) (app : VkApp)
    (h : captions (onPaint frame app).events ≠ []) :
    frame.ReachesTiming ∧
    1000 < float32 (app.time + (app.timer.millisecondsElapsed frame.now).1) ∧
    (onPaint frame app).app.time = 0 ∧
    (onPaint frame app).app.timer = (app.timer.millisecondsElapsed frame.now).2 ∧
    (onPaint frame app).thrown = none ∧
    captions (onPaint frame app).events =
      ["FPS: " ++ toString (onPaint frame app).app.fps] ∧
    (onPaint frame app).app.fps < 2 ^ 32 := by
  by_cases hr : frame.ReachesTiming
  · obtain ⟨h1, h2, h3⟩ := onPaint_of_reachesTiming frame app hr
    rw [h3] at h
    by_cases hgt : 1000 < float32 (app.time + (app.timer.millisecondsElapsed frame.now).1)
    · refine ⟨hr, hgt, ?_, ?_, h2, ?_, ?_⟩
      · rw [h1, timing_of_gt frame app hgt]
      · rw [h1, timing_of_gt frame app hgt]
      · rw [h3, h1, timing_of_gt frame app hgt]
        simp [captions]
      · rw [h1, timing_of_gt frame app hgt]
        exact Nat.mod_lt _ (by norm_num)
    · rw [timing_of_le frame app (not_lt.1 hgt)] at h
      simp [captions] at h
  · exact absurd (onPaint_of_not_reachesTiming frame app hr).2 h

/-- A frame that raises nothing and pushes no caption accumulates its
elapsed time if it reaches the timing stage, and otherwise leaves the time
and the timer as they were. -/
theorem onPaint_no_caption (frame : Frame) (app : VkApp)
    (h : captions (onPaint frame app).events = []) :
    (onPaint frame app).app.time =
      accumulatedTime app.time (timedElapsed app.timer [frame]) ∧
    (∀ more, timedElapsed app.timer (frame :: more) =
      timedElapsed app.timer [frame] ++ timedElapsed (onPaint frame app).app.timer more) := by
  by_cases hr : frame.ReachesTiming
  · obtain ⟨h1, _, h3⟩ := onPaint_of_reachesTiming frame app hr
    rw [h3] at h
    have hle : float32 (app.time + (app.timer.millisecondsElapsed frame.now).1) ≤ 1000 := by
      by_contra hgt
      rw [timing_of_gt frame app (not_le.1 hgt)] at h
      simp [captions] at h
    rw [h1, timing_of_le frame app hle]
    simp [timedElapsed, accumulatedTime, hr]
  · rw [(onPaint_of_not_reachesTiming frame app hr).1]
    simp [timedElapsed, accumulatedTime, hr]

/-- Frames that raise nothing and push no caption: the accumulated time
grows by the elapsed times read by the timing stage, each sum rounded to
`float`. -/
theorem run_no_caption (frames : List Frame) (app : VkApp)
    (hth : (run frames app).thrown = none)
    (h : captions (run frames app).events = []) :
    (run frames app).app.time = accumulatedTime app.time (timedElapsed app.timer frames) ∧
    (∀ more, timedElapsed app.timer (frames ++ more) =
      timedElapsed app.timer frames ++ timedElapsed (run frames app).app.timer more) := by
  induction frames generalizing app with
  | nil => simp [run_nil, timedElapsed, accumulatedTime]
  | cons f t ih =>
    cases hf : (onPaint f app).thrown with
    | some message =>
      rw [run_cons_of_thrown f t app message hf] at hth
      simp at hth
    | none =>
      rw [run_cons_of_ok f t app hf] at hth h ⊢
      simp only [captions, List.filterMap_append, List.append_eq_nil] at h
      obtain ⟨p1, p2⟩ := onPaint_no_caption f app h.1
      obtain ⟨q1, q2⟩ := ih (onPaint f app).app hth h.2
      constructor
      · simp only [q1, p1]
        rw [p2 t, accumulatedTime_append]
      · intro more
        rw [List.cons_append, p2 (t ++ more), q2 more, p2 t, List.append_assoc]

/-- Every caption pushed along a run is "FPS: " followed by the decimal
form of a 32-bit unsigned integer. -/
theorem run_captions_format (frames : List Frame) (app : VkApp) :
    ∀ caption ∈ captions (run frames app).events,
      ∃ n : Nat, n < 2 ^ 32 ∧ caption = "FPS: " ++ toString n := by
  induction frames generalizing app with
  | nil => simp [run_nil, captions]
  | cons f t ih =>
    have hone : ∀ caption ∈ captions (onPaint f app).events,
        ∃ n : Nat, n < 2 ^ 32 ∧ caption = "FPS: " ++ toString n := by
      intro caption hc
      have hne : captions (onPaint f app).events ≠ [] := by
        intro h0
        rw [h0] at hc
        simp at hc
      obtain ⟨_, _, _, _, _, h6, h7⟩ := onPaint_caption f app hne
      rw [h6] at hc
      exact ⟨_, h7, by simpa using hc⟩
    cases hf : (onPaint f app).thrown with
    | some message =>
      rw [run_cons_of_thrown f t app message hf]
      exact hone
    | none =>
      rw [run_cons_of_ok f t app hf]
      intro caption hc
      simp only [captions, List.filterMap_append, List.mem_append] at hc
      rcases hc with hc | hc
      · exact hone caption hc
      · exact ih _ caption hc

theorem roundHalfEven_nonneg (x : ℚ) (h : 0 ≤ x) : 0 ≤ roundHalfEven x := by
  have hf : 0 ≤ ⌊x⌋ := Int.floor_nonneg.2 h
  unfold roundHalfEven
  split_ifs <;> omega

/-- Rounding to `float` keeps the sign of a non-negative value. -/
theorem float32_nonneg (x : ℚ) (h : 0 ≤ x) : 0 ≤ float32 x := by
  unfold float32
  dsimp only
  have hulp : (0 : ℚ) < 2 ^ (max (binade x) (-126) - 23) := by positivity
  have hr := roundHalfEven_nonneg (x / 2 ^ (max (binade x) (-126) - 23)) (div_nonneg h hulp.le)
  have hr' : (0 : ℚ) ≤ (roundHalfEven (x / 2 ^ (max (binade x) (-126) - 23)) : ℚ) := by
    exact_mod_cast hr
  exact mul_nonneg hr' hulp.le

theorem float32_le (x : ℚ) (h : 0 ≤ x) :
    float32 x ≤ x * (1 + 1 / 2 ^ 24) + 1 / 2 ^ 150 := by
  have herr := float32_error x
  rw [abs_of_nonneg h, abs_le] at herr
  linarith [herr.2]

theorem accumulatedTime_le_of_error (ε δ : ℚ) (hε : 0 ≤ ε) (hδ : 0 ≤ δ)
    (herr : ∀ x : ℚ, 0 ≤ x → float32 x ≤ x * (1 + ε) + δ)
    (l : List ℚ) (hl : ∀ dt ∈ l, 0 ≤ dt) (time : ℚ) (ht : 0 ≤ time) :
    accumulatedTime time l ≤ (1 + ε) ^ l.length * (time + l.sum + l.length * δ) := by
  induction l generalizing time with
  | nil => simp [accumulatedTime]
  | cons dt rest ih =>
    have hdt : 0 ≤ dt := hl dt (List.mem_cons_self dt rest)
    have hrest : ∀ d ∈ rest, 0 ≤ d := fun d hd => hl d (List.mem_cons_of_mem dt hd)
    have hsum : 0 ≤ time + dt := add_nonneg ht hdt
    have hstep := ih hrest (float32 (time + dt)) (float32_nonneg _ hsum)
    have h1 := herr (time + dt) hsum
    have hpow : (0 : ℚ) ≤ (1 + ε) ^ rest.length := by positivity
    have hrs : 0 ≤ rest.sum := List.sum_nonneg hrest
    have hlen : (0 : ℚ) ≤ (rest.length : ℚ) := by positivity
    simp only [accumulatedTime, List.length_cons, List.sum_cons, Nat.cast_add, Nat.cast_one,
      pow_succ]
    refine le_trans hstep ?_
    rw [mul_assoc]
    apply mul_le_mul_of_nonneg_left _ hpow
    have h2 : (0 : ℚ) ≤ (rest.sum + rest.length * δ) * ε := by positivity
    have h3 : (0 : ℚ) ≤ δ * ε := by positivity
    nlinarith

theorem bernoulli_mul_le_one (ε : ℚ) (hε : 0 ≤ ε) (n : Nat) :
    (1 + ε) ^ n * (1 - n * ε) ≤ 1 := by
  induction n with
  | zero => simp
  | succ k ih =>
    have hpow : (0 : ℚ) ≤ (1 + ε) ^ k := by positivity
    have hk : (0 : ℚ) ≤ (k : ℚ) := by positivity
    rw [pow_succ]
    push_cast
    have hid : (1 + ε) ^ k * (1 + ε) * (1 - (k + 1) * ε) =
        (1 + ε) ^ k * (1 - k * ε) - (1 + ε) ^ k * ((k + 1) * ε * ε) := by ring
    rw [hid]
    have : (0 : ℚ) ≤ (1 + ε) ^ k * ((k + 1) * ε * ε) := by positivity
    linarith

/-- When the `float` sum of non-negative elapsed times exceeds 1000, their
exact sum falls short of 1000 by less than 1/16000 for each addition. -/
theorem sum_of_accumulatedTime_gt (l : List ℚ) (hl : ∀ dt ∈ l, 0 ≤ dt)
    (h : 1000 < accumulatedTime 0 l) :
    1000 - (l.length : ℚ) / 16000 < l.sum := by
  have hle := accumulatedTime_le_of_error (1 / 2 ^ 24) (1 / 2 ^ 150) (by positivity)
    (by positivity) float32_le l hl 0 (le_refl 0)
  have hb := bernoulli_mul_le_one (1 / 2 ^ 24) (by positivity) l.length
  generalize (1 + 1 / 2 ^ 24 : ℚ) ^ l.length = P at hle hb
  have hn : (0 : ℚ) ≤ (l.length : ℚ) := by positivity
  by_contra hcon
  rw [not_lt] at hcon
  have hP : 0 < P := by
    by_contra hP
    rw [not_lt] at hP
    have hs : 0 ≤ 0 + l.sum + l.length * (1 / 2 ^ 150) := by
      have := List.sum_nonneg hl
      positivity
    nlinarith
  have h1 : 0 + l.sum + l.length * (1 / 2 ^ 150) ≤ 1000 * (1 - l.length * (1 / 2 ^ 24)) := by
    have hc : (0 : ℚ) ≤ 1 / 16000 - 1 / 2 ^ 150 - 1000 * (1 / 2 ^ 24) := by norm_num
    nlinarith
  have h2 := mul_le_mul_of_nonneg_left h1 hP.le
  have h3 : P * (1000 * (1 - l.length * (1 / 2 ^ 24))) ≤ 1000 := by
    calc P * (1000 * (1 - l.length * (1 / 2 ^ 24)))
        = 1000 * (P * (1 - l.length * (1 / 2 ^ 24))) := by ring
      _ ≤ 1000 * 1 := by apply mul_le_mul_of_nonneg_left hb (by norm_num)
      _ = 1000 := by norm_num
  linarith

/-- C17, as the code has it: along every sequence of `onPaint` calls,
between a frame that pushes a caption and the next frame that does, the
time accumulated by the code exceeds 1000: the sum, rounded to `float` at
each addition, of the elapsed times `float(µs) * 0.001f` read by the timing
stage.  When the clock does not go backwards, the exact sum of these `n`
elapsed times exceeds `1000 - n/16000`.  Every caption pushed is "FPS: "
followed by the decimal form of the unsigned integer computed and stored in
`fps`. -/
theorem caption_updates_are_spaced (app : VkApp) (first : Frame) (between : List Frame)
    (next : Frame)
    (hfirst : captions (onPaint first app).events ≠ [])
    (hrun : (run between (onPaint first app).app).thrown = none)
    (hquiet : captions (run between (onPaint first app).app).events = [])
    (hnext : captions (onPaint next (run between (onPaint first app).app).app).events ≠ []) :
    1000 < accumulatedTime 0
      (timedElapsed (onPaint first app).app.timer (between ++ [next])) ∧
    ((∀ dt ∈ timedElapsed (onPaint first app).app.timer (between ++ [next]), 0 ≤ dt) →
      1000 - ((timedElapsed (onPaint first app).app.timer (between ++ [next])).length : ℚ) /
          16000 <
        (timedElapsed (onPaint first app).app.timer (between ++ [next])).sum) ∧
    captions (onPaint next (run between (onPaint first app).app).app).events =
      ["FPS: " ++ toString (onPaint next (run between (onPaint first app).app).app).app.fps] ∧
    (onPaint next (run between (onPaint first app).app).app).app.fps < 2 ^ 32 ∧
    (∀ caption ∈ captions (run (first :: between ++ [next]) app).events,
      ∃ n : Nat, n < 2 ^ 32 ∧ caption = "FPS: " ++ toString n) := by
  obtain ⟨_, _, f3, _, _, _, _⟩ := onPaint_caption first app hfirst
  obtain ⟨q1, q2⟩ := run_no_caption between (onPaint first app).app hrun hquiet
  obtain ⟨n1, n2, _, _, _, n6, n7⟩ :=
    onPaint_caption next (run between (onPaint first app).app).app hnext
  have hacc : 1000 < accumulatedTime 0
      (timedElapsed (onPaint first app).app.timer (between ++ [next])) := by
    rw [q2 [next], accumulatedTime_append, ← f3, ← q1]
    simp only [timedElapsed, n1, if_true, accumulatedTime]
    exact n2
  exact ⟨hacc, fun hpos => sum_of_accumulatedTime_gt _ hpos hacc, n6, n7,
    run_captions_format _ app⟩

/-- Witness for C17: a caption is pushed 1500 ms after the start; the next
one is pushed 1100 ms later, after a frame of 16 ms and an aborted frame. -/
theorem caption_updates_are_spaced_witness :
    captions (onPaint (Frame.succeeding 0 1500000000) startedApp).events ≠ [] ∧
    timedElapsed (onPaint (Frame.succeeding 0 1500000000) startedApp).app.timer
      (quietFrames ++ [Frame.succeeding 0 2600000000]) = [16, 1084] ∧
    1000 < accumulatedTime 0
      (timedElapsed (onPaint (Frame.succeeding 0 1500000000) startedApp).app.timer
        (quietFrames ++ [Frame.succeeding 0 2600000000])) ∧
    1000 - ((timedElapsed (onPaint (Frame.succeeding 0 1500000000) startedApp).app.timer
        (quietFrames ++ [Frame.succeeding 0 2600000000])).length : ℚ) / 16000 <
      (timedElapsed (onPaint (Frame.succeeding 0 1500000000) startedApp).app.timer
        (quietFrames ++ [Frame.succeeding 0 2600000000])).sum ∧
    captions (onPaint (Frame.succeeding 0 2600000000)
      (run quietFrames (onPaint (Frame.succeeding 0 1500000000) startedApp).app).app).events =
      ["FPS: 2"] :=
  have h := caption_updates_are_spaced startedApp (Frame.succeeding 0 1500000000) quietFrames
    (Frame.succeeding 0 2600000000) (by decide!) (by decide!) (by decide!) (by decide!)
  ⟨by decide!, by decide!, h.1, h.2.1 (by decide!), by decide!⟩

/-- C17 fails as stated: a caption is pushed 1500 ms after the start, and
the next one 189 frames of 5291 µs later.  Every call of these frames
succeeds and no caption is pushed in between; the 189 elapsed times sum to
999999 µs, less than one second, and the values `dt` read by the timing
stage sum to 65535939/65536, less than 1000, while `time`, rounded to
`float` at each addition, is 4074333/4096 after 188 frames and exceeds 1000
at the 189th. -/
theorem caption_after_less_than_a_second :
    captions (onPaint (Frame.succeeding 0 1500000000) startedApp).events = ["FPS: 2"] ∧
    (∀ f ∈ briefFrames, f.Succeeds) ∧
    (run briefFrames (onPaint (Frame.succeeding 0 1500000000) startedApp).app).thrown = none ∧
    captions (run briefFrames.dropLast
      (onPaint (Frame.succeeding 0 1500000000) startedApp).app).events = [] ∧
    captions (run briefFrames
      (onPaint (Frame.succeeding 0 1500000000) startedApp).app).events = ["FPS: 189"] ∧
    (elapsedMicros (onPaint (Frame.succeeding 0 1500000000) startedApp).app.timer
      briefFrames).sum = 999999 ∧
    (timedElapsed (onPaint (Frame.succeeding 0 1500000000) startedApp).app.timer
      briefFrames).sum = 65535939 / 65536 ∧
    (run briefFrames.dropLast
      (onPaint (Frame.succeeding 0 1500000000) startedApp).app).app.time = 4074333 / 4096 ∧
    float32 (4074333 / 4096 + 346751 / 65536) = 4096005 / 4096 := by
  decide!

end VkSample
